import Mathlib

/-!
# Givento storefront backend: request handlers over a document store

A shallow embedding of the serverless handlers (`api/products.js`,
`api/products/latest.js`, `api/orders.js`, `api/auth.js`, `api/categories.js`,
`api/health.js`), of the consolidated routers (`api/index.js`,
`api/api/index.js`), of the Express product routes
(`backend/routes/products.js`, `backend/models/Product.js`) and of the local
test script (`backend/test-local.js`).

Conventions of the embedding.

* A request body is a JSON value (`JVal`); JavaScript `undefined` is `none` of
  `Option JVal`.  Truthiness, `||`, `.length`, `===` and destructuring follow
  ECMAScript.
* JavaScript numbers are `JSNum`: `NaN` or a finite value, finite values being
  rationals standing for doubles.
* The document store is a list of documents per collection, in insertion
  (natural) order.  Documents are schema-cast documents; the identifiers of
  order item sub-documents are not represented.
* `doc.save()` validates the whole document against the schema of the model
  that loaded it (Mongoose validates required, loaded and modified paths);
  `findByIdAndUpdate` casts its update and runs no validator.
* Library primitives whose result is text- or crypto-level (number printing,
  `parseFloat` on a string, `trim`, `JSON.parse`, `bcrypt`, casts of values of
  a foreign JSON type, update operators) are fields of `Lib`; every definition
  is a function of them.
* An order document carries the paths of both order schemas (`api/orders.js`
  and `api/index.js`), the two models sharing the `orders` collection.
* `new RegExp(name, 'i')` is matched here for patterns of plain characters and
  `.`; `url.parse(u).pathname` is computed here for plain origin-form paths.
* Each serverless handler runs `connectDB` first, as the source does;
  `Env.mongoUp` says whether `mongoose.connect` resolves.  The Express route is
  a function of the store the server is connected to.
-/

namespace Givento

/-! ## JavaScript values -/

/-- JavaScript number: `NaN` or a finite value. -/
inductive JSNum where
  | nan
  | fin (q : ℚ)
deriving DecidableEq

/-- JSON value, as found in a parsed request body. -/
inductive JVal where
  | null
  | bool (b : Bool)
  | num (n : JSNum)
  | str (s : String)
  | arr (xs : List JVal)
  | obj (fs : List (String × JVal))

/-- Errors thrown inside a handler's `try` block and answered by its `catch`. -/
inductive Err where
  | connection
  | typeError
  | castError (path : String)
  | validationError (paths : List String)
  | duplicateKey
  | illegalArguments
  | other (msg : String)
deriving DecidableEq

/-- ECMAScript ToBoolean; `none` is `undefined`. -/
def truthy : Option JVal → Bool
  | none => false
  | some .null => false
  | some (.bool b) => b
  | some (.num .nan) => false
  | some (.num (.fin q)) => q ≠ 0
  | some (.str s) => s ≠ ""
  | some (.arr _) => true
  | some (.obj _) => true

/-- First binding of key `k` in an object's field list. -/
def lookupField (k : String) : List (String × JVal) → Option JVal
  | [] => none
  | (k', v) :: fs => if k' = k then some v else lookupField k fs

/-- Property read `v[k]` for the property names the handlers destructure
(none of which is a built-in property of strings, arrays, numbers or booleans). -/
def getProp (v : JVal) (k : String) : Option JVal :=
  match v with
  | .obj fs => lookupField k fs
  | _ => none

/-- Destructuring `const { ... } = req.body`: throws a TypeError on `undefined`
and `null`, yields a property reader otherwise. -/
def destructure : Option JVal → Except Err (String → Option JVal)
  | none => .error .typeError
  | some .null => .error .typeError
  | some v => .ok (getProp v)

/-- The `.length` property of a value. -/
def jsLength : JVal → Option JVal
  | .str s => some (.num (.fin s.length))
  | .arr xs => some (.num (.fin xs.length))
  | .obj fs => lookupField "length" fs
  | _ => none

/-- Strict comparison `x === 0`. -/
def isZero : Option JVal → Bool
  | some (.num (.fin q)) => q = 0
  | _ => false

/-- JavaScript `a || b`. -/
def jsOr (a : Option JVal) (b : Option JVal) : Option JVal :=
  if truthy a then a else b

/-! ## Object identifiers -/

/-- A store identifier: twelve bytes, kept as 24 hexadecimal digits. -/
structure ObjectId where
  digits : List (Fin 16)
  len : digits.length = 24
deriving DecidableEq

/-- Value of a hexadecimal digit character, either case. -/
def hexVal (c : Char) : Option (Fin 16) :=
  if '0' ≤ c ∧ c ≤ '9' then some (Fin.ofNat (c.toNat - 48))
  else if 'a' ≤ c ∧ c ≤ 'f' then some (Fin.ofNat (c.toNat - 87))
  else if 'A' ≤ c ∧ c ≤ 'F' then some (Fin.ofNat (c.toNat - 55))
  else none

/-- Lower-case hexadecimal digit character. -/
def hexChar (d : Fin 16) : Char :=
  if d.val < 10 then Char.ofNat (48 + d.val) else Char.ofNat (87 + d.val)

/-- Digits of a list of characters, when all of them are hexadecimal. -/
def hexDigits : List Char → Option (List (Fin 16))
  | [] => some []
  | c :: cs =>
    match hexVal c, hexDigits cs with
    | some d, some ds => some (d :: ds)
    | _, _ => none

/-- The two hexadecimal digits of each character code (modulo 256). -/
def byteDigits : List Char → List (Fin 16)
  | [] => []
  | c :: cs => Fin.ofNat ((c.toNat % 256) / 16) :: Fin.ofNat (c.toNat % 16) :: byteDigits cs

/-- An identifier from 24 digits. -/
def mkObjectId (ds : List (Fin 16)) : Option ObjectId :=
  if h : ds.length = 24 then some ⟨ds, h⟩ else none

/-- Cast of a path segment to an identifier, as `mongoose.Types.ObjectId` does:
a string of 24 hexadecimal characters, or any string of 12 characters taken as
12 bytes. -/
def castObjectId (s : String) : Option ObjectId :=
  if s.data.length = 12 then mkObjectId (byteDigits s.data)
  else if s.data.length = 24 then (hexDigits s.data).bind mkObjectId
  else none

/-- Embedding of `mongoose.Types.ObjectId.isValid` on a string. -/
def ObjectId.isValid (s : String) : Bool := (castObjectId s).isSome

/-- Embedding of `ObjectId.prototype.toHexString`. -/
def ObjectId.toHexString (o : ObjectId) : String := String.mk (o.digits.map hexChar)

/-! ## Request paths -/

/-- Pieces of a character list between occurrences of `sep` (ECMAScript `split`). -/
def splitOn (sep : Char) : List Char → List (List Char)
  | [] => [[]]
  | c :: cs =>
    if c = sep then [] :: splitOn sep cs
    else
      match splitOn sep cs with
      | [] => [[c]]
      | seg :: segs => (c :: seg) :: segs

/-- The `url.split('?')[0]` step: the part before the first question mark. -/
def cleanUrl (u : List Char) : List Char := u.takeWhile (fun c => c ≠ '?')

/-- The `cleanUrl.replace(/^\/api\/name\/?/, '')` step: drops a leading route
and one slash after it, when present. -/
def dropRoute (route : List Char) (u : List Char) : List Char :=
  if route.isPrefixOf u then
    match u.drop route.length with
    | '/' :: rest => rest
    | rest => rest
  else u

/-- The `apiPath.split('/').filter(Boolean)` step: the non-empty segments. -/
def segmentsOf (u : List Char) : List String :=
  ((splitOn '/' u).filter (fun seg => seg ≠ [])).map String.mk

/-- Path parts of `api/products.js` and `api/orders.js`: query string removed,
mount route removed, split into segments. -/
def pathParts (route : String) (url : String) : List String :=
  segmentsOf (dropRoute route.data (cleanUrl url.data))

/-! ## Documents and the store -/

/-- A product document (`ProductSchema`, `timestamps: true`). -/
structure Product where
  _id : ObjectId
  name : Option String
  description : Option String
  originalPrice : Option ℚ
  salePrice : Option ℚ
  category : Option String
  sizes : List (Option String)
  colors : List (Option String)
  images : List (Option String)
  isAvailable : Bool
  createdAt : Nat
  updatedAt : Nat
  __v : Nat
deriving DecidableEq

/-- A user document (`UserSchema`). -/
structure User where
  _id : ObjectId
  name : String
  email : String
  password : String
  isAdmin : Bool
  createdAt : Nat
  updatedAt : Nat
deriving DecidableEq

/-- An item sub-document of an order (`OrderSchema.items` of `api/orders.js`). -/
structure OrderItem where
  product : Option String
  productName : Option String
  quantity : Option ℚ
  size : Option String
  color : Option String
  price : Option ℚ
  image : Option String
  /-- Path `productId` of the item schema of `api/index.js`. -/
  productId : Option ObjectId := none
  /-- Path `name` of the item schema of `api/index.js`. -/
  name : Option String := none
deriving DecidableEq

/-- The nested path `customerInfo` of `OrderSchema` of `api/index.js`. -/
structure CustomerInfo where
  name : Option String := none
  email : Option String := none
  phone : Option String := none
deriving DecidableEq

/-- The nested path `shippingAddress` of `OrderSchema` of `api/index.js`. -/
structure ShippingAddress where
  street : Option String := none
  city : Option String := none
  state : Option String := none
  zipCode : Option String := none
  country : Option String := none
deriving DecidableEq

/-- An order document of the `orders` collection: the paths of `OrderSchema`
of `api/orders.js` and, after them, the paths only `OrderSchema` of
`api/index.js` has; a `none` item is a sparse (null) array entry. -/
structure Order where
  _id : ObjectId
  customerName : Option String
  customerPhone : Option String
  alternatePhone : Option String
  customerAddress : Option String
  items : List (Option OrderItem)
  totalAmount : Option ℚ
  status : Option String
  createdAt : Nat
  updatedAt : Nat
  __v : Nat
  customerInfo : CustomerInfo := {}
  shippingAddress : ShippingAddress := {}
deriving DecidableEq

/-- The collections of the document store. -/
structure Store where
  products : List Product
  users : List User
  orders : List Order
deriving DecidableEq

/-- What a request finds outside the store. -/
structure Env where
  /-- Result of `Date.now()`, in milliseconds. -/
  now : Nat
  /-- Identifier the driver generates for a document constructed in this request. -/
  newId : ObjectId
  /-- Content of `process.env.JWT_SECRET`, `none` when unset or empty. -/
  jwtSecret : Option String
  /-- Whether `mongoose.connect` resolves. -/
  mongoUp : Bool
  /-- Result of `bcrypt.genSalt(10)`. -/
  salt : String
  /-- Value of `mongoose.connection.readyState` read after `connectDB`. -/
  readyState : Nat

/-- Store plus the module-level connection cache of a handler. -/
structure World where
  store : Store
  /-- The cached connection, named by the ordinal of the connect call that made it. -/
  cachedConnection : Option Nat
  /-- Number of `mongoose.connect` invocations so far. -/
  connectCalls : Nat
deriving DecidableEq

/-- Embedding of `connectDB`: returns the cached connection when there is one,
otherwise connects, caching the connection on success and rethrowing on failure. -/
def connectDB (env : Env) (w : World) : Except Err Nat × World :=
  match w.cachedConnection with
  | some c => (.ok c, w)
  | none =>
    if env.mongoUp then
      (.ok (w.connectCalls + 1),
        { w with cachedConnection := some (w.connectCalls + 1), connectCalls := w.connectCalls + 1 })
    else
      (.error .connection, { w with connectCalls := w.connectCalls + 1 })

/-- A signed token: the payload of `jwt.sign`, the issue and expiry times in
seconds, and the secret it was signed with (standing for the signature). -/
structure Token where
  userId : ObjectId
  isAdmin : Bool
  iat : Nat
  exp : Nat
  key : String
deriving DecidableEq

/-- The public projection of a user returned with a token. -/
structure PublicUser where
  id : ObjectId
  name : String
  email : String
  isAdmin : Bool
deriving DecidableEq

/-- JSON bodies the handlers send. -/
inductive Body where
  | empty
  | null
  | message (m : String)
  | serverError (e : Err)
  | product (p : Product)
  | products (ps : List Product)
  | order (o : Order)
  | orders (os : List Order)
  | session (token : Token) (user : PublicUser)
  | categories (entries : List (String × String))
  | orderPopulated (o : Order) (products : List (Option Product))
  | health (message : String) (mongodb : String) (timestamp : Nat)
  | healthReport (status message mongodb : String) (timestamp : Nat) (environment : String)
  | healthError (status message : String) (error : Err) (timestamp : Nat)
  | apiInfo (status message mongodb : String) (timestamp : Nat) (endpoints : List String)
deriving DecidableEq

/-- A response: status code and body. -/
structure Response where
  status : Nat
  body : Body
deriving DecidableEq

/-- A request to a serverless handler. -/
structure Request where
  method : String
  url : String
  body : Option JVal

/-- The `res.json(x)` call: status 200. -/
def Response.json (b : Body) : Response := ⟨200, b⟩

/-! ## Library primitives -/

/-- Library primitives the handlers call and the embedding does not unfold. -/
structure Lib where
  /-- `parseFloat` applied to a string. -/
  parseFloatStr : String → JSNum
  /-- `Array.prototype.toString` (elements joined by commas). -/
  arrToString : List JVal → String
  /-- Mongoose String cast of a value that is neither a string nor null. -/
  castStringOther : JVal → Except Err (Option String)
  /-- Mongoose Number cast of a value that is neither a number nor null. -/
  castNumberOther : JVal → Except Err (Option ℚ)
  /-- Mongoose cast of a product update document that is not an object of
  plain schema paths (update operators, dotted paths, unknown or null-valued
  paths, a missing body). -/
  productUpdateOther : Option JVal → Except Err (Product → Product)
  /-- Mongoose cast of an order item that is not an object (a primitive or an
  array inside `items`); `none` is an entry kept as a sparse entry. -/
  castItemOther : JVal → Except Err (Option OrderItem)
  /-- Mongoose cast of an order update document that is not an object of plain
  schema paths. -/
  orderUpdateOther : Option JVal → Except Err (Order → Order)
  /-- The `.populate('items.productId')` step on a found order. -/
  populateItems : Order → Except Err Order
  /-- `String.prototype.trim`, the setter of a schema path with `trim: true`. -/
  trim : String → String
  /-- `JSON.parse` on a string; `none` when it throws a SyntaxError. -/
  jsonParse : String → Option JVal
  /-- `User.findOne({ email })` for an email that is not a string (a filter
  value Mongoose casts, or a query operator object). -/
  findUserOther : JVal → List User → Except Err (Option User)
  /-- `User.findOne({ email: undefined })`, the query of a login without email. -/
  findUserNoEmail : List User → Except Err (Option User)
  /-- `bcrypt.compare(password, hash)` on two strings. -/
  bcryptCompare : String → String → Bool
  /-- `bcrypt.hash(password, salt)` on two strings. -/
  bcryptHash : String → String → String
  /-- `String.prototype.toLowerCase`. -/
  toLowerCase : String → String
  /-- Case folding of a character under the `i` flag of a regular expression. -/
  foldCase : Char → Char
  /-- Whether `.` in a regular expression matches the given line terminator. -/
  dotMatchesLineEnd : Char → Bool
  /-- `new RegExp(pattern, 'i')` for a pattern with a metacharacter other than
  `.`: `none` when the constructor throws a SyntaxError, otherwise the test
  the expression performs on a string. -/
  regexOther : String → Option (String → Bool)
  /-- `url.parse(u, true).pathname` for a request URL that is not a plain
  origin-form path (one starting with two slashes or not with a slash, or
  holding whitespace, a hash or a backslash); `none` is `null`. -/
  urlPathnameOther : String → Option String
  /-- Mongoose ObjectId cast of a value that is neither a string nor null. -/
  castObjectIdOther : JVal → Except Err (Option ObjectId)
  /-- Mongoose cast of a `shippingAddress` that is given and is not an object. -/
  castShippingOther : JVal → Except Err ShippingAddress
  /-- Mongoose cast, against `OrderSchema` of `api/index.js`, of an order update
  document that is not an object of the paths `totalAmount` and `status`. -/
  indexOrderUpdateOther : Option JVal → Except Err (Order → Order)

/-- Global `parseFloat`: a number is returned as it is, a string is parsed,
`undefined`, `null`, booleans and plain objects give `NaN`. -/
def parseFloat (L : Lib) : Option JVal → JSNum
  | some (.num n) => n
  | some (.str s) => L.parseFloatStr s
  | some (.arr xs) => L.parseFloatStr (L.arrToString xs)
  | _ => .nan

/-! ## Mongoose casts and validators -/

/-- Mongoose String cast: `undefined` and `null` stay unset, a string is kept. -/
def castString (L : Lib) : Option JVal → Except Err (Option String)
  | none => .ok none
  | some .null => .ok none
  | some (.str s) => .ok (some s)
  | some v => L.castStringOther v

/-- Mongoose Number cast: `undefined` and `null` stay unset, `NaN` is a cast
error, a finite number is kept. -/
def castNumber (L : Lib) : Option JVal → Except Err (Option ℚ)
  | none => .ok none
  | some .null => .ok none
  | some (.num .nan) => .error (.castError "Number")
  | some (.num (.fin q)) => .ok (some q)
  | some v => L.castNumberOther v

/-- Mongoose Boolean cast: `true`, `'true'`, `1`, `'1'`, `'yes'` convert to
true, `false`, `'false'`, `0`, `'0'`, `'no'` to false, `null` stays unset, any
other value is a cast error. -/
def castBoolean : JVal → Except Err (Option Bool)
  | .null => .ok none
  | .bool b => .ok (some b)
  | .str s =>
    if s = "true" ∨ s = "1" ∨ s = "yes" then .ok (some true)
    else if s = "false" ∨ s = "0" ∨ s = "no" then .ok (some false)
    else .error (.castError "Boolean")
  | .num (.fin q) =>
    if q = 1 then .ok (some true) else if q = 0 then .ok (some false)
    else .error (.castError "Boolean")
  | _ => .error (.castError "Boolean")

/-- Cast of each element of an array of strings. -/
def castStrings (L : Lib) : List JVal → Except Err (List (Option String))
  | [] => .ok []
  | v :: vs =>
    match castString L (some v), castStrings L vs with
    | .ok x, .ok xs => .ok (x :: xs)
    | .error e, _ => .error e
    | _, .error e => .error e

/-- Mongoose cast to an array of strings: an array is cast element by element,
any other value is first wrapped into a one-element array. -/
def castStringArray (L : Lib) : JVal → Except Err (List (Option String))
  | .arr xs => castStrings L xs
  | v => castStrings L [v]

/-- The value of a cast, or the default of the path when the cast failed. -/
def castValue {α : Type} (d : α) : Except Err α → α
  | .ok a => a
  | .error _ => d

/-- The path, when its cast failed. -/
def castFailure {α : Type} (path : String) : Except Err α → List String
  | .ok _ => []
  | .error _ => [path]

/-- The `required` validator of a String path: a non-empty string. -/
def requiredString : Option String → Bool
  | some s => s ≠ ""
  | none => false

/-- Paths `images.i` whose element fails `required`, counting from `i`. -/
def imageFailures : Nat → List (Option String) → List String
  | _, [] => []
  | i, x :: xs =>
    (if requiredString x then [] else ["images." ++ toString i]) ++ imageFailures (i + 1) xs

/-- Validation of a product against `ProductSchema` of the serverless handlers:
the paths failing a validator. -/
def productFailures (p : Product) : List String :=
  (if requiredString p.name then [] else ["name"]) ++
  (if requiredString p.description then [] else ["description"]) ++
  (if p.originalPrice.isSome then [] else ["originalPrice"]) ++
  (if p.salePrice.isSome then [] else ["salePrice"]) ++
  (if requiredString p.category then [] else ["category"]) ++
  imageFailures 0 p.images

/-! ## Collection operations -/

/-- Embedding of `Product.findById`: the document with that identifier. -/
def findById (oid : ObjectId) (ps : List Product) : Option Product :=
  ps.find? (fun p => p._id = oid)

/-- Replaces the first document with the identifier of `p` by `p`. -/
def replaceById (p : Product) : List Product → List Product
  | [] => []
  | q :: qs => if q._id = p._id then p :: qs else q :: replaceById p qs

/-- Removes the first document with that identifier. -/
def removeById (oid : ObjectId) : List Product → List Product
  | [] => []
  | q :: qs => if q._id = oid then qs else q :: removeById oid qs

/-- Insertion of `p` at its place in a list ordered newest first. -/
def insertNewest (p : Product) : List Product → List Product
  | [] => [p]
  | q :: qs => if q.createdAt ≤ p.createdAt then p :: q :: qs else q :: insertNewest p qs

/-- Embedding of `.sort({ createdAt: -1 })`: newest first. -/
def sortNewest : List Product → List Product
  | [] => []
  | p :: ps => insertNewest p (sortNewest ps)

/-- Embedding of `doc.save()` for a new product built with cast failures
`castErrs`: validation, then insertion under a unique identifier. -/
def saveNewProduct (castErrs : List String) (p : Product) (s : Store) : Except Err Store :=
  if castErrs ++ productFailures p ≠ [] then .error (.validationError (castErrs ++ productFailures p))
  else if (findById p._id s.products).isSome then .error .duplicateKey
  else .ok { s with products := s.products ++ [p] }

/-- Embedding of `doc.save()` for a loaded, modified product: validation, then
the stored document is replaced, with `updatedAt` set. -/
def saveProduct (now : Nat) (p : Product) (s : Store) : Except Err (Product × Store) :=
  if productFailures p ≠ [] then .error (.validationError (productFailures p))
  else .ok ({ p with updatedAt := now }, { s with products := replaceById { p with updatedAt := now } s.products })

/-- The `$set` of one plain schema path of a product, cast by the schema. -/
def productSetter (L : Lib) (k : String) (v : JVal) : Except Err (Product → Product) :=
  if k = "name" then (castString L (some v)).map (fun x p => { p with name := x })
  else if k = "description" then (castString L (some v)).map (fun x p => { p with description := x })
  else if k = "originalPrice" then (castNumber L (some v)).map (fun x p => { p with originalPrice := x })
  else if k = "salePrice" then (castNumber L (some v)).map (fun x p => { p with salePrice := x })
  else if k = "category" then (castString L (some v)).map (fun x p => { p with category := x })
  else if k = "sizes" then (castStringArray L v).map (fun x p => { p with sizes := x })
  else if k = "colors" then (castStringArray L v).map (fun x p => { p with colors := x })
  else if k = "images" then (castStringArray L v).map (fun x p => { p with images := x })
  else (castBoolean v).map (fun x p => { p with isAvailable := x.getD p.isAvailable })

/-- Whether a binding of an update document is a plain schema path with a value
the embedding casts itself. -/
def plainProductPath (kv : String × JVal) : Bool :=
  match kv.2 with
  | .null => kv.1 ∈ ["name", "description", "originalPrice", "salePrice", "category"]
  | _ => kv.1 ∈ ["name", "description", "originalPrice", "salePrice", "category",
      "sizes", "colors", "images", "isAvailable"]

/-- The setters of all bindings, composed in order. -/
def castProductSets (L : Lib) : List (String × JVal) → Except Err (Product → Product)
  | [] => .ok id
  | (k, v) :: fs =>
    match productSetter L k v, castProductSets L fs with
    | .ok f, .ok g => .ok (g ∘ f)
    | .error e, _ => .error e
    | _, .error e => .error e

/-- Mongoose cast of the update document of `findByIdAndUpdate` (no validators
run on updates). -/
def castProductUpdate (L : Lib) (body : Option JVal) : Except Err (Product → Product) :=
  match body with
  | some (.obj fs) =>
    if fs.all plainProductPath then castProductSets L fs else L.productUpdateOther body
  | _ => L.productUpdateOther body

/-! ## The products handler (`api/products.js`) -/

/-- New document of `POST /api/products`: the casts of `new Product({...})`,
with the paths whose cast failed. -/
def newProduct (L : Lib) (env : Env) (f : String → Option JVal) : Product × List String :=
  let name := castString L (f "name")
  let description := castString L (f "description")
  let originalPrice := castNumber L (some (.num (parseFloat L (f "originalPrice"))))
  let salePrice := castNumber L (some (.num (parseFloat L (f "salePrice"))))
  let category := castString L (f "category")
  let sizes := castStringArray L ((jsOr (f "sizes") (some (.arr []))).getD (.arr []))
  let colors := castStringArray L ((jsOr (f "colors") (some (.arr []))).getD (.arr []))
  let images := castStringArray L ((jsOr (f "images") (some (.arr []))).getD (.arr []))
  ({ _id := env.newId
     name := castValue none name
     description := castValue none description
     originalPrice := castValue none originalPrice
     salePrice := castValue none salePrice
     category := castValue none category
     sizes := castValue [] sizes
     colors := castValue [] colors
     images := castValue [] images
     isAvailable := true
     createdAt := env.now
     updatedAt := env.now
     __v := 0 },
   castFailure "name" name ++ castFailure "description" description ++
   castFailure "originalPrice" originalPrice ++ castFailure "salePrice" salePrice ++
   castFailure "category" category ++ castFailure "sizes" sizes ++
   castFailure "colors" colors ++ castFailure "images" images)

/-- Clause `GET /api/products`: all products, newest first. -/
def productsList (w : World) : Except Err Response × World :=
  (.ok (.json (.products (sortNewest w.store.products))), w)

/-- Clause `GET /api/products/latest`: `findOne().sort({ createdAt: -1 })`. -/
def productsLatest (w : World) : Except Err Response × World :=
  match (sortNewest w.store.products).head? with
  | some p => (.ok (.json (.product p)), w)
  | none => (.ok (.json .null), w)

/-- Clause `GET /api/products/:id`. -/
def productsGet (productId : String) (w : World) : Except Err Response × World :=
  match castObjectId productId with
  | none => (.ok ⟨400, .message "Invalid product ID"⟩, w)
  | some oid =>
    match findById oid w.store.products with
    | none => (.ok ⟨404, .message "Product not found"⟩, w)
    | some p => (.ok (.json (.product p)), w)

/-- Clause `PUT /api/products/:id/toggle`. -/
def productsToggle (env : Env) (productId : String) (w : World) : Except Err Response × World :=
  match castObjectId productId with
  | none => (.ok ⟨400, .message "Invalid product ID"⟩, w)
  | some oid =>
    match findById oid w.store.products with
    | none => (.ok ⟨404, .message "Product not found"⟩, w)
    | some p =>
      match saveProduct env.now { p with isAvailable := !p.isAvailable } w.store with
      | .error e => (.error e, w)
      | .ok (p1, s1) => (.ok (.json (.product p1)), { w with store := s1 })

/-- Clause `PUT /api/products/:id`: `findByIdAndUpdate(id, req.body, { new: true })`. -/
def productsUpdate (L : Lib) (env : Env) (productId : String) (body : Option JVal) (w : World) :
    Except Err Response × World :=
  match castObjectId productId with
  | none => (.ok ⟨400, .message "Invalid product ID"⟩, w)
  | some oid =>
    match castProductUpdate L body with
    | .error e => (.error e, w)
    | .ok f =>
      match findById oid w.store.products with
      | none => (.ok ⟨404, .message "Product not found"⟩, w)
      | some p =>
        let p1 := { f p with _id := p._id, createdAt := p.createdAt, updatedAt := env.now }
        (.ok (.json (.product p1)),
          { w with store := { w.store with products := replaceById p1 w.store.products } })

/-- Clause `DELETE /api/products/:id`: `findByIdAndDelete(id)`. -/
def productsDelete (productId : String) (w : World) : Except Err Response × World :=
  match castObjectId productId with
  | none => (.ok ⟨400, .message "Invalid product ID"⟩, w)
  | some oid =>
    match findById oid w.store.products with
    | none => (.ok ⟨404, .message "Product not found"⟩, w)
    | some _ =>
      (.ok (.json (.message "Product deleted successfully")),
        { w with store := { w.store with products := removeById oid w.store.products } })

/-- Clause `POST /api/products`. -/
def productsCreate (L : Lib) (env : Env) (body : Option JVal) (w : World) : Except Err Response × World :=
  match destructure body with
  | .error e => (.error e, w)
  | .ok f =>
    if !truthy (f "images") || isZero ((f "images").bind jsLength) then
      (.ok ⟨400, .message "At least one image is required"⟩, w)
    else
      match saveNewProduct (newProduct L env f).2 (newProduct L env f).1 w.store with
      | .error e => (.error e, w)
      | .ok s1 => (.ok ⟨201, .product (newProduct L env f).1⟩, { w with store := s1 })

/-- The route table of `api/products.js`, tried in the order of the source. -/
def productsRoutes (L : Lib) (env : Env) (req : Request) (w : World) : Except Err Response × World :=
  let parts := pathParts "/api/products" req.url
  if req.method = "GET" ∧ parts.length = 0 then productsList w
  else if req.method = "GET" ∧ parts.head? = some "latest" then productsLatest w
  else if req.method = "GET" ∧ parts.length = 1 ∧ parts.head? ≠ some "latest" then
    productsGet (parts.headD "") w
  else if req.method = "PUT" ∧ parts.length = 2 ∧ parts.get? 1 = some "toggle" then
    productsToggle env (parts.headD "") w
  else if req.method = "PUT" ∧ parts.length = 1 then productsUpdate L env (parts.headD "") req.body w
  else if req.method = "DELETE" ∧ parts.length = 1 then productsDelete (parts.headD "") w
  else if req.method = "POST" ∧ parts.length = 0 then productsCreate L env req.body w
  else (.ok ⟨404, .message "Route not found"⟩, w)

/-- Shape shared by the serverless handlers: the preflight answer, then
`connectDB` and the routes inside `try`, any thrown error answered 500. -/
def serve (routes : World → Except Err Response × World) (env : Env) (req : Request) (w : World) :
    Response × World :=
  if req.method = "OPTIONS" then (⟨200, .empty⟩, w)
  else
    match connectDB env w with
    | (.error e, w1) => (⟨500, .serverError e⟩, w1)
    | (.ok _, w1) =>
      match routes w1 with
      | (.ok r, w2) => (r, w2)
      | (.error e, w2) => (⟨500, .serverError e⟩, w2)

/-- The handler exported by `api/products.js`. -/
def productsHandler (L : Lib) (env : Env) (req : Request) (w : World) : Response × World :=
  serve (productsRoutes L env req) env req w

/-! ## The orders handler (`api/orders.js`) -/

/-- Cast of one entry of `items` to a sub-document of `OrderSchema.items`. -/
def castItem (L : Lib) : JVal → Except Err (Option OrderItem)
  | .obj fs =>
    match castString L (lookupField "product" fs), castString L (lookupField "productName" fs),
      castNumber L (lookupField "quantity" fs), castString L (lookupField "size" fs),
      castString L (lookupField "color" fs), castNumber L (lookupField "price" fs),
      castString L (lookupField "image" fs) with
    | .ok product, .ok productName, .ok quantity, .ok size, .ok color, .ok price, .ok image =>
      .ok (some
        { product := product, productName := productName, quantity := quantity,
          size := size, color := color, price := price, image := image })
    | _, _, _, _, _, _, _ => .error (.castError "items")
  | v => L.castItemOther v

/-- Cast of each entry of an array of items. -/
def castItemList (L : Lib) : List JVal → Except Err (List (Option OrderItem))
  | [] => .ok []
  | v :: vs =>
    match castItem L v, castItemList L vs with
    | .ok x, .ok xs => .ok (x :: xs)
    | .error e, _ => .error e
    | _, .error e => .error e

/-- Mongoose cast to the document array `items`: an array is cast entry by
entry, any other value is first wrapped into a one-element array. -/
def castItems (L : Lib) : JVal → Except Err (List (Option OrderItem))
  | .arr xs => castItemList L xs
  | v => castItemList L [v]

/-- Paths of item `i` failing a `required` validator. -/
def itemFailures (i : Nat) (it : OrderItem) : List String :=
  (if requiredString it.product then [] else ["items." ++ toString i ++ ".product"]) ++
  (if requiredString it.productName then [] else ["items." ++ toString i ++ ".productName"]) ++
  (if it.quantity.isSome then [] else ["items." ++ toString i ++ ".quantity"]) ++
  (if requiredString it.size then [] else ["items." ++ toString i ++ ".size"]) ++
  (if requiredString it.color then [] else ["items." ++ toString i ++ ".color"]) ++
  (if it.price.isSome then [] else ["items." ++ toString i ++ ".price"])

/-- Failing paths of the items from index `i` on; sparse entries are skipped. -/
def itemsFailures : Nat → List (Option OrderItem) → List String
  | _, [] => []
  | i, none :: xs => itemsFailures (i + 1) xs
  | i, some it :: xs => itemFailures i it ++ itemsFailures (i + 1) xs

/-- The values of the `status` enum of `OrderSchema`. -/
def orderStatuses : List String := ["pending", "confirmed", "shipped", "delivered", "cancelled"]

/-- Validation of an order against `OrderSchema` of `api/orders.js`: the paths
failing a validator. -/
def orderFailures (o : Order) : List String :=
  (if requiredString o.customerName then [] else ["customerName"]) ++
  (if requiredString o.customerPhone then [] else ["customerPhone"]) ++
  (if requiredString o.customerAddress then [] else ["customerAddress"]) ++
  itemsFailures 0 o.items ++
  (if o.totalAmount.isSome then [] else ["totalAmount"]) ++
  (match o.status with
    | none => []
    | some st => if st ∈ orderStatuses then [] else ["status"])

/-- Embedding of `Order.findById`. -/
def findOrderById (oid : ObjectId) (os : List Order) : Option Order :=
  os.find? (fun o => o._id = oid)

/-- Replaces the first order with the identifier of `o` by `o`. -/
def replaceOrderById (o : Order) : List Order → List Order
  | [] => []
  | q :: qs => if q._id = o._id then o :: qs else q :: replaceOrderById o qs

/-- Insertion of `o` at its place in a list of orders, newest first. -/
def insertNewestOrder (o : Order) : List Order → List Order
  | [] => [o]
  | q :: qs => if q.createdAt ≤ o.createdAt then o :: q :: qs else q :: insertNewestOrder o qs

/-- Embedding of `.sort({ createdAt: -1 })` on orders. -/
def sortNewestOrders : List Order → List Order
  | [] => []
  | o :: os => insertNewestOrder o (sortNewestOrders os)

/-- Embedding of `order.save()` for a new order built with cast failures `castErrs`. -/
def saveNewOrder (castErrs : List String) (o : Order) (s : Store) : Except Err Store :=
  if castErrs ++ orderFailures o ≠ [] then .error (.validationError (castErrs ++ orderFailures o))
  else if (findOrderById o._id s.orders).isSome then .error .duplicateKey
  else .ok { s with orders := s.orders ++ [o] }

/-- The `$set` of one plain schema path of an order, cast by the schema. -/
def orderSetter (L : Lib) (k : String) (v : JVal) : Except Err (Order → Order) :=
  if k = "customerName" then (castString L (some v)).map (fun x o => { o with customerName := x })
  else if k = "customerPhone" then (castString L (some v)).map (fun x o => { o with customerPhone := x })
  else if k = "alternatePhone" then (castString L (some v)).map (fun x o => { o with alternatePhone := x })
  else if k = "customerAddress" then
    (castString L (some v)).map (fun x o => { o with customerAddress := x })
  else if k = "totalAmount" then (castNumber L (some v)).map (fun x o => { o with totalAmount := x })
  else if k = "status" then (castString L (some v)).map (fun x o => { o with status := x })
  else (castItems L v).map (fun x o => { o with items := x })

/-- Whether a binding of an update document is a plain schema path of an order
with a value the embedding casts itself. -/
def plainOrderPath (kv : String × JVal) : Bool :=
  match kv.2 with
  | .null => kv.1 ∈ ["customerName", "customerPhone", "alternatePhone", "customerAddress",
      "totalAmount", "status"]
  | _ => kv.1 ∈ ["customerName", "customerPhone", "alternatePhone", "customerAddress",
      "totalAmount", "status", "items"]

/-- The setters of all bindings, composed in order. -/
def castOrderSets (L : Lib) : List (String × JVal) → Except Err (Order → Order)
  | [] => .ok id
  | (k, v) :: fs =>
    match orderSetter L k v, castOrderSets L fs with
    | .ok f, .ok g => .ok (g ∘ f)
    | .error e, _ => .error e
    | _, .error e => .error e

/-- Mongoose cast of the update document of `Order.findByIdAndUpdate` (no
validators run on updates). -/
def castOrderUpdate (L : Lib) (body : Option JVal) : Except Err (Order → Order) :=
  match body with
  | some (.obj fs) =>
    if fs.all plainOrderPath then castOrderSets L fs else L.orderUpdateOther body
  | _ => L.orderUpdateOther body

/-- New document of `POST /api/orders`: the casts of `new Order({...})`, with
the paths whose cast failed. -/
def newOrder (L : Lib) (env : Env) (f : String → Option JVal) : Order × List String :=
  let customerName := castString L (f "customerName")
  let customerPhone := castString L (f "customerPhone")
  let alternatePhone := castString L (jsOr (f "alternatePhone") (some (.str "")))
  let customerAddress := castString L (f "customerAddress")
  let items := castItems L ((f "items").getD (.arr []))
  let totalAmount := castNumber L (some (.num (parseFloat L (f "totalAmount"))))
  ({ _id := env.newId
     customerName := castValue none customerName
     customerPhone := castValue none customerPhone
     alternatePhone := castValue none alternatePhone
     customerAddress := castValue none customerAddress
     items := castValue [] items
     totalAmount := castValue none totalAmount
     status := some "pending"
     createdAt := env.now
     updatedAt := env.now
     __v := 0 },
   castFailure "customerName" customerName ++ castFailure "customerPhone" customerPhone ++
   castFailure "alternatePhone" alternatePhone ++ castFailure "customerAddress" customerAddress ++
   castFailure "items" items ++ castFailure "totalAmount" totalAmount)

/-- Clause `GET /api/orders`: all orders, newest first. -/
def ordersList (w : World) : Except Err Response × World :=
  (.ok (.json (.orders (sortNewestOrders w.store.orders))), w)

/-- Clause `GET /api/orders/:id`. -/
def ordersGet (L : Lib) (orderId : String) (w : World) : Except Err Response × World :=
  match castObjectId orderId with
  | none => (.ok ⟨400, .message "Invalid order ID"⟩, w)
  | some oid =>
    match findOrderById oid w.store.orders with
    | none => (.ok ⟨404, .message "Order not found"⟩, w)
    | some o =>
      match L.populateItems o with
      | .error e => (.error e, w)
      | .ok o1 => (.ok (.json (.order o1)), w)

/-- Clause `PUT /api/orders/:id`: `findByIdAndUpdate(id, req.body, { new: true })`. -/
def ordersUpdate (L : Lib) (env : Env) (orderId : String) (body : Option JVal) (w : World) :
    Except Err Response × World :=
  match castObjectId orderId with
  | none => (.ok ⟨400, .message "Invalid order ID"⟩, w)
  | some oid =>
    match castOrderUpdate L body with
    | .error e => (.error e, w)
    | .ok f =>
      match findOrderById oid w.store.orders with
      | none => (.ok ⟨404, .message "Order not found"⟩, w)
      | some o =>
        let o1 := { f o with _id := o._id, createdAt := o.createdAt, updatedAt := env.now }
        (.ok (.json (.order o1)),
          { w with store := { w.store with orders := replaceOrderById o1 w.store.orders } })

/-- Clause `POST /api/orders`. -/
def ordersCreate (L : Lib) (env : Env) (body : Option JVal) (w : World) : Except Err Response × World :=
  match destructure body with
  | .error e => (.error e, w)
  | .ok f =>
    if !truthy (f "customerName") || !truthy (f "customerPhone") || !truthy (f "customerAddress") ||
        !truthy (f "items") || isZero ((f "items").bind jsLength) then
      (.ok ⟨400, .message "Customer name, phone, address and items are required"⟩, w)
    else
      match saveNewOrder (newOrder L env f).2 (newOrder L env f).1 w.store with
      | .error e => (.error e, w)
      | .ok s1 => (.ok ⟨201, .order (newOrder L env f).1⟩, { w with store := s1 })

/-- The route table of `api/orders.js`, tried in the order of the source. -/
def ordersRoutes (L : Lib) (env : Env) (req : Request) (w : World) : Except Err Response × World :=
  let parts := pathParts "/api/orders" req.url
  if req.method = "GET" ∧ parts.length = 0 then ordersList w
  else if req.method = "GET" ∧ parts.length = 1 then ordersGet L (parts.headD "") w
  else if req.method = "PUT" ∧ parts.length = 1 then ordersUpdate L env (parts.headD "") req.body w
  else if req.method = "POST" ∧ parts.length = 0 then ordersCreate L env req.body w
  else (.ok ⟨404, .message "Route not found"⟩, w)

/-- The handler exported by `api/orders.js`. -/
def ordersHandler (L : Lib) (env : Env) (req : Request) (w : World) : Response × World :=
  serve (ordersRoutes L env req) env req w

/-! ## The latest-product handler (`api/products/latest.js`) -/

/-- The handler exported by `api/products/latest.js`: preflight, method check,
then `connectDB` and `findOne().sort({ createdAt: -1 })` inside `try`. -/
def latestHandler (env : Env) (req : Request) (w : World) : Response × World :=
  if req.method = "OPTIONS" then (⟨200, .empty⟩, w)
  else if req.method ≠ "GET" then (⟨405, .message "Method not allowed"⟩, w)
  else
    match connectDB env w with
    | (.error e, w1) => (⟨500, .serverError e⟩, w1)
    | (.ok _, w1) =>
      match productsLatest w1 with
      | (.ok r, w2) => (r, w2)
      | (.error e, w2) => (⟨500, .serverError e⟩, w2)

/-! ## The auth handler (`api/auth.js`) -/

/-- Embedding of `User.findOne({ email })`. -/
def findUserByEmail (L : Lib) (email : JVal) (us : List User) : Except Err (Option User) :=
  match email with
  | .str e => .ok (us.find? (fun u => u.email = e))
  | v => L.findUserOther v us

/-- Embedding of `bcrypt.compare(password, hash)`: both arguments must be strings. -/
def bcryptCompare (L : Lib) (password : JVal) (hash : String) : Except Err Bool :=
  match password with
  | .str pw => .ok (L.bcryptCompare pw hash)
  | _ => .error .illegalArguments

/-- Embedding of `jwt.sign(payload, process.env.JWT_SECRET, { expiresIn: '24h' })`:
fails without a secret; otherwise the token is issued at the current second
and expires 86400 seconds later. -/
def jwtSign (env : Env) (u : User) : Option Token :=
  match env.jwtSecret with
  | none => none
  | some key => some ⟨u._id, u.isAdmin, env.now / 1000, env.now / 1000 + 86400, key⟩

/-- The public projection `{ id, name, email, isAdmin }` of a user. -/
def publicUser (u : User) : PublicUser := ⟨u._id, u.name, u.email, u.isAdmin⟩

/-- The token step shared by login and registration: the answer carries the
token and the public user, or is 500 when signing fails. -/
def sessionResponse (env : Env) (status : Nat) (u : User) : Response :=
  match jwtSign env u with
  | none => ⟨500, .message "Token generation failed"⟩
  | some t => ⟨status, .session t (publicUser u)⟩

/-- Clause `POST /api/auth/login`. -/
def authLogin (L : Lib) (env : Env) (body : Option JVal) (w : World) : Except Err Response × World :=
  match destructure body with
  | .error e => (.error e, w)
  | .ok f =>
    if !truthy (f "email") || !truthy (f "password") then
      (.ok ⟨400, .message "Email and password are required"⟩, w)
    else
      match findUserByEmail L ((f "email").getD .null) w.store.users with
      | .error e => (.error e, w)
      | .ok none => (.ok ⟨400, .message "Invalid credentials"⟩, w)
      | .ok (some user) =>
        match bcryptCompare L ((f "password").getD .null) user.password with
        | .error e => (.error e, w)
        | .ok false => (.ok ⟨400, .message "Invalid credentials"⟩, w)
        | .ok true => (.ok (sessionResponse env 200 user), w)

/-- New document of registration: the casts of `new User({...})` with the
hashed password, and the paths failing a cast or the `required` validator. -/
def newUser (L : Lib) (env : Env) (f : String → Option JVal) (hashed : String) : User × List String :=
  let name := castString L (f "name")
  let email := castString L (f "email")
  let isAdmin := castBoolean ((jsOr (f "isAdmin") (some (.bool false))).getD (.bool false))
  ({ _id := env.newId
     name := (castValue none name).getD ""
     email := (castValue none email).getD ""
     password := hashed
     isAdmin := (castValue none isAdmin).getD false
     createdAt := env.now
     updatedAt := env.now },
   (if requiredString (castValue none name) then [] else ["name"]) ++
   (if requiredString (castValue none email) then [] else ["email"]) ++
   (if hashed ≠ "" then [] else ["password"]) ++
   castFailure "isAdmin" isAdmin)

/-- Embedding of `user.save()` for a new user: validation, then insertion
under a unique identifier and a unique email. -/
def saveNewUser (failures : List String) (u : User) (s : Store) : Except Err Store :=
  if failures ≠ [] then .error (.validationError failures)
  else if (s.users.find? (fun v => v._id = u._id ∨ v.email = u.email)).isSome then .error .duplicateKey
  else .ok { s with users := s.users ++ [u] }

/-- Clause `POST /api/auth/register`. -/
def authRegister (L : Lib) (env : Env) (body : Option JVal) (w : World) : Except Err Response × World :=
  match destructure body with
  | .error e => (.error e, w)
  | .ok f =>
    if !truthy (f "name") || !truthy (f "email") || !truthy (f "password") then
      (.ok ⟨400, .message "Name, email and password are required"⟩, w)
    else
      match findUserByEmail L ((f "email").getD .null) w.store.users with
      | .error e => (.error e, w)
      | .ok (some _) => (.ok ⟨400, .message "User already exists"⟩, w)
      | .ok none =>
        match (f "password").getD .null with
        | .str pw =>
          match saveNewUser (newUser L env f (L.bcryptHash pw env.salt)).2
              (newUser L env f (L.bcryptHash pw env.salt)).1 w.store with
          | .error e => (.error e, w)
          | .ok s1 =>
            (.ok (sessionResponse env 201 (newUser L env f (L.bcryptHash pw env.salt)).1),
              { w with store := s1 })
        | _ => (.error .illegalArguments, w)

/-- Path parts of `api/auth.js`: the mount route removed (the query string is
not), split into segments. -/
def authPathParts (url : String) : List String :=
  segmentsOf (dropRoute "/api/auth".data url.data)

/-- The route table of `api/auth.js`. -/
def authRoutes (L : Lib) (env : Env) (req : Request) (w : World) : Except Err Response × World :=
  let parts := authPathParts req.url
  if req.method = "POST" ∧ parts.head? = some "login" then authLogin L env req.body w
  else if req.method = "POST" ∧ parts.head? = some "register" then authRegister L env req.body w
  else (.ok ⟨404, .message "Route not found"⟩, w)

/-- The handler exported by `api/auth.js`. -/
def authHandler (L : Lib) (env : Env) (req : Request) (w : World) : Response × World :=
  serve (authRoutes L env req) env req w

/-! ## The Express product update (`backend/routes/products.js`, `backend/models/Product.js`) -/

/-- The values of the `category` enum of the Express product model. -/
def productCategories : List String :=
  ["t-shirt", "pants", "shorts", "cap", "zip-up", "hoodies", "polo shirts"]

/-- Validation of a product against `productSchema` of `backend/models/Product.js`:
the paths failing a validator (`required`, and `enum` on `category`). -/
def expressProductFailures (p : Product) : List String :=
  (if requiredString p.name then [] else ["name"]) ++
  (if requiredString p.description then [] else ["description"]) ++
  (if p.originalPrice.isSome then [] else ["originalPrice"]) ++
  (if p.salePrice.isSome then [] else ["salePrice"]) ++
  (match p.category with
    | none => ["category"]
    | some c => if c ≠ "" ∧ c ∈ productCategories then [] else ["category"]) ++
  imageFailures 0 p.images

/-- The `typeof x === 'string' ? JSON.parse(x) : x` step; `none` when
`JSON.parse` throws. -/
def parseIfString (L : Lib) : Option JVal → Option (Option JVal)
  | some (.str t) => (L.jsonParse t).map some
  | v => some v

/-- The assignments of `PUT /api/products/:id` on the loaded product `p`, with
the parsed `sizes` and `colors`: each path is set to the provided value when it
is truthy and to its previous value otherwise, through the cast and setter of
the path; the paths whose cast failed are returned with the product. -/
def expressAssign (L : Lib) (f : String → Option JVal) (parsedSizes parsedColors : Option JVal)
    (files : Option (List String)) (p : Product) : Product × List String :=
  let name : Except Err (Option String) :=
    if truthy (f "name") then (castString L (f "name")).map (Option.map L.trim)
    else .ok (p.name.map L.trim)
  let description := if truthy (f "description") then castString L (f "description") else .ok p.description
  let originalPrice :=
    if truthy (f "originalPrice") then castNumber L (some (.num (parseFloat L (f "originalPrice"))))
    else .ok p.originalPrice
  let salePrice :=
    if truthy (f "salePrice") then castNumber L (some (.num (parseFloat L (f "salePrice"))))
    else .ok p.salePrice
  let category := if truthy (f "category") then castString L (f "category") else .ok p.category
  let sizes := if truthy parsedSizes then castStringArray L (parsedSizes.getD .null) else .ok p.sizes
  let colors := if truthy parsedColors then castStringArray L (parsedColors.getD .null) else .ok p.colors
  let images :=
    match files with
    | some (file :: more) => (file :: more).map (fun filename => some ("/uploads/" ++ filename))
    | _ => p.images
  ({ p with
     name := castValue p.name name
     description := castValue p.description description
     originalPrice := castValue p.originalPrice originalPrice
     salePrice := castValue p.salePrice salePrice
     category := castValue p.category category
     sizes := castValue p.sizes sizes
     colors := castValue p.colors colors
     images := images },
   castFailure "name" name ++ castFailure "description" description ++
   castFailure "originalPrice" originalPrice ++ castFailure "salePrice" salePrice ++
   castFailure "category" category ++ castFailure "sizes" sizes ++ castFailure "colors" colors)

/-- Embedding of `product.save()` under the Express model: validation, then the
`pre('save')` hook sets `updatedAt` and the stored document is replaced. -/
def saveExpressProduct (now : Nat) (castErrs : List String) (p : Product) (s : Store) :
    Except Err (Product × Store) :=
  if castErrs ++ expressProductFailures p ≠ [] then
    .error (.validationError (castErrs ++ expressProductFailures p))
  else .ok ({ p with updatedAt := now }, { s with products := replaceById { p with updatedAt := now } s.products })

/-- The `try` block of the route `PUT /api/products/:id`, entered once the
`auth` and `upload` middlewares have passed the request on: `id` is
`req.params.id`, `files` the names of the uploaded files (`req.files`). -/
def expressUpdateTry (L : Lib) (env : Env) (id : String) (body : Option JVal)
    (files : Option (List String)) (s : Store) : Except Err (Response × Store) :=
  match destructure body with
  | .error e => .error e
  | .ok f =>
    match castObjectId id with
    | none => .error (.castError "_id")
    | some oid =>
      match findById oid s.products with
      | none => .ok (⟨404, .message "Product not found"⟩, s)
      | some p =>
        match parseIfString L (f "sizes"), parseIfString L (f "colors") with
        | some parsedSizes, some parsedColors =>
          match saveExpressProduct env.now (expressAssign L f parsedSizes parsedColors files p).2
              (expressAssign L f parsedSizes parsedColors files p).1 s with
          | .error e => .error e
          | .ok (p1, s1) => .ok (.json (.product p1), s1)
        | _, _ => .error (.other "SyntaxError")

/-- The route `PUT /api/products/:id` of the Express router: the `try` block,
any thrown error answered 500 with message "Server error". -/
def expressUpdate (L : Lib) (env : Env) (id : String) (body : Option JVal)
    (files : Option (List String)) (s : Store) : Response × Store :=
  match expressUpdateTry L env id body files s with
  | .ok r => r
  | .error _ => (⟨500, .message "Server error"⟩, s)

/-! ## Category names and slugs -/

/-- Whether a character is matched by `\s` in a regular expression. -/
def isJsSpace (c : Char) : Bool :=
  c.toNat ∈ [9, 10, 11, 12, 13, 32, 160, 5760, 8232, 8233, 8239, 8287, 12288, 65279] ||
    (8192 ≤ c.toNat && c.toNat ≤ 8202)

/-- The `replace(/\s+/g, '-')` step, reading left to right; `inRun` says that
the previous character was whitespace. -/
def hyphenateAux : Bool → List Char → List Char
  | _, [] => []
  | inRun, c :: cs =>
    if isJsSpace c then (if inRun then hyphenateAux true cs else '-' :: hyphenateAux true cs)
    else c :: hyphenateAux false cs

/-- The slug `cat.toLowerCase().replace(/\s+/g, '-')` of a category. -/
def slugOf (L : Lib) (cat : String) : String :=
  String.mk (hyphenateAux false (L.toLowerCase cat).data)

/-- The values of a list without repetition, in order of first occurrence. -/
def distinctValues : List (Option String) → List (Option String)
  | [] => []
  | x :: xs => x :: (distinctValues xs).filter (fun y => y ≠ x)

/-- Embedding of `Product.distinct('category')`; `none` is a null category. -/
def distinctCategories (ps : List Product) : List (Option String) :=
  distinctValues (ps.map Product.category)

/-- The `categories.map(cat => ({ name: cat, slug: ... }))` step; `toLowerCase`
on a null category throws a TypeError. -/
def categoryEntries (L : Lib) : List (Option String) → Except Err (List (String × String))
  | [] => .ok []
  | none :: _ => .error .typeError
  | some cat :: cats =>
    match categoryEntries L cats with
    | .ok es => .ok ((cat, slugOf L cat) :: es)
    | .error e => .error e

/-! ## The categories handler (`api/categories.js`) -/

/-- The body of `try` in `api/categories.js` after `connectDB`: any GET is
answered with the category list, and with an empty list when the inner `try`
throws; any other method is answered 405. -/
def categoriesRoutes (L : Lib) (req : Request) (w : World) : Except Err Response × World :=
  if req.method = "GET" then
    match categoryEntries L (distinctCategories w.store.products) with
    | .ok es => (.ok ⟨200, .categories es⟩, w)
    | .error _ => (.ok ⟨200, .categories []⟩, w)
  else (.ok ⟨405, .message "Method not allowed"⟩, w)

/-- The handler exported by `api/categories.js`. -/
def categoriesHandler (L : Lib) (env : Env) (req : Request) (w : World) : Response × World :=
  serve (categoriesRoutes L req) env req w

/-! ## Regular expressions on category names -/

/-- The metacharacters of a regular expression pattern. -/
def regexMeta : List Char :=
  ['\\', '^', '$', '.', '|', '?', '*', '+', '(', ')', '[', ']', '{', '}']

/-- The line terminators, which `.` need not match. -/
def lineEnds : List Char := [Char.ofNat 10, Char.ofNat 13, Char.ofNat 8232, Char.ofNat 8233]

/-- Whether the pattern character `pc` (a plain character or `.`) matches `c`
under the `i` flag. -/
def atomMatches (L : Lib) (pc c : Char) : Bool :=
  if pc = '.' then (if c ∈ lineEnds then L.dotMatchesLineEnd c else true)
  else L.foldCase pc = L.foldCase c

/-- Whether the pattern matches a prefix of the text. -/
def matchesHere (L : Lib) : List Char → List Char → Bool
  | [], _ => true
  | _ :: _, [] => false
  | pc :: ps, c :: cs => atomMatches L pc c && matchesHere L ps cs

/-- Whether the pattern matches somewhere in the text. -/
def matchesSomewhere (L : Lib) (pat : List Char) : List Char → Bool
  | [] => matchesHere L pat []
  | c :: cs => matchesHere L pat (c :: cs) || matchesSomewhere L pat cs

/-- Embedding of `new RegExp(pattern, 'i')` as used in a query filter: `none`
when the constructor throws, otherwise the test on a string.  A pattern of
plain characters and `.` is matched here; other patterns are left to `Lib`. -/
def regExp (L : Lib) (pattern : String) : Option (String → Bool) :=
  if pattern.data.all (fun c => c = '.' || !(c ∈ regexMeta)) then
    some (fun text => matchesSomewhere L pattern.data text.data)
  else L.regexOther pattern

/-- The `categorySlug.replace` step: every hyphen becomes a space. -/
def deslug (slug : String) : String :=
  String.mk (slug.data.map (fun c => if c = '-' then ' ' else c))

/-- Embedding of `Product.find({ category: re }).sort({ createdAt: -1 })`. -/
def findByCategory (re : String → Bool) (ps : List Product) : List Product :=
  sortNewest (ps.filter (fun p =>
    match p.category with
    | some c => re c
    | none => false))

/-! ## The consolidated router (`api/index.js`) -/

/-- Embedding of `url.parse(u, true).pathname`: for a plain origin-form path
(one slash first, no whitespace, hash or backslash) the part before the first
question mark; other inputs are left to `Lib`. -/
def pathnameOf (L : Lib) (u : String) : Option String :=
  match u.data with
  | '/' :: rest =>
    if rest.head? != some '/' && u.data.all (fun c => !isJsSpace c && c != '#' && c != '\\') then
      some (String.mk (u.data.takeWhile (fun c => c ≠ '?')))
    else L.urlPathnameOther u
  | _ => L.urlPathnameOther u

/-- Whether a character is a hexadecimal digit (`[a-fA-F0-9]`). -/
def isHexChar (c : Char) : Bool := (hexVal c).isSome

/-- The test `pathname.match(/^<route>[a-fA-F0-9]{24}$/)`, `route` ending in a slash. -/
def matchesIdRoute (route : String) (pathname : String) : Bool :=
  route.data.isPrefixOf pathname.data &&
    (pathname.data.drop route.data.length).length = 24 &&
    (pathname.data.drop route.data.length).all isHexChar

/-- The test `pathname.match(/^\/api\/products\/[a-fA-F0-9]{24}\/toggle$/)`. -/
def matchesToggleRoute (pathname : String) : Bool :=
  "/api/products/".data.isPrefixOf pathname.data &&
    ((pathname.data.drop 14).take 24).length = 24 &&
    ((pathname.data.drop 14).take 24).all isHexChar &&
    (pathname.data.drop 14).drop 24 = "/toggle".data

/-- The test `pathname.match(/^\/api\/categories\/[^\/]+\/products$/)`. -/
def matchesCategoryRoute (pathname : String) : Bool :=
  "/api/categories/".data.isPrefixOf pathname.data &&
    match splitOn '/' (pathname.data.drop 16) with
    | [seg, last] => seg ≠ [] && last = "products".data
    | _ => false

/-- The expression `pathname.split('/').pop()`. -/
def lastSegment (pathname : String) : String :=
  String.mk ((splitOn '/' pathname.data).getLastD [])

/-- The expression `pathname.split('/')[3]`; the route tests make it defined. -/
def fourthSegment (pathname : String) : String :=
  String.mk (((splitOn '/' pathname.data).get? 3).getD [])

/-- A query by the identifier taken from the path: Mongoose casts it, a string
that is no identifier being a cast error. -/
def withObjectId (id : String) (w : World) (k : ObjectId → Except Err Response × World) :
    Except Err Response × World :=
  match castObjectId id with
  | none => (.error (.castError "_id"), w)
  | some oid => k oid

/-- Clause `POST /api/products` of the consolidated router: no check of `images`. -/
def indexProductsCreate (L : Lib) (env : Env) (body : Option JVal) (w : World) :
    Except Err Response × World :=
  match destructure body with
  | .error e => (.error e, w)
  | .ok f =>
    match saveNewProduct (newProduct L env f).2 (newProduct L env f).1 w.store with
    | .error e => (.error e, w)
    | .ok s1 => (.ok ⟨201, .product (newProduct L env f).1⟩, { w with store := s1 })

/-- Clause `GET /api/products/:id` of the consolidated router. -/
def indexProductGet (oid : ObjectId) (w : World) : Except Err Response × World :=
  match findById oid w.store.products with
  | none => (.ok ⟨404, .message "Product not found"⟩, w)
  | some p => (.ok (.json (.product p)), w)

/-- Clause `PUT /api/products/:id` of the consolidated router. -/
def indexProductUpdate (L : Lib) (env : Env) (body : Option JVal) (oid : ObjectId) (w : World) :
    Except Err Response × World :=
  match castProductUpdate L body with
  | .error e => (.error e, w)
  | .ok f =>
    match findById oid w.store.products with
    | none => (.ok ⟨404, .message "Product not found"⟩, w)
    | some p =>
      let p1 := { f p with _id := p._id, createdAt := p.createdAt, updatedAt := env.now }
      (.ok (.json (.product p1)),
        { w with store := { w.store with products := replaceById p1 w.store.products } })

/-- Clause `DELETE /api/products/:id` of the consolidated router. -/
def indexProductDelete (oid : ObjectId) (w : World) : Except Err Response × World :=
  match findById oid w.store.products with
  | none => (.ok ⟨404, .message "Product not found"⟩, w)
  | some _ =>
    (.ok (.json (.message "Product deleted successfully")),
      { w with store := { w.store with products := removeById oid w.store.products } })

/-- Clause `PUT /api/products/:id/toggle` of the consolidated router. -/
def indexProductToggle (env : Env) (oid : ObjectId) (w : World) : Except Err Response × World :=
  match findById oid w.store.products with
  | none => (.ok ⟨404, .message "Product not found"⟩, w)
  | some p =>
    match saveProduct env.now { p with isAvailable := !p.isAvailable } w.store with
    | .error e => (.error e, w)
    | .ok (p1, s1) => (.ok (.json (.product p1)), { w with store := s1 })

/-- Clause `POST /api/auth/login` of the consolidated router: no check that
email and password are given; a signing error is thrown. -/
def indexLogin (L : Lib) (env : Env) (body : Option JVal) (w : World) : Except Err Response × World :=
  match destructure body with
  | .error e => (.error e, w)
  | .ok f =>
    match (match f "email" with
        | some email => findUserByEmail L email w.store.users
        | none => L.findUserNoEmail w.store.users) with
    | .error e => (.error e, w)
    | .ok none => (.ok ⟨400, .message "Invalid credentials"⟩, w)
    | .ok (some user) =>
      match bcryptCompare L ((f "password").getD .null) user.password with
      | .error e => (.error e, w)
      | .ok false => (.ok ⟨400, .message "Invalid credentials"⟩, w)
      | .ok true =>
        match jwtSign env user with
        | none => (.error (.other "secretOrPrivateKey must have a value"), w)
        | some t => (.ok (.json (.session t (publicUser user))), w)

/-- Mongoose ObjectId cast of a value set on a path of type ObjectId. -/
def castObjectIdVal (L : Lib) : Option JVal → Except Err (Option ObjectId)
  | none => .ok none
  | some .null => .ok none
  | some (.str t) =>
    match castObjectId t with
    | some o => .ok (some o)
    | none => .error (.castError "ObjectId")
  | some v => L.castObjectIdOther v

/-- Cast of one entry of `items` to a sub-document of `OrderSchema.items` of
`api/index.js`. -/
def castIndexItem (L : Lib) : JVal → Except Err (Option OrderItem)
  | .obj fs =>
    match castObjectIdVal L (lookupField "productId" fs), castString L (lookupField "name" fs),
      castNumber L (lookupField "price" fs), castNumber L (lookupField "quantity" fs),
      castString L (lookupField "size" fs), castString L (lookupField "color" fs) with
    | .ok productId, .ok name, .ok price, .ok quantity, .ok size, .ok color =>
      .ok (some
        { product := none, productName := none, quantity := quantity, size := size,
          color := color, price := price, image := none, productId := productId, name := name })
    | _, _, _, _, _, _ => .error (.castError "items")
  | v => L.castItemOther v

/-- Cast of each entry of an array of items of `api/index.js`. -/
def castIndexItemList (L : Lib) : List JVal → Except Err (List (Option OrderItem))
  | [] => .ok []
  | v :: vs =>
    match castIndexItem L v, castIndexItemList L vs with
    | .ok x, .ok xs => .ok (x :: xs)
    | .error e, _ => .error e
    | _, .error e => .error e

/-- Mongoose cast to the document array `items` of `api/index.js`. -/
def castIndexItems (L : Lib) : JVal → Except Err (List (Option OrderItem))
  | .arr xs => castIndexItemList L xs
  | v => castIndexItemList L [v]

/-- Cast of the nested path `customerInfo`: the paths under it are set from an
object; with any other value they stay unset. -/
def castCustomerInfo (L : Lib) : Option JVal → Except Err CustomerInfo
  | some (.obj fs) =>
    match castString L (lookupField "name" fs), castString L (lookupField "email" fs),
      castString L (lookupField "phone" fs) with
    | .ok name, .ok email, .ok phone => .ok { name := name, email := email, phone := phone }
    | _, _, _ => .error (.castError "customerInfo")
  | _ => .ok {}

/-- Cast of the nested path `shippingAddress`. -/
def castShipping (L : Lib) : Option JVal → Except Err ShippingAddress
  | none => .ok {}
  | some (.obj fs) =>
    match castString L (lookupField "street" fs), castString L (lookupField "city" fs),
      castString L (lookupField "state" fs), castString L (lookupField "zipCode" fs),
      castString L (lookupField "country" fs) with
    | .ok street, .ok city, .ok state, .ok zipCode, .ok country =>
      .ok { street := street, city := city, state := state, zipCode := zipCode, country := country }
    | _, _, _, _, _ => .error (.castError "shippingAddress")
  | some v => L.castShippingOther v

/-- Failing paths of the items of `api/index.js` from index `i` on: `productId`
is required; sparse entries are skipped. -/
def indexItemsFailures : Nat → List (Option OrderItem) → List String
  | _, [] => []
  | i, none :: xs => indexItemsFailures (i + 1) xs
  | i, some it :: xs =>
    (if it.productId.isSome then [] else ["items." ++ toString i ++ ".productId"]) ++
      indexItemsFailures (i + 1) xs

/-- Validation of an order against `OrderSchema` of `api/index.js`. -/
def indexOrderFailures (o : Order) : List String :=
  (if requiredString o.customerInfo.name then [] else ["customerInfo.name"]) ++
  (if requiredString o.customerInfo.email then [] else ["customerInfo.email"]) ++
  (if requiredString o.customerInfo.phone then [] else ["customerInfo.phone"]) ++
  indexItemsFailures 0 o.items ++
  (if o.totalAmount.isSome then [] else ["totalAmount"]) ++
  (match o.status with
    | none => []
    | some st => if st ∈ orderStatuses then [] else ["status"])

/-- New document of `POST /api/orders` of the consolidated router. -/
def newIndexOrder (L : Lib) (env : Env) (f : String → Option JVal) : Order × List String :=
  let customerInfo := castCustomerInfo L (f "customerInfo")
  let items : Except Err (List (Option OrderItem)) :=
    match f "items" with
    | none => .ok []
    | some v => castIndexItems L v
  let totalAmount := castNumber L (some (.num (parseFloat L (f "totalAmount"))))
  let shippingAddress := castShipping L (f "shippingAddress")
  ({ _id := env.newId
     customerName := none
     customerPhone := none
     alternatePhone := none
     customerAddress := none
     items := castValue [] items
     totalAmount := castValue none totalAmount
     status := some "pending"
     createdAt := env.now
     updatedAt := env.now
     __v := 0
     customerInfo := castValue {} customerInfo
     shippingAddress := castValue {} shippingAddress },
   castFailure "customerInfo" customerInfo ++ castFailure "items" items ++
   castFailure "totalAmount" totalAmount ++ castFailure "shippingAddress" shippingAddress)

/-- Embedding of `order.save()` for a new order under `OrderSchema` of `api/index.js`. -/
def saveNewIndexOrder (castErrs : List String) (o : Order) (s : Store) : Except Err Store :=
  if castErrs ++ indexOrderFailures o ≠ [] then
    .error (.validationError (castErrs ++ indexOrderFailures o))
  else if (findOrderById o._id s.orders).isSome then .error .duplicateKey
  else .ok { s with orders := s.orders ++ [o] }

/-- Clause `POST /api/orders` of the consolidated router: no check of the body. -/
def indexOrdersCreate (L : Lib) (env : Env) (body : Option JVal) (w : World) :
    Except Err Response × World :=
  match destructure body with
  | .error e => (.error e, w)
  | .ok f =>
    match saveNewIndexOrder (newIndexOrder L env f).2 (newIndexOrder L env f).1 w.store with
    | .error e => (.error e, w)
    | .ok s1 => (.ok ⟨201, .order (newIndexOrder L env f).1⟩, { w with store := s1 })

/-- Clause `GET /api/orders/:id` of the consolidated router: the order with the
product of each item looked up (`populate('items.productId')`). -/
def indexOrderGet (oid : ObjectId) (w : World) : Except Err Response × World :=
  match findOrderById oid w.store.orders with
  | none => (.ok ⟨404, .message "Order not found"⟩, w)
  | some o =>
    (.ok (.json (.orderPopulated o (o.items.map (fun it =>
      (it.bind OrderItem.productId).bind (fun i => findById i w.store.products))))), w)

/-- The `$set` of the path `totalAmount` or `status` of an order. -/
def indexOrderSetter (L : Lib) (k : String) (v : JVal) : Except Err (Order → Order) :=
  if k = "totalAmount" then (castNumber L (some v)).map (fun x o => { o with totalAmount := x })
  else (castString L (some v)).map (fun x o => { o with status := x })

/-- The setters of all bindings, composed in order. -/
def castIndexOrderSets (L : Lib) : List (String × JVal) → Except Err (Order → Order)
  | [] => .ok id
  | (k, v) :: fs =>
    match indexOrderSetter L k v, castIndexOrderSets L fs with
    | .ok f, .ok g => .ok (g ∘ f)
    | .error e, _ => .error e
    | _, .error e => .error e

/-- Mongoose cast of the update document of `Order.findByIdAndUpdate` in
`api/index.js` (no validators run on updates). -/
def castIndexOrderUpdate (L : Lib) (body : Option JVal) : Except Err (Order → Order) :=
  match body with
  | some (.obj fs) =>
    if fs.all (fun kv => kv.1 = "totalAmount" || kv.1 = "status") then castIndexOrderSets L fs
    else L.indexOrderUpdateOther body
  | _ => L.indexOrderUpdateOther body

/-- Clause `PUT /api/orders/:id` of the consolidated router. -/
def indexOrderUpdate (L : Lib) (env : Env) (body : Option JVal) (oid : ObjectId) (w : World) :
    Except Err Response × World :=
  match castIndexOrderUpdate L body with
  | .error e => (.error e, w)
  | .ok f =>
    match findOrderById oid w.store.orders with
    | none => (.ok ⟨404, .message "Order not found"⟩, w)
    | some o =>
      let o1 := { f o with _id := o._id, createdAt := o.createdAt, updatedAt := env.now }
      (.ok (.json (.order o1)),
        { w with store := { w.store with orders := replaceOrderById o1 w.store.orders } })

/-- Clause `GET /api/categories` of the consolidated router. -/
def indexCategories (L : Lib) (w : World) : Except Err Response × World :=
  match categoryEntries L (distinctCategories w.store.products) with
  | .ok es => (.ok (.json (.categories es)), w)
  | .error e => (.error e, w)

/-- Clause `GET /api/categories/:slug/products` of the consolidated router. -/
def indexCategoryProducts (L : Lib) (pathname : String) (w : World) : Except Err Response × World :=
  match regExp L (deslug (fourthSegment pathname)) with
  | none => (.error (.other "SyntaxError"), w)
  | some re => (.ok (.json (.products (findByCategory re w.store.products))), w)

/-- Clause `/api/health` of the consolidated router, for every method. -/
def indexHealth (env : Env) (w : World) : Except Err Response × World :=
  (.ok (.json (.health "API is running"
    (if env.readyState = 1 then "Connected" else "Disconnected") env.now)), w)

/-- The first block that returns. -/
def firstReturn {α : Type} : List (Option α) → Option α
  | [] => none
  | some a :: _ => some a
  | none :: rest => firstReturn rest

/-- The blocks of `api/index.js` in the order of the source; a block whose
path test holds and whose method tests all fail returns nothing and the next
block is tried. -/
def indexBlocks (L : Lib) (env : Env) (req : Request) (pathname : String) (w : World) :
    List (Option (Except Err Response × World)) :=
  [ if pathname = "/api/products" then
      (if req.method = "GET" then some (productsList w)
       else if req.method = "POST" then some (indexProductsCreate L env req.body w)
       else none)
    else none,
    if pathname = "/api/products/latest" then
      (if req.method = "GET" then some (productsLatest w) else none)
    else none,
    if matchesIdRoute "/api/products/" pathname then
      (if req.method = "GET" then some (withObjectId (lastSegment pathname) w (indexProductGet · w))
       else if req.method = "PUT" then
         some (withObjectId (lastSegment pathname) w (indexProductUpdate L env req.body · w))
       else if req.method = "DELETE" then
         some (withObjectId (lastSegment pathname) w (indexProductDelete · w))
       else none)
    else none,
    if matchesToggleRoute pathname then
      (if req.method = "PUT" then
         some (withObjectId (fourthSegment pathname) w (indexProductToggle env · w))
       else none)
    else none,
    if pathname = "/api/auth/login" then
      (if req.method = "POST" then some (indexLogin L env req.body w) else none)
    else none,
    if pathname = "/api/orders" then
      (if req.method = "GET" then some (ordersList w)
       else if req.method = "POST" then some (indexOrdersCreate L env req.body w)
       else none)
    else none,
    if matchesIdRoute "/api/orders/" pathname then
      (if req.method = "GET" then some (withObjectId (lastSegment pathname) w (indexOrderGet · w))
       else if req.method = "PUT" then
         some (withObjectId (lastSegment pathname) w (indexOrderUpdate L env req.body · w))
       else none)
    else none,
    if pathname = "/api/categories" then
      (if req.method = "GET" then some (indexCategories L w) else none)
    else none,
    if matchesCategoryRoute pathname then
      (if req.method = "GET" then some (indexCategoryProducts L pathname w) else none)
    else none,
    if pathname = "/api/health" then some (indexHealth env w) else none ]

/-- The body of `try` in `api/index.js` after `connectDB`: the pathname is
taken from the URL, the blocks are tried in order, and a request no block
answers is answered 404 with the pathname in the message. -/
def indexRoutes (L : Lib) (env : Env) (req : Request) (w : World) : Except Err Response × World :=
  match pathnameOf L req.url with
  | none => (.error .typeError, w)
  | some pathname =>
    match firstReturn (indexBlocks L env req pathname w) with
    | some r => r
    | none => (.ok ⟨404, .message ("Route not found: " ++ pathname)⟩, w)

/-- The handler exported by `api/index.js`. -/
def indexHandler (L : Lib) (env : Env) (req : Request) (w : World) : Response × World :=
  serve (indexRoutes L env req) env req w

/-! ## The Express availability toggle (`backend/routes/products.js`) -/

/-- The route `PUT /api/products/:id/toggle` of the Express router, entered once
the `auth` middleware has passed the request on: `id` is `req.params.id`; an
identifier Mongoose cannot cast and a failing `save` are thrown and answered
500 by the `catch`. -/
def expressToggle (env : Env) (id : String) (s : Store) : Response × Store :=
  match castObjectId id with
  | none => (⟨500, .message "Server error"⟩, s)
  | some oid =>
    match findById oid s.products with
    | none => (⟨404, .message "Product not found"⟩, s)
    | some p =>
      match saveExpressProduct env.now [] { p with isAvailable := !p.isAvailable } s with
      | .error _ => (⟨500, .message "Server error"⟩, s)
      | .ok (p1, s1) => (.json (.product p1), s1)

/-! ## The health handler (`api/health.js`) -/

/-- The expression `process.env.NODE_ENV || 'development'`. -/
def environmentName (nodeEnv : Option String) : String :=
  match nodeEnv with
  | some t => if t = "" then "development" else t
  | none => "development"

/-- The handler exported by `api/health.js`, in a process whose `NODE_ENV` is
`nodeEnv`: the preflight answer, then `connectDB` inside `try`, the report when
it resolves and the answer of `catch` when it throws.  Neither the method nor
the path is tested. -/
def healthHandler (nodeEnv : Option String) (env : Env) (req : Request) (w : World) :
    Response × World :=
  if req.method = "OPTIONS" then (⟨200, .empty⟩, w)
  else
    match connectDB env w with
    | (.ok _, w1) =>
      (.json (.healthReport "OK" "API is running"
        (if env.readyState = 1 then "Connected" else "Disconnected") env.now
        (environmentName nodeEnv)), w1)
    | (.error e, w1) => (⟨500, .healthError "ERROR" "Server error" e env.now⟩, w1)

/-! ## The consolidated router that parses the body (`api/api/index.js`) -/

/-- The `endpoints` list of the root answer. -/
def apiEndpoints : List String :=
  ["GET /api/health", "GET /api/products", "GET /api/products/latest", "GET /api/categories",
    "POST /api/auth/login", "GET /api/orders"]

/-- The value of `req.body` after the parsing step, `raw` being the text read
from the request stream: for POST and PUT the result of `JSON.parse(raw)`, or
the empty object when it throws; for other methods the step is skipped. -/
def apiBody (L : Lib) (req : Request) (raw : String) : Option JVal :=
  if req.method = "POST" ∨ req.method = "PUT" then
    match L.jsonParse raw with
    | some v => some v
    | none => some (.obj [])
  else req.body

/-- The blocks of `api/api/index.js` after the parsing step, in the order of
the source; they test `req.url` itself and use the schemas and clauses of
`api/index.js`, without the toggle block and the order-by-id block. -/
def apiBlocks (L : Lib) (env : Env) (method url : String) (body : Option JVal) (w : World) :
    List (Option (Except Err Response × World)) :=
  [ if url = "/api/products" then
      (if method = "GET" then some (productsList w)
       else if method = "POST" then some (indexProductsCreate L env body w)
       else none)
    else none,
    if url = "/api/products/latest" then
      (if method = "GET" then some (productsLatest w) else none)
    else none,
    if matchesIdRoute "/api/products/" url then
      (if method = "GET" then some (withObjectId (lastSegment url) w (indexProductGet · w))
       else if method = "PUT" then
         some (withObjectId (lastSegment url) w (indexProductUpdate L env body · w))
       else if method = "DELETE" then
         some (withObjectId (lastSegment url) w (indexProductDelete · w))
       else none)
    else none,
    if url = "/api/auth/login" then
      (if method = "POST" then some (indexLogin L env body w) else none)
    else none,
    if url = "/api/orders" then
      (if method = "GET" then some (ordersList w)
       else if method = "POST" then some (indexOrdersCreate L env body w)
       else none)
    else none,
    if url = "/api/categories" then
      (if method = "GET" then some (indexCategories L w) else none)
    else none,
    if matchesCategoryRoute url then
      (if method = "GET" then some (indexCategoryProducts L url w) else none)
    else none,
    if url = "/api/health" then some (indexHealth env w) else none ]

/-- The body of `try` in `api/api/index.js` after `connectDB`: the root answer
for the three root URLs, otherwise the parsing step and the blocks, and 404
with the URL in the message for a request no block answers. -/
def apiRoutes (L : Lib) (env : Env) (req : Request) (raw : String) (w : World) :
    Except Err Response × World :=
  if req.url = "/api" ∨ req.url = "/api/" ∨ req.url = "/" then
    (.ok (.json (.apiInfo "OK" "Givento API is running"
      (if env.readyState = 1 then "Connected" else "Disconnected") env.now apiEndpoints)), w)
  else
    match firstReturn (apiBlocks L env req.method req.url (apiBody L req raw) w) with
    | some r => r
    | none => (.ok ⟨404, .message ("Route not found: " ++ req.url)⟩, w)

/-- The handler exported by `api/api/index.js`; `raw` is the text the request
stream delivers. -/
def apiHandler (L : Lib) (env : Env) (req : Request) (raw : String) (w : World) : Response × World :=
  serve (apiRoutes L env req raw) env req w

/-! ## The local test script (`backend/test-local.js`) -/

/-- An object literal of the shape the script passes to `new Product(...)`:
strings, numbers and arrays of strings; `isAvailable` may be left out. -/
structure ProductData where
  name : String
  description : String
  originalPrice : ℚ
  salePrice : ℚ
  category : String
  sizes : List String
  colors : List String
  images : List String
  isAvailable : Option Bool

/-- The document `new Product(d)` of the Express model: every value already has
the type of its path, `name` goes through the `trim` setter, `isAvailable`,
`createdAt` and `updatedAt` take their defaults. -/
def newExpressProduct (L : Lib) (env : Env) (d : ProductData) : Product :=
  { _id := env.newId
    name := some (L.trim d.name)
    description := some d.description
    originalPrice := some d.originalPrice
    salePrice := some d.salePrice
    category := some d.category
    sizes := d.sizes.map some
    colors := d.colors.map some
    images := d.images.map some
    isAvailable := d.isAvailable.getD true
    createdAt := env.now
    updatedAt := env.now
    __v := 0 }

/-- Embedding of `product.save()` for a new document of the Express model:
validation, the `pre('save')` hook setting `updatedAt`, then insertion under a
unique identifier. -/
def saveNewExpressProduct (now : Nat) (p : Product) (s : Store) : Except Err Store :=
  if expressProductFailures p ≠ [] then .error (.validationError (expressProductFailures p))
  else if (findById p._id s.products).isSome then .error .duplicateKey
  else .ok { s with products := s.products ++ [{ p with updatedAt := now }] }

/-- The loop `for (const productData of sampleProducts)`: each document is
constructed and saved in turn, `gen i` giving the clock and the identifier of
the document number `i`; the first failing `save` throws, the documents saved
before it staying in the store. -/
def saveEach (L : Lib) (gen : Nat → Env) : Nat → List ProductData → Store → Option Err × Store
  | _, [], s => (none, s)
  | i, d :: ds, s =>
    match saveNewExpressProduct (gen i).now (newExpressProduct L (gen i) d) s with
    | .error e => (some e, s)
    | .ok s1 => saveEach L gen (i + 1) ds s1

/-- The `open` callback of `backend/test-local.js` on the sample list
`samples`: `deleteMany({})`, the loop, then `find()`.  The first component is
the number the script logs as "Total products in database", or `none` when a
`save` throws and the `catch` block logs the error instead. -/
def testLocal (L : Lib) (gen : Nat → Env) (samples : List ProductData) (s : Store) :
    Option Nat × Store :=
  match saveEach L gen 0 samples { s with products := [] } with
  | (some _, s1) => (none, s1)
  | (none, s1) => (some s1.products.length, s1)

/-! ## Token verification on protected routes -/

/-- Modelled from the spec: the `auth` middleware of the protected routes
(`backend/middleware/auth.js`, required by `backend/routes/products.js` and
absent from the sources).  The spec: "`authorize(token)` (used by protected
routes): verifies signature and expiry; rejects expired or tampered tokens;
attaches the decoded identity to the request context".  A token is accepted
when it was signed with the verifying secret and the current second is before
its expiry; `now` is in milliseconds. -/
def authorize (secret : String) (now : Nat) (token : Option Token) : Option (ObjectId × Bool) :=
  match token with
  | none => none
  | some t => if t.key = secret ∧ now / 1000 < t.exp then some (t.userId, t.isAdmin) else none

/-! ## Sample data for evaluating the handlers -/

/-- A sample instance of the library primitives. -/
def sampleLib : Lib where
  parseFloatStr := fun _ => .nan
  arrToString := fun _ => ""
  castStringOther := fun _ => .error (.castError "String")
  castNumberOther := fun _ => .error (.castError "Number")
  productUpdateOther := fun _ => .ok id
  castItemOther := fun _ => .error (.castError "items")
  orderUpdateOther := fun _ => .ok id
  populateItems := fun o => .ok o
  trim := fun t => String.mk (((t.data.dropWhile Char.isWhitespace).reverse.dropWhile
    Char.isWhitespace).reverse)
  jsonParse := fun _ => none
  findUserOther := fun _ _ => .ok none
  findUserNoEmail := fun _ => .ok none
  bcryptCompare := fun pw hash => decide (hash = "hash:" ++ pw)
  bcryptHash := fun pw _ => "hash:" ++ pw
  toLowerCase := fun t => String.mk (t.data.map Char.toLower)
  foldCase := Char.toLower
  dotMatchesLineEnd := fun _ => false
  regexOther := fun _ => none
  urlPathnameOther := fun _ => none
  castObjectIdOther := fun _ => .error (.castError "ObjectId")
  castShippingOther := fun _ => .error (.castError "Object")
  indexOrderUpdateOther := fun _ => .ok id

/-- The identifier whose digits are all `d`. -/
def sampleId (d : Fin 16) : ObjectId := ⟨List.replicate 24 d, List.length_replicate 24 d⟩

/-- A sample environment: time 1000, a reachable database, a signing secret. -/
def sampleEnv : Env := ⟨1000, sampleId 10, some "secret", true, "salt", 1⟩

/-- A world with an empty store and no cached connection. -/
def emptyWorld : World := ⟨⟨[], [], []⟩, none, 0⟩

/-- A sample product that passes the validators of `ProductSchema`. -/
def sampleProduct : Product where
  _id := sampleId 11
  name := some "Cap"
  description := some "Sports cap"
  originalPrice := some 80
  salePrice := some 60
  category := some "cap"
  sizes := [some "One Size"]
  colors := [some "black"]
  images := [some "/uploads/cap.jpg"]
  isAvailable := true
  createdAt := 500
  updatedAt := 500
  __v := 0

/-- A world whose store holds the sample product. -/
def sampleWorld : World := ⟨⟨[sampleProduct], [], []⟩, none, 0⟩

/-- A world whose store holds the sample product and a newer copy of it. -/
def twoProductsWorld : World :=
  ⟨⟨[sampleProduct, { sampleProduct with _id := sampleId 12, createdAt := 900 }], [], []⟩, none, 0⟩

/-- The path of the sample product, `bbbbbbbbbbbbbbbbbbbbbbbb` being its identifier. -/
def samplePath : String := "/api/products/bbbbbbbbbbbbbbbbbbbbbbbb"

/-- A sample registered user, whose password is "pw". -/
def sampleUser : User := ⟨sampleId 1, "Ann", "ann@example.com", "hash:pw", false, 100, 100⟩

/-- A world whose store holds the sample user. -/
def userWorld : World := ⟨⟨[], [sampleUser], []⟩, none, 0⟩

/-- The JSON body `{ email, password }` of a login request. -/
def loginBody (email password : String) : JVal :=
  .obj [("email", .str email), ("password", .str password)]

/-- An optional payload field that is absent or an array of strings. -/
def OptStrings (v : Option JVal) : Prop :=
  v = none ∨ ∃ ss : List String, v = some (.arr (ss.map .str))

/-- A valid product payload with one image. -/
def sampleProductBody : JVal :=
  .obj [("name", .str "Hoodie"), ("description", .str "Warm hoodie"),
    ("originalPrice", .num (.fin 350)), ("salePrice", .num (.fin 280)),
    ("category", .str "hoodies"), ("sizes", .arr [.str "M", .str "L"]),
    ("images", .arr [.str "/uploads/hoodie.jpg"])]

/-- The token the sample login is answered with. -/
def sampleToken : Token := ⟨sampleId 1, false, 1, 86401, "secret"⟩

/-- An update payload that renames the sample product and leaves the rest out. -/
def renameBody : JVal := .obj [("name", .str "Hat"), ("salePrice", .num (.fin 55))]

/-- A second sample product, of category "t-shirt". -/
def shirtProduct : Product :=
  { sampleProduct with _id := sampleId 3, name := some "Shirt", category := some "t-shirt" }

/-- A world whose store holds the two sample products. -/
def shopWorld : World := ⟨⟨[sampleProduct, shirtProduct], [], []⟩, none, 0⟩

/-- Whether `pat` is a prefix of `text`, characters compared after case folding. -/
def foldedPrefix (L : Lib) : List Char → List Char → Bool
  | [], _ => true
  | _ :: _, [] => false
  | a :: pat, c :: text => L.foldCase a = L.foldCase c && foldedPrefix L pat text

/-- Whether `text` contains `pat` as a literal substring, compared
case-insensitively: the reading of the category filter as a substring test. -/
def containsFolded (L : Lib) (pat : List Char) : List Char → Bool
  | [] => foldedPrefix L pat []
  | c :: text => foldedPrefix L pat (c :: text) || containsFolded L pat text

/-- The products whose category contains `name` as a literal substring,
compared case-insensitively, newest first. -/
def productsOfCategory (L : Lib) (name : String) (ps : List Product) : List Product :=
  sortNewest (ps.filter (fun p =>
    match p.category with
    | some c => containsFolded L name.data c.data
    | none => false))

/-- The product `p` after a toggle saved at time `now`. -/
def toggled (now : Nat) (p : Product) : Product :=
  { p with isAvailable := !p.isAvailable, updatedAt := now }

/-- An optional payload field that is absent or a string. -/
def OptString (v : Option JVal) : Prop :=
  v = none ∨ ∃ t : String, v = some (.str t)

/-- An entry of `items` carrying every path the item schema requires: `product`,
`productName`, `size` and `color` as non-empty strings, `quantity` and `price`
as numbers; `image`, when given, is a string. -/
def CompleteItem (v : JVal) : Prop :=
  ∃ (fs : List (String × JVal)) (p pn sz cl : String) (q pr : ℚ),
    v = .obj fs ∧
    lookupField "product" fs = some (.str p) ∧ p ≠ "" ∧
    lookupField "productName" fs = some (.str pn) ∧ pn ≠ "" ∧
    lookupField "quantity" fs = some (.num (.fin q)) ∧
    lookupField "size" fs = some (.str sz) ∧ sz ≠ "" ∧
    lookupField "color" fs = some (.str cl) ∧ cl ≠ "" ∧
    lookupField "price" fs = some (.num (.fin pr)) ∧
    OptString (lookupField "image" fs)

/-- The body of the order scenario: one item with `product`, `quantity` and
`price` only. -/
def scenarioOrderBody : JVal :=
  .obj [("customerName", .str "A"), ("customerPhone", .str "555"), ("customerAddress", .str "X"),
    ("items", .arr [.obj [("product", .str "p1"), ("quantity", .num (.fin 2)),
      ("price", .num (.fin 100))]]),
    ("totalAmount", .num (.fin 200))]

/-- The fields of an item that carries every required path. -/
def completeItemFields : List (String × JVal) :=
  [("product", .str "p1"), ("productName", .str "Cap"), ("quantity", .num (.fin 2)),
    ("size", .str "M"), ("color", .str "black"), ("price", .num (.fin 100))]

/-- The fields of the order scenario with its item completed. -/
def completeOrderFields : List (String × JVal) :=
  [("customerName", .str "A"), ("customerPhone", .str "555"), ("customerAddress", .str "X"),
    ("items", .arr [.obj completeItemFields]), ("totalAmount", .num (.fin 200))]

/-- What the claim on the latest product requires of a response `r` for the
products `ps`: status 200 with null when there is no product, and otherwise
status 200 with a stored product that no stored product is newer than. -/
def LatestOf (ps : List Product) (r : Response) : Prop :=
  (ps = [] → r = ⟨200, .null⟩) ∧
  (ps ≠ [] → ∃ p, p ∈ ps ∧ r = ⟨200, .product p⟩ ∧ ∀ q ∈ ps, q.createdAt ≤ p.createdAt)

/-- Whether `connectDB` succeeds: a connection is cached or the database answers. -/
def Connects (env : Env) (w : World) : Prop :=
  w.cachedConnection.isSome = true ∨ env.mongoUp = true

/-- The complete order body with a total of zero. -/
def zeroTotalBody : JVal :=
  .obj [("customerName", .str "A"), ("customerPhone", .str "555"), ("customerAddress", .str "X"),
    ("items", .arr [.obj completeItemFields]), ("totalAmount", .num (.fin 0))]

/-- An order body for the consolidated router with no item and a total of zero. -/
def emptyItemsBody : JVal :=
  .obj [("customerInfo", .obj [("name", .str "A"), ("email", .str "a@example.com"),
      ("phone", .str "555")]),
    ("items", .arr []), ("totalAmount", .num (.fin 0))]

/-- A stored order that has been delivered. -/
def deliveredOrder : Order where
  _id := sampleId 13
  customerName := some "A"
  customerPhone := some "555"
  alternatePhone := some ""
  customerAddress := some "X"
  items := []
  totalAmount := some 200
  status := some "delivered"
  createdAt := 700
  updatedAt := 800
  __v := 0

/-- A world whose store holds the delivered order. -/
def orderWorld : World := ⟨⟨[], [], [deliveredOrder]⟩, none, 0⟩

/-- The path of the delivered order. -/
def orderPath : String := "/api/orders/dddddddddddddddddddddddd"

/-- The update body `{ status }`. -/
def statusBody (st : String) : JVal := .obj [("status", .str st)]

/-- The order `o` after its status has been set to `st` at time `now`. -/
def withStatus (now : Nat) (st : String) (o : Order) : Order :=
  { o with status := some st, updatedAt := now }

/-- A product payload that is complete except for `images`. -/
def noImagesBody : JVal :=
  .obj [("name", .str "Cap"), ("description", .str "Sports cap"),
    ("originalPrice", .num (.fin 80)), ("salePrice", .num (.fin 60)), ("category", .str "cap")]

/-- The route table of `api/index.js`: whether a block of the router returns
for this method and pathname. -/
def indexRouteMatches (method pathname : String) : Bool :=
  (decide (pathname = "/api/products") && (decide (method = "GET") || decide (method = "POST"))) ||
  (decide (pathname = "/api/products/latest") && decide (method = "GET")) ||
  (matchesIdRoute "/api/products/" pathname &&
    (decide (method = "GET") || decide (method = "PUT") || decide (method = "DELETE"))) ||
  (matchesToggleRoute pathname && decide (method = "PUT")) ||
  (decide (pathname = "/api/auth/login") && decide (method = "POST")) ||
  (decide (pathname = "/api/orders") && (decide (method = "GET") || decide (method = "POST"))) ||
  (matchesIdRoute "/api/orders/" pathname && (decide (method = "GET") || decide (method = "PUT"))) ||
  (decide (pathname = "/api/categories") && decide (method = "GET")) ||
  (matchesCategoryRoute pathname && decide (method = "GET")) ||
  decide (pathname = "/api/health")

/-- A payload field that is missing or the empty string. -/
def Blank (v : Option JVal) : Prop := v = none ∨ v = some (.str "")

/-- The queries on users the embedding leaves to the library return stored users. -/
def QueriesStored (L : Lib) : Prop :=
  (∀ v us u, L.findUserOther v us = .ok (some u) → u ∈ us) ∧
  (∀ us u, L.findUserNoEmail us = .ok (some u) → u ∈ us)

/-- The body `{ token, user }` sent for the user `u` when the token is signed
with `key` at time `now`: the token carries the identifier and the admin flag,
the user object the identifier, name, email and admin flag. -/
def sessionBody (now : Nat) (key : String) (u : User) : Body :=
  .session ⟨u._id, u.isAdmin, now / 1000, now / 1000 + 86400, key⟩ ⟨u._id, u.name, u.email, u.isAdmin⟩

/-- The JSON body `{ name, email, password }` of a registration. -/
def registerBody (name email password : String) : JVal :=
  .obj [("name", .str name), ("email", .str email), ("password", .str password)]

/-- The JSON text of the sample product payload. -/
def productText : String :=
  "\x7b\"name\":\"Hoodie\",\"description\":\"Warm hoodie\",\"originalPrice\":350," ++
  "\"salePrice\":280,\"category\":\"hoodies\",\"sizes\":[\"M\",\"L\"]," ++
  "\"images\":[\"/uploads/hoodie.jpg\"]\x7d"

/-- A sample library whose `JSON.parse` reads the text of the empty object and
the text of the sample product payload, and rejects every other text. -/
def parsingLib : Lib :=
  { sampleLib with jsonParse := fun t =>
      if t = "\x7b\x7d" then some (.obj [])
      else if t = productText then some sampleProductBody
      else none }

/-- The value the claim gives the routes for the request text `raw`: the parsed
value when the text is well-formed JSON, the empty object otherwise. -/
def parsedBody (L : Lib) (raw : String) : JVal :=
  match L.jsonParse raw with
  | some v => v
  | none => .obj []

/-- The query the login of `api/index.js` makes for the `email` field of the
body, the field possibly `undefined`: the call `User.findOne` of that clause. -/
def indexUserQuery (L : Lib) (email : Option JVal) (us : List User) : Except Err (Option User) :=
  match email with
  | some v => findUserByEmail L v us
  | none => L.findUserNoEmail us

/-- The sample environment with a store that cannot be reached. -/
def downEnv : Env := ⟨1000, sampleId 10, some "secret", false, "salt", 0⟩

/-- The sample environment without a signing secret. -/
def noSecretEnv : Env := ⟨1000, sampleId 10, none, true, "salt", 1⟩

/-- The world after the calls of `connectDB` made under `envs`, in order. -/
def connectAll (envs : List Env) (w : World) : World :=
  envs.foldl (fun v e => (connectDB e v).2) w

/-- The field `k` of a request body: the property a handler destructures from
it, `none` when the body is missing or has no such property. -/
def bodyField (body : Option JVal) (k : String) : Option JVal :=
  body.bind (fun v => getProp v k)

/-- The values of a payload field that the Mongoose Boolean cast converts to
true: `true`, `'true'`, `1`, `'1'` and `'yes'`. -/
def ConvertsToTrue (v : Option JVal) : Prop :=
  v = some (.bool true) ∨ v = some (.str "true") ∨ v = some (.num (.fin 1)) ∨
  v = some (.str "1") ∨ v = some (.str "yes")

/-- A truthy value of the `isAdmin` field that the Mongoose Boolean cast
converts neither to true nor to false. -/
def RejectedFlag (v : Option JVal) : Prop :=
  truthy v = true ∧ ¬ ConvertsToTrue v ∧
    v ≠ some (.str "false") ∧ v ≠ some (.str "0") ∧ v ≠ some (.str "no")

/-- A registration body for Bob with the given `isAdmin` field. -/
def registerAdminBody (flag : JVal) : JVal :=
  .obj [("name", .str "Bob"), ("email", .str "bob@example.com"), ("password", .str "secret1"),
    ("isAdmin", flag)]

/-- The list `sampleProducts` of `backend/test-local.js`. -/
def testLocalProducts : List ProductData :=
  [ { name := "تيشيرت قطني أبيض"
      description := "تيشيرت قطني عالي الجودة باللون الأبيض، مريح ومناسب لجميع المناسبات"
      originalPrice := 200
      salePrice := 150
      category := "تيشيرتات"
      sizes := ["S", "M", "L", "XL"]
      colors := ["أبيض", "أسود", "أزرق"]
      images := ["/uploads/placeholder-tshirt-1.jpg"]
      isAvailable := some true },
    { name := "هودي شتوي رمادي"
      description := "هودي دافئ ومريح مناسب للطقس البارد، مصنوع من أجود الخامات"
      originalPrice := 350
      salePrice := 280
      category := "هوديز"
      sizes := ["M", "L", "XL", "XXL"]
      colors := ["رمادي", "أسود", "أزرق داكن"]
      images := ["/uploads/placeholder-hoodie-1.jpg"]
      isAvailable := some true },
    { name := "كاب رياضي أسود"
      description := "كاب رياضي عملي وأنيق، مناسب للأنشطة الرياضية والاستخدام اليومي"
      originalPrice := 80
      salePrice := 60
      category := "إكسسوارات"
      sizes := ["One Size"]
      colors := ["أسود", "أبيض", "أحمر"]
      images := ["/uploads/placeholder-cap-1.jpg"]
      isAvailable := some true } ]

/-- The sample list with each category replaced by a value of the enum of the
Express model. -/
def enumProducts : List ProductData :=
  (testLocalProducts.zip ["t-shirt", "hoodies", "cap"]).map
    (fun dc => { dc.1 with category := dc.2 })

/-- Clock and identifier of the document number `i` in a sample run of the script. -/
def sampleGen (i : Nat) : Env := ⟨1000 + i, sampleId (Fin.ofNat i), some "secret", true, "salt", 1⟩

/-! ## Lemmas on the connection step -/

theorem connectDB_store (env : Env) (w : World) : (connectDB env w).2.store = w.store := by
  unfold connectDB
  cases w.cachedConnection with
  | some c => rfl
  | none => by_cases h : env.mongoUp = true <;> simp [h]

theorem connectDB_ok (env : Env) (w : World) (h : Connects env w) :
    ∃ c, (connectDB env w).1 = .ok c := by
  unfold connectDB
  cases hc : w.cachedConnection with
  | some c => exact ⟨c, rfl⟩
  | none =>
    rcases h with h | h
    · simp [hc] at h
    · exact ⟨w.connectCalls + 1, by simp [h]⟩

/-- The answer of a handler to a request other than a preflight when the
connection step succeeds: the routes run on the world after `connectDB`. -/
theorem serve_connected (routes : World → Except Err Response × World) (env : Env)
    (req : Request) (w : World) (h : Connects env w) (hm : req.method ≠ "OPTIONS") :
    serve routes env req w =
      match routes (connectDB env w).2 with
      | (.ok r, w2) => (r, w2)
      | (.error e, w2) => (⟨500, .serverError e⟩, w2) := by
  obtain ⟨c, hc⟩ := connectDB_ok env w h
  unfold serve
  rw [if_neg hm]
  rcases hcd : connectDB env w with ⟨r, w1⟩
  rw [hcd] at hc
  simp only at hc
  subst hc
  rfl

theorem connectDB_cached (env : Env) (w : World) (h : Connects env w) :
    (connectDB env w).2.cachedConnection.isSome = true := by
  unfold connectDB
  cases hc : w.cachedConnection with
  | some c => simp [hc]
  | none =>
    rcases h with h | h
    · simp [hc] at h
    · simp [h]

/-! ## Lemmas on collections -/

theorem findById_id {oid : ObjectId} {ps : List Product} {p : Product}
    (h : findById oid ps = some p) : p._id = oid := by
  unfold findById at h
  have := List.find?_some h
  simpa using this

theorem findById_replaceById (oid : ObjectId) (q : Product) (hq : q._id = oid) :
    ∀ (ps : List Product) (p : Product), findById oid ps = some p →
      findById oid (replaceById q ps) = some q
  | [], p, h => by simp [findById] at h
  | r :: rs, p, h => by
    by_cases hr : r._id = oid
    · simp [replaceById, findById, hr, hq]
    · have h1 : findById oid rs = some p := by
        simpa [findById, List.find?_cons, hr] using h
      have ih := findById_replaceById oid q hq rs p h1
      simp only [replaceById, hq, hr, if_false]
      simpa [findById, List.find?_cons, hr] using ih

theorem findById_append_new (oid : ObjectId) (p : Product) (hp : p._id = oid) :
    ∀ ps : List Product, findById oid ps = none → findById oid (ps ++ [p]) = some p
  | [], _ => by simp [findById, hp]
  | q :: qs, h => by
    have hq : ¬ q._id = oid := by
      intro hq
      simp [findById, List.find?_cons, hq] at h
    have h1 : findById oid qs = none := by
      simpa [findById, List.find?_cons, hq] using h
    have ih := findById_append_new oid p hp qs h1
    simpa [findById, List.find?_cons, hq] using ih

theorem removeById_of_missing (oid : ObjectId) :
    ∀ ps : List Product, findById oid ps = none → removeById oid ps = ps
  | [], _ => rfl
  | q :: qs, h => by
    have hq : ¬ q._id = oid := by
      intro hq
      simp [findById, List.find?_cons, hq] at h
    have h1 : findById oid qs = none := by
      simpa [findById, List.find?_cons, hq] using h
    simp [removeById, hq, removeById_of_missing oid qs h1]

/-- The head of a non-empty list sorted newest first is one of its documents
and no document of the list is newer. -/
theorem sortNewest_head : ∀ ps : List Product, ps ≠ [] →
    ∃ p, (sortNewest ps).head? = some p ∧ p ∈ ps ∧ ∀ q ∈ ps, q.createdAt ≤ p.createdAt
  | [], h => absurd rfl h
  | [a], _ => ⟨a, rfl, List.mem_singleton_self a, fun q hq => by
      rw [List.mem_singleton.1 hq]⟩
  | a :: b :: rest, _ => by
    obtain ⟨m, hm, hmem, hmax⟩ := sortNewest_head (b :: rest) (List.cons_ne_nil b rest)
    cases hs : sortNewest (b :: rest) with
    | nil => simp [hs] at hm
    | cons x tl =>
      have hx : x = m := by simpa [hs] using hm
      subst hx
      by_cases hle : x.createdAt ≤ a.createdAt
      · refine ⟨a, by simp [sortNewest, insertNewest, hle] at hs ⊢; simp [hs, insertNewest, hle],
          List.mem_cons_self a _, ?_⟩
        intro q hq
        rcases List.mem_cons.1 hq with rfl | hq
        · exact le_rfl
        · exact le_trans (hmax q hq) hle
      · refine ⟨x, by simp [sortNewest, insertNewest, hle] at hs ⊢; simp [hs, insertNewest, hle],
          List.mem_cons_of_mem a hmem, ?_⟩
        intro q hq
        rcases List.mem_cons.1 hq with rfl | hq
        · exact le_of_lt (not_le.1 hle)
        · exact hmax q hq

/-! ## Lemmas on identifiers -/

theorem hexVal_hexChar : ∀ d : Fin 16, hexVal (hexChar d) = some d := by decide

theorem hexDigits_map_hexChar : ∀ ds : List (Fin 16), hexDigits (ds.map hexChar) = some ds
  | [] => rfl
  | d :: ds => by
    simp [hexDigits, hexVal_hexChar d, hexDigits_map_hexChar ds]

/-- Casting the hexadecimal form of an identifier gives the identifier back. -/
theorem castObjectId_toHexString (o : ObjectId) : castObjectId o.toHexString = some o := by
  have hl : (o.digits.map hexChar).length = 24 := by simp [o.len]
  unfold castObjectId ObjectId.toHexString
  simp only [hl]
  simp [hexDigits_map_hexChar, mkObjectId, o.len]

theorem toHexString_ne_latest (o : ObjectId) : o.toHexString ≠ "latest" := by
  intro h
  have hl : o.toHexString.data.length = 24 := by simp [ObjectId.toHexString, o.len]
  rw [h] at hl
  revert hl
  decide

/-! ## Lemmas on request paths -/

theorem hexChar_plain : ∀ d : Fin 16, hexChar d ≠ '?' ∧ hexChar d ≠ '/' := by decide

theorem splitOn_of_not_mem (sep : Char) : ∀ cs : List Char, sep ∉ cs → splitOn sep cs = [cs]
  | [], _ => rfl
  | c :: cs, h => by
    have hc : c ≠ sep := fun e => h (by simp [e])
    have ih := splitOn_of_not_mem sep cs (fun m => h (List.mem_cons_of_mem c m))
    simp [splitOn, hc, ih]

/-- The path parts of the URL of a product: its identifier in hexadecimal. -/
theorem pathParts_product (o : ObjectId) :
    pathParts "/api/products" ("/api/products/" ++ o.toHexString) = [o.toHexString] := by
  have hq : ∀ c ∈ o.digits.map hexChar, c ≠ '?' := by
    intro c hc
    obtain ⟨d, _, rfl⟩ := List.mem_map.1 hc
    exact (hexChar_plain d).1
  have hs : '/' ∉ o.digits.map hexChar := by
    intro hc
    obtain ⟨d, _, hd⟩ := List.mem_map.1 hc
    exact (hexChar_plain d).2 hd
  have hne : o.digits.map hexChar ≠ [] := by
    intro h
    have := congrArg List.length h
    simp [o.len] at this
  have hdata : ("/api/products/" ++ o.toHexString).data =
      '/' :: 'a' :: 'p' :: 'i' :: '/' :: 'p' :: 'r' :: 'o' :: 'd' :: 'u' :: 'c' :: 't' :: 's' ::
        '/' :: o.digits.map hexChar := by
    simp [ObjectId.toHexString, String.data_append]
  have hroute : "/api/products".data =
      ['/', 'a', 'p', 'i', '/', 'p', 'r', 'o', 'd', 'u', 'c', 't', 's'] := rfl
  have hclean : cleanUrl ("/api/products/" ++ o.toHexString).data =
      ("/api/products/" ++ o.toHexString).data := by
    unfold cleanUrl
    rw [List.takeWhile_eq_self_iff, hdata]
    intro c hc
    simp only [List.mem_cons] at hc
    rcases hc with rfl | rfl | rfl | rfl | rfl | rfl | rfl | rfl | rfl | rfl | rfl | rfl | rfl | rfl | hc
    all_goals first | decide | (simpa using hq c hc)
  unfold pathParts
  rw [hclean, hdata, hroute]
  simp [dropRoute, List.isPrefixOf, segmentsOf, splitOn_of_not_mem '/' _ hs, hne,
    ObjectId.toHexString]

/-! ## Lemmas on casts -/

theorem castStrings_strs (L : Lib) : ∀ ss : List String,
    castStrings L (ss.map JVal.str) = .ok (ss.map some)
  | [] => rfl
  | s :: ss => by simp [castStrings, castString, castStrings_strs L ss]

theorem imageFailures_nonempty : ∀ (i : Nat) (ss : List String), (∀ s ∈ ss, s ≠ "") →
    imageFailures i (ss.map some) = []
  | _, [], _ => rfl
  | i, s :: ss, h => by
    have hs : s ≠ "" := h s (List.mem_cons_self s ss)
    have ih := imageFailures_nonempty (i + 1) ss (fun t ht => h t (List.mem_cons_of_mem s ht))
    simp [imageFailures, requiredString, hs, ih]

theorem castStringArray_optStrings (L : Lib) (v : Option JVal) (h : OptStrings v) :
    ∃ xs, castStringArray L ((jsOr v (some (.arr []))).getD (.arr [])) = .ok xs := by
  rcases h with h | ⟨ss, h⟩
  · subst h
    exact ⟨[], rfl⟩
  · subst h
    exact ⟨ss.map some, by simp [jsOr, truthy, castStringArray, castStrings_strs]⟩

theorem castString_optString (L : Lib) (v : Option JVal) (h : OptString v) :
    ∃ x, castString L v = .ok x := by
  rcases h with h | ⟨t, h⟩
  · subst h; exact ⟨none, rfl⟩
  · subst h; exact ⟨some t, rfl⟩

theorem castItem_complete (L : Lib) (v : JVal) (h : CompleteItem v) :
    ∃ it, castItem L v = .ok (some it) ∧ ∀ i, itemFailures i it = [] := by
  obtain ⟨fs, p, pn, sz, cl, q, pr, rfl, hp, hp0, hpn, hpn0, hq, hsz, hsz0, hcl, hcl0, hpr, him⟩ := h
  obtain ⟨im, him1⟩ := castString_optString L _ him
  refine ⟨
    { product := some p, productName := some pn, quantity := some q, size := some sz,
      color := some cl, price := some pr, image := im }, ?_, ?_⟩
  · simp only [castItem, hp, hpn, hq, hsz, hcl, hpr, him1]
    simp [castString, castNumber]
  · intro i
    simp [itemFailures, requiredString, hp0, hpn0, hsz0, hcl0]

theorem castItemList_complete (L : Lib) : ∀ vs : List JVal, (∀ v ∈ vs, CompleteItem v) →
    ∃ its, castItemList L vs = .ok its ∧ ∀ i, itemsFailures i its = []
  | [], _ => ⟨[], rfl, fun _ => rfl⟩
  | v :: vs, h => by
    obtain ⟨it, hit, hf⟩ := castItem_complete L v (h v (List.mem_cons_self v vs))
    obtain ⟨its, hits, hfs⟩ := castItemList_complete L vs (fun u hu => h u (List.mem_cons_of_mem v hu))
    refine ⟨some it :: its, by simp [castItemList, hit, hits], ?_⟩
    intro i
    simp [itemsFailures, hf i, hfs (i + 1)]

/-! ## Lemmas on pathnames and regular expressions -/

theorem splitOn_append_sep (sep : Char) (b : List Char) : ∀ a : List Char, sep ∉ a →
    splitOn sep (a ++ sep :: b) = a :: splitOn sep b
  | [], _ => by simp [splitOn]
  | c :: a, h => by
    have hc : c ≠ sep := fun e => h (by simp [e])
    have ih := splitOn_append_sep sep b a (fun m => h (List.mem_cons_of_mem c m))
    simp [splitOn, hc, ih]

theorem isPrefixOf_false_of_get : ∀ (pre l : List Char) (i : Nat) (a b : Char),
    pre.get? i = some a → l.get? i = some b → a ≠ b → pre.isPrefixOf l = false
  | [], _, _, _, _, h, _, _ => by simp at h
  | _ :: _, [], _, _, _, _, h, _ => by simp at h
  | x :: xs, y :: ys, 0, a, b, h1, h2, hab => by
    simp at h1 h2
    subst h1 h2
    simp [List.isPrefixOf, hab]
  | x :: xs, y :: ys, i + 1, a, b, h1, h2, hab => by
    simp at h1 h2
    simp [List.isPrefixOf, isPrefixOf_false_of_get xs ys i a b (by simpa using h1)
      (by simpa using h2) hab]

theorem string_ne_of_get (p t : String) (i : Nat) (a b : Char)
    (hp : p.data.get? i = some a) (ht : t.data.get? i = some b) (hab : a ≠ b) : p ≠ t := by
  rintro rfl
  rw [hp] at ht
  exact hab (by simpa using ht)

theorem string_ne_of_length (p t : String) (h : p.data.length ≠ t.data.length) : p ≠ t := by
  rintro rfl
  exact h rfl

theorem matchesHere_plain (L : Lib) : ∀ (pat text : List Char), '.' ∉ pat →
    matchesHere L pat text = foldedPrefix L pat text
  | [], _, _ => by simp [matchesHere, foldedPrefix]
  | _ :: _, [], _ => by simp [matchesHere, foldedPrefix]
  | a :: pat, c :: text, h => by
    have ha : a ≠ '.' := fun e => h (by simp [e])
    have ih := matchesHere_plain L pat text (fun m => h (List.mem_cons_of_mem a m))
    simp [matchesHere, foldedPrefix, atomMatches, ha, ih]

theorem matchesSomewhere_plain (L : Lib) (pat : List Char) (h : '.' ∉ pat) :
    ∀ text : List Char, matchesSomewhere L pat text = containsFolded L pat text
  | [] => by simp [matchesSomewhere, containsFolded, matchesHere_plain L pat [] h]
  | c :: text => by
    simp [matchesSomewhere, containsFolded, matchesHere_plain L pat (c :: text) h,
      matchesSomewhere_plain L pat h text]

/-- A name without metacharacter is a pattern that tests for the name as a
substring, case folded. -/
theorem regExp_plain (L : Lib) (name : String) (h : ∀ c ∈ name.data, c ∉ regexMeta) :
    regExp L name = some (fun text => containsFolded L name.data text.data) := by
  have hall : name.data.all (fun c => c = '.' || !(c ∈ regexMeta)) = true := by
    rw [List.all_eq_true]
    intro c hc
    simp [h c hc]
  have hdot : '.' ∉ name.data := fun m => h '.' m (by decide)
  unfold regExp
  rw [if_pos hall]
  congr 1
  funext text
  exact matchesSomewhere_plain L name.data hdot text.data

theorem deslug_plain (t : String) (h : ∀ c ∈ t.data, c ∉ regexMeta) :
    ∀ c ∈ (deslug t).data, c ∉ regexMeta := by
  intro c hc
  simp only [deslug, List.mem_map] at hc
  obtain ⟨d, hd, rfl⟩ := hc
  by_cases hh : d = '-'
  · simp only [hh, if_true]; decide
  · simp only [hh, if_false]; exact h d hd

/-! ## Lemmas on the orders collection -/

theorem findOrderById_id {oid : ObjectId} {os : List Order} {o : Order}
    (h : findOrderById oid os = some o) : o._id = oid := by
  unfold findOrderById at h
  have := List.find?_some h
  simpa using this

theorem findOrderById_replace (oid : ObjectId) (q : Order) (hq : q._id = oid) :
    ∀ (os : List Order) (o : Order), findOrderById oid os = some o →
      findOrderById oid (replaceOrderById q os) = some q
  | [], o, h => by simp [findOrderById] at h
  | r :: rs, o, h => by
    by_cases hr : r._id = oid
    · simp [replaceOrderById, findOrderById, hr, hq]
    · have h1 : findOrderById oid rs = some o := by
        simpa [findOrderById, List.find?_cons, hr] using h
      have ih := findOrderById_replace oid q hq rs o h1
      simp only [replaceOrderById, hq, hr, if_false]
      simpa [findOrderById, List.find?_cons, hr] using ih

theorem findOrderById_append (oid : ObjectId) (o : Order) (extra : List Order) :
    ∀ os : List Order, findOrderById oid os = some o → findOrderById oid (os ++ extra) = some o
  | [], h => by simp [findOrderById] at h
  | r :: rs, h => by
    by_cases hr : r._id = oid
    · simpa [findOrderById, List.find?_cons, hr] using h
    · have h1 : findOrderById oid rs = some o := by
        simpa [findOrderById, List.find?_cons, hr] using h
      have ih := findOrderById_append oid o extra rs h1
      simpa [findOrderById, List.find?_cons, hr] using ih

/-! ## Lemmas on order items -/

theorem castItemList_length (L : Lib) : ∀ (vs : List JVal) (xs : List (Option OrderItem)),
    castItemList L vs = .ok xs → xs.length = vs.length
  | [], xs, h => by
    simp [castItemList] at h
    simp [← h]
  | v :: vs, xs, h => by
    unfold castItemList at h
    cases h1 : castItem L v with
    | error e => simp [h1] at h
    | ok x =>
      cases h2 : castItemList L vs with
      | error e => simp [h1, h2] at h
      | ok ys =>
        simp [h1, h2] at h
        subst h
        simp [castItemList_length L vs ys h2]

/-- The items cast from a truthy value whose length is not zero are at least one. -/
theorem castItems_length_pos (L : Lib) (v : JVal) (xs : List (Option OrderItem))
    (hz : isZero (jsLength v) = false) (h : castItems L v = .ok xs) : 1 ≤ xs.length := by
  cases v with
  | arr vs =>
    have hl := castItemList_length L vs xs h
    cases vs with
    | nil => simp [jsLength, isZero] at hz
    | cons a t => rw [hl]; simp
  | null => have hl := castItemList_length L _ xs h; rw [hl]; simp
  | bool b => have hl := castItemList_length L _ xs h; rw [hl]; simp
  | num n => have hl := castItemList_length L _ xs h; rw [hl]; simp
  | str t => have hl := castItemList_length L _ xs h; rw [hl]; simp
  | obj fs => have hl := castItemList_length L _ xs h; rw [hl]; simp

/-! ## Lemmas on categories -/

theorem categoryEntries_strings (L : Lib) : ∀ cats : List String,
    categoryEntries L (cats.map some) = .ok (cats.map (fun c => (c, slugOf L c)))
  | [] => rfl
  | c :: cats => by simp [categoryEntries, categoryEntries_strings L cats]

theorem hyphenateAux_no_space : ∀ (inRun : Bool) (cs : List Char),
    ∀ ch ∈ hyphenateAux inRun cs, isJsSpace ch = false
  | _, [], ch, h => by simp [hyphenateAux] at h
  | inRun, c :: cs, ch, h => by
    unfold hyphenateAux at h
    by_cases hc : isJsSpace c = true
    · rw [if_pos hc] at h
      cases inRun with
      | true =>
        simp only [if_true] at h
        exact hyphenateAux_no_space true cs ch h
      | false =>
        simp only [Bool.false_eq_true, if_false, List.mem_cons] at h
        rcases h with rfl | h
        · decide
        · exact hyphenateAux_no_space true cs ch h
    · rw [if_neg hc, List.mem_cons] at h
      rcases h with rfl | h
      · simpa using hc
      · exact hyphenateAux_no_space false cs ch h

theorem hyphenateAux_of_no_space : ∀ cs : List Char, (∀ c ∈ cs, isJsSpace c = false) →
    hyphenateAux false cs = cs
  | [], _ => rfl
  | c :: cs, h => by
    have hc : isJsSpace c = false := h c (List.mem_cons_self c cs)
    have ih := hyphenateAux_of_no_space cs (fun d hd => h d (List.mem_cons_of_mem c hd))
    simp [hyphenateAux, hc, ih]

theorem mem_distinctValues : ∀ (xs : List (Option String)) (y : Option String),
    y ∈ distinctValues xs ↔ y ∈ xs
  | [], y => by simp [distinctValues]
  | x :: xs, y => by
    simp only [distinctValues, List.mem_cons, List.mem_filter, mem_distinctValues xs y]
    by_cases h : y = x
    · simp [h]
    · simp [h]

theorem nodup_distinctValues : ∀ xs : List (Option String), (distinctValues xs).Nodup
  | [] => by simp [distinctValues]
  | x :: xs => by
    simp only [distinctValues, List.nodup_cons]
    exact ⟨by simp [List.mem_filter], (nodup_distinctValues xs).filter _⟩

/-! ## Claims -/

/-- C1: a POST on the collection path of the products handler whose body is an
object without an images field, or with an empty images list, is answered 400
with message "At least one image is required", and the store is unchanged. -/
theorem products_post_without_images (L : Lib) (env : Env) (w : World) (req : Request)
    (fs : List (String × JVal)) (hconn : Connects env w)
    (hm : req.method = "POST") (hp : pathParts "/api/products" req.url = [])
    (hb : req.body = some (.obj fs))
    (hi : lookupField "images" fs = none ∨ lookupField "images" fs = some (.arr [])) :
    (productsHandler L env req w).1 = ⟨400, .message "At least one image is required"⟩ ∧
    (productsHandler L env req w).2.store.products = w.store.products := by
  have hne : req.method ≠ "OPTIONS" := by rw [hm]; decide
  have hroute : productsRoutes L env req (connectDB env w).2 =
      (.ok ⟨400, .message "At least one image is required"⟩, (connectDB env w).2) := by
    unfold productsRoutes
    simp only [hm, hp, hb]
    simp only [productsCreate, destructure, getProp]
    rcases hi with hi | hi <;> simp [hi, truthy, isZero, jsLength]
  unfold productsHandler
  rw [serve_connected _ env req w hconn hne, hroute]
  exact ⟨rfl, by rw [connectDB_store]⟩

theorem products_post_without_images_witness :
    (productsHandler sampleLib sampleEnv ⟨"POST", "/api/products", some (.obj [("name", .str "Cap")])⟩
        emptyWorld).1 = ⟨400, .message "At least one image is required"⟩ ∧
    (productsHandler sampleLib sampleEnv ⟨"POST", "/api/products", some (.obj [("name", .str "Cap")])⟩
        emptyWorld).2.store.products = emptyWorld.store.products :=
  products_post_without_images sampleLib sampleEnv emptyWorld
    ⟨"POST", "/api/products", some (.obj [("name", .str "Cap")])⟩ [("name", .str "Cap")]
    (Or.inr rfl) rfl (by decide) rfl (Or.inl rfl)

/-- The toggle clause on a stored product that passes the validators: the
product is stored and returned with the flag negated and `updatedAt` set. -/
theorem productsToggle_valid (env : Env) (seg : String) (oid : ObjectId) (p : Product) (w : World)
    (hid : castObjectId seg = some oid) (hfind : findById oid w.store.products = some p)
    (hvalid : productFailures p = []) :
    productsToggle env seg w =
      (.ok (.json (.product (toggled env.now p))),
        { w with store := { w.store with products := replaceById (toggled env.now p) w.store.products } }) := by
  have hv : productFailures ({ p with isAvailable := !p.isAvailable } : Product) = [] := hvalid
  simp [productsToggle, hid, hfind, saveProduct, hv, toggled]

theorem productsRoutes_toggle (L : Lib) (env : Env) (req : Request) (seg : String) (w : World)
    (hm : req.method = "PUT") (hp : pathParts "/api/products" req.url = [seg, "toggle"]) :
    productsRoutes L env req w = productsToggle env seg w := by
  unfold productsRoutes
  simp [hm, hp]

/-- One toggle request on a stored, valid product of a reachable store. -/
theorem productsHandler_toggle (L : Lib) (env : Env) (req : Request) (seg : String)
    (oid : ObjectId) (p : Product) (w : World) (hconn : Connects env w)
    (hm : req.method = "PUT") (hp : pathParts "/api/products" req.url = [seg, "toggle"])
    (hid : castObjectId seg = some oid) (hfind : findById oid w.store.products = some p)
    (hvalid : productFailures p = []) :
    (productsHandler L env req w).1 = .json (.product (toggled env.now p)) ∧
    findById oid (productsHandler L env req w).2.store.products = some (toggled env.now p) ∧
    (productsHandler L env req w).2.cachedConnection.isSome = true := by
  have hne : req.method ≠ "OPTIONS" := by rw [hm]; decide
  have hf : findById oid (connectDB env w).2.store.products = some p := by
    rw [connectDB_store]; exact hfind
  unfold productsHandler
  rw [serve_connected _ env req w hconn hne, productsRoutes_toggle L env req seg _ hm hp,
    productsToggle_valid env seg oid p _ hid hf hvalid]
  refine ⟨rfl, ?_, connectDB_cached env w hconn⟩
  have hid2 : (toggled env.now p)._id = oid := by
    show p._id = oid
    exact findById_id hfind
  exact findById_replaceById oid (toggled env.now p) hid2 _ p hf

/-- C2 (as stated, refuted): a stored product need not pass the schema
validators, since `PUT /api/products/:id` writes without validating.  After
the sample product has been given an empty name by such a PUT (answered 200),
a toggle request on it is answered 500 and leaves `isAvailable` as it was. -/
theorem products_toggle_invalid_counterexample :
    (productsHandler sampleLib sampleEnv
        ⟨"PUT", samplePath, some (.obj [("name", .str "")])⟩ sampleWorld).1.status = 200 ∧
    findById (sampleId 11) (productsHandler sampleLib sampleEnv
        ⟨"PUT", samplePath, some (.obj [("name", .str "")])⟩ sampleWorld).2.store.products =
      some { sampleProduct with name := some "", updatedAt := 1000 } ∧
    (productsHandler sampleLib sampleEnv ⟨"PUT", samplePath ++ "/toggle", none⟩
        (productsHandler sampleLib sampleEnv
          ⟨"PUT", samplePath, some (.obj [("name", .str "")])⟩ sampleWorld).2).1 =
      ⟨500, .serverError (.validationError ["name"])⟩ ∧
    (findById (sampleId 11) (productsHandler sampleLib sampleEnv ⟨"PUT", samplePath ++ "/toggle", none⟩
        (productsHandler sampleLib sampleEnv
          ⟨"PUT", samplePath, some (.obj [("name", .str "")])⟩ sampleWorld).2).2.store.products).map
      Product.isAvailable = some true := by
  decide

/-- C2 (amended): for a stored product that passes the schema validators, two
successive toggle requests on its identifier are both answered 200; after the
first the stored flag is the negation of the original value, after the second
it is the original value again. -/
theorem products_toggle_twice (L : Lib) (env1 env2 : Env) (req1 req2 : Request) (seg : String)
    (oid : ObjectId) (p : Product) (w : World) (hconn : Connects env1 w)
    (hm1 : req1.method = "PUT") (hp1 : pathParts "/api/products" req1.url = [seg, "toggle"])
    (hm2 : req2.method = "PUT") (hp2 : pathParts "/api/products" req2.url = [seg, "toggle"])
    (hid : castObjectId seg = some oid) (hfind : findById oid w.store.products = some p)
    (hvalid : productFailures p = []) :
    (productsHandler L env1 req1 w).1.status = 200 ∧
    (productsHandler L env2 req2 (productsHandler L env1 req1 w).2).1.status = 200 ∧
    (findById oid (productsHandler L env1 req1 w).2.store.products).map Product.isAvailable =
      some (!p.isAvailable) ∧
    (findById oid (productsHandler L env2 req2 (productsHandler L env1 req1 w).2).2.store.products).map
      Product.isAvailable = some p.isAvailable := by
  obtain ⟨h1, h2, h3⟩ := productsHandler_toggle L env1 req1 seg oid p w hconn hm1 hp1 hid hfind hvalid
  have hv1 : productFailures (toggled env1.now p) = [] := hvalid
  obtain ⟨k1, k2, _⟩ := productsHandler_toggle L env2 req2 seg oid (toggled env1.now p)
    (productsHandler L env1 req1 w).2 (Or.inl h3) hm2 hp2 hid h2 hv1
  refine ⟨by rw [h1]; rfl, by rw [k1]; rfl, by rw [h2]; rfl, ?_⟩
  rw [k2]
  simp [toggled]

theorem products_toggle_twice_witness :
    (productsHandler sampleLib sampleEnv ⟨"PUT", samplePath ++ "/toggle", none⟩ sampleWorld).1.status = 200 ∧
    (productsHandler sampleLib sampleEnv ⟨"PUT", samplePath ++ "/toggle", none⟩
      (productsHandler sampleLib sampleEnv ⟨"PUT", samplePath ++ "/toggle", none⟩ sampleWorld).2).1.status
      = 200 ∧
    (findById (sampleId 11) (productsHandler sampleLib sampleEnv ⟨"PUT", samplePath ++ "/toggle", none⟩
      sampleWorld).2.store.products).map Product.isAvailable = some (!sampleProduct.isAvailable) ∧
    (findById (sampleId 11) (productsHandler sampleLib sampleEnv ⟨"PUT", samplePath ++ "/toggle", none⟩
      (productsHandler sampleLib sampleEnv ⟨"PUT", samplePath ++ "/toggle", none⟩
        sampleWorld).2).2.store.products).map Product.isAvailable = some sampleProduct.isAvailable :=
  products_toggle_twice sampleLib sampleEnv sampleEnv ⟨"PUT", samplePath ++ "/toggle", none⟩
    ⟨"PUT", samplePath ++ "/toggle", none⟩ "bbbbbbbbbbbbbbbbbbbbbbbb" (sampleId 11) sampleProduct
    sampleWorld (Or.inr rfl) rfl (by decide) rfl (by decide) (by decide) (by decide) (by decide)

theorem authRoutes_login (L : Lib) (env : Env) (req : Request) (w : World)
    (hm : req.method = "POST") (hp : (authPathParts req.url).head? = some "login") :
    authRoutes L env req w = authLogin L env req.body w := by
  unfold authRoutes
  simp [hm, hp]

/-- Login failures on string credentials: for non-empty email and password
strings, a login whose email matches no stored user and a login whose email
matches a stored user whose hash the password does not match receive the same
response, 400 with message "Invalid credentials", which carries no token. -/
theorem login_failures_indistinguishable (L : Lib) (env : Env) (w : World) (req1 req2 : Request)
    (fs1 fs2 : List (String × JVal)) (e1 p1 e2 p2 : String) (u : User)
    (hconn : Connects env w)
    (hm1 : req1.method = "POST") (hr1 : (authPathParts req1.url).head? = some "login")
    (hm2 : req2.method = "POST") (hr2 : (authPathParts req2.url).head? = some "login")
    (hb1 : req1.body = some (.obj fs1)) (hb2 : req2.body = some (.obj fs2))
    (he1 : lookupField "email" fs1 = some (.str e1)) (hp1 : lookupField "password" fs1 = some (.str p1))
    (he2 : lookupField "email" fs2 = some (.str e2)) (hp2 : lookupField "password" fs2 = some (.str p2))
    (hne1 : e1 ≠ "") (hnp1 : p1 ≠ "") (hne2 : e2 ≠ "") (hnp2 : p2 ≠ "")
    (hunknown : w.store.users.find? (fun v => v.email = e1) = none)
    (hknown : w.store.users.find? (fun v => v.email = e2) = some u)
    (hwrong : L.bcryptCompare p2 u.password = false) :
    (authHandler L env req1 w).1 = ⟨400, .message "Invalid credentials"⟩ ∧
    (authHandler L env req2 w).1 = ⟨400, .message "Invalid credentials"⟩ ∧
    (authHandler L env req1 w).1 = (authHandler L env req2 w).1 ∧
    (authHandler L env req1 w).2.store = w.store ∧ (authHandler L env req2 w).2.store = w.store := by
  have hn1 : req1.method ≠ "OPTIONS" := by rw [hm1]; decide
  have hn2 : req2.method ≠ "OPTIONS" := by rw [hm2]; decide
  have hu1 : (connectDB env w).2.store.users.find? (fun v => v.email = e1) = none := by
    rw [connectDB_store]; exact hunknown
  have hu2 : (connectDB env w).2.store.users.find? (fun v => v.email = e2) = some u := by
    rw [connectDB_store]; exact hknown
  have k1 : authRoutes L env req1 (connectDB env w).2 =
      (.ok ⟨400, .message "Invalid credentials"⟩, (connectDB env w).2) := by
    rw [authRoutes_login L env req1 _ hm1 hr1, hb1]
    simp [authLogin, destructure, getProp, he1, hp1, truthy, hne1, hnp1, findUserByEmail, hu1]
  have k2 : authRoutes L env req2 (connectDB env w).2 =
      (.ok ⟨400, .message "Invalid credentials"⟩, (connectDB env w).2) := by
    rw [authRoutes_login L env req2 _ hm2 hr2, hb2]
    simp [authLogin, destructure, getProp, he2, hp2, truthy, hne2, hnp2, findUserByEmail, hu2,
      bcryptCompare, hwrong]
  have r1 : authHandler L env req1 w = (⟨400, .message "Invalid credentials"⟩, (connectDB env w).2) := by
    unfold authHandler
    rw [serve_connected _ env req1 w hconn hn1, k1]
  have r2 : authHandler L env req2 w = (⟨400, .message "Invalid credentials"⟩, (connectDB env w).2) := by
    unfold authHandler
    rw [serve_connected _ env req2 w hconn hn2, k2]
  rw [r1, r2]
  exact ⟨rfl, rfl, rfl, connectDB_store env w, connectDB_store env w⟩

theorem login_failures_indistinguishable_witness :
    (authHandler sampleLib sampleEnv ⟨"POST", "/api/auth/login", some (loginBody "bob@example.com" "pw")⟩
      userWorld).1 = ⟨400, .message "Invalid credentials"⟩ ∧
    (authHandler sampleLib sampleEnv ⟨"POST", "/api/auth/login", some (loginBody "ann@example.com" "no")⟩
      userWorld).1 = ⟨400, .message "Invalid credentials"⟩ ∧
    (authHandler sampleLib sampleEnv ⟨"POST", "/api/auth/login", some (loginBody "bob@example.com" "pw")⟩
      userWorld).1 =
    (authHandler sampleLib sampleEnv ⟨"POST", "/api/auth/login", some (loginBody "ann@example.com" "no")⟩
      userWorld).1 ∧
    (authHandler sampleLib sampleEnv ⟨"POST", "/api/auth/login", some (loginBody "bob@example.com" "pw")⟩
      userWorld).2.store = userWorld.store ∧
    (authHandler sampleLib sampleEnv ⟨"POST", "/api/auth/login", some (loginBody "ann@example.com" "no")⟩
      userWorld).2.store = userWorld.store :=
  login_failures_indistinguishable sampleLib sampleEnv userWorld
    ⟨"POST", "/api/auth/login", some (loginBody "bob@example.com" "pw")⟩
    ⟨"POST", "/api/auth/login", some (loginBody "ann@example.com" "no")⟩
    [("email", .str "bob@example.com"), ("password", .str "pw")]
    [("email", .str "ann@example.com"), ("password", .str "no")]
    "bob@example.com" "pw" "ann@example.com" "no" sampleUser
    (Or.inr rfl) rfl (by decide) rfl (by decide) rfl rfl rfl rfl rfl rfl
    (by decide) (by decide) (by decide) (by decide) (by decide) (by decide) (by decide)

/-- C3 (defect): the two login failures can be told apart with a password that
is not a string.  The number 123 is a non-empty (truthy) password; with it a
login on the email of the stored user is answered 500, `bcrypt.compare`
throwing on a non-string, while a login on an unknown email is answered 400
"Invalid credentials".  This holds for `api/auth.js` and for the login of
`api/index.js`. -/
theorem login_number_password_signal :
    (authHandler sampleLib sampleEnv
      ⟨"POST", "/api/auth/login",
        some (.obj [("email", .str "ann@example.com"), ("password", .num (.fin 123))])⟩
      userWorld).1 = ⟨500, .serverError .illegalArguments⟩ ∧
    (authHandler sampleLib sampleEnv
      ⟨"POST", "/api/auth/login",
        some (.obj [("email", .str "bob@example.com"), ("password", .num (.fin 123))])⟩
      userWorld).1 = ⟨400, .message "Invalid credentials"⟩ ∧
    (indexHandler sampleLib sampleEnv
      ⟨"POST", "/api/auth/login",
        some (.obj [("email", .str "ann@example.com"), ("password", .num (.fin 123))])⟩
      userWorld).1 = ⟨500, .serverError .illegalArguments⟩ ∧
    (indexHandler sampleLib sampleEnv
      ⟨"POST", "/api/auth/login",
        some (.obj [("email", .str "bob@example.com"), ("password", .num (.fin 123))])⟩
      userWorld).1 = ⟨400, .message "Invalid credentials"⟩ := by
  decide

theorem productsRoutes_delete (L : Lib) (env : Env) (req : Request) (seg : String) (w : World)
    (hm : req.method = "DELETE") (hp : pathParts "/api/products" req.url = [seg]) :
    productsRoutes L env req w = productsDelete seg w := by
  unfold productsRoutes
  simp [hm, hp]

/-- C4: DELETE with a well-formed identifier that identifies no stored product
is answered 404 with message "Product not found", and the products collection
after the request equals the collection before it. -/
theorem products_delete_missing (L : Lib) (env : Env) (w : World) (req : Request) (seg : String)
    (oid : ObjectId) (hconn : Connects env w)
    (hm : req.method = "DELETE") (hp : pathParts "/api/products" req.url = [seg])
    (hid : castObjectId seg = some oid) (hmiss : findById oid w.store.products = none) :
    (productsHandler L env req w).1 = ⟨404, .message "Product not found"⟩ ∧
    (productsHandler L env req w).2.store.products = w.store.products := by
  have hne : req.method ≠ "OPTIONS" := by rw [hm]; decide
  have hf : findById oid (connectDB env w).2.store.products = none := by
    rw [connectDB_store]; exact hmiss
  have hroute : productsRoutes L env req (connectDB env w).2 =
      (.ok ⟨404, .message "Product not found"⟩, (connectDB env w).2) := by
    rw [productsRoutes_delete L env req seg _ hm hp]
    simp [productsDelete, hid, hf]
  unfold productsHandler
  rw [serve_connected _ env req w hconn hne, hroute]
  exact ⟨rfl, by rw [connectDB_store]⟩

theorem products_delete_missing_witness :
    (productsHandler sampleLib sampleEnv ⟨"DELETE", "/api/products/cccccccccccccccccccccccc", none⟩
      sampleWorld).1 = ⟨404, .message "Product not found"⟩ ∧
    (productsHandler sampleLib sampleEnv ⟨"DELETE", "/api/products/cccccccccccccccccccccccc", none⟩
      sampleWorld).2.store.products = sampleWorld.store.products :=
  products_delete_missing sampleLib sampleEnv sampleWorld
    ⟨"DELETE", "/api/products/cccccccccccccccccccccccc", none⟩ "cccccccccccccccccccccccc"
    (sampleId 12) (Or.inr rfl) rfl (by decide) (by decide) (by decide)

theorem productsRoutes_create (L : Lib) (env : Env) (req : Request) (w : World)
    (hm : req.method = "POST") (hp : pathParts "/api/products" req.url = []) :
    productsRoutes L env req w = productsCreate L env req.body w := by
  unfold productsRoutes
  simp [hm, hp]

theorem productsRoutes_get (L : Lib) (env : Env) (req : Request) (seg : String) (w : World)
    (hm : req.method = "GET") (hp : pathParts "/api/products" req.url = [seg])
    (hs : seg ≠ "latest") :
    productsRoutes L env req w = productsGet seg w := by
  unfold productsRoutes
  simp [hm, hp, hs]

/-- The create clause on a payload with non-empty name, description and
category strings, numeric prices, string lists for sizes and colors when given,
and a non-empty list of non-empty image strings, when the generated identifier
is unused: the new product is validated, appended and returned with 201. -/
theorem productsCreate_valid (L : Lib) (env : Env) (w : World) (fs : List (String × JVal))
    (n d c : String) (a b : ℚ) (imgs : List String)
    (hn : lookupField "name" fs = some (.str n)) (hn0 : n ≠ "")
    (hd : lookupField "description" fs = some (.str d)) (hd0 : d ≠ "")
    (hc : lookupField "category" fs = some (.str c)) (hc0 : c ≠ "")
    (ha : parseFloat L (lookupField "originalPrice" fs) = .fin a)
    (hb : parseFloat L (lookupField "salePrice" fs) = .fin b)
    (hsz : OptStrings (lookupField "sizes" fs)) (hcl : OptStrings (lookupField "colors" fs))
    (hi : lookupField "images" fs = some (.arr (imgs.map .str)))
    (hi0 : imgs ≠ []) (hi1 : ∀ s ∈ imgs, s ≠ "")
    (hfresh : findById env.newId w.store.products = none) :
    productsCreate L env (some (.obj fs)) w =
      (.ok ⟨201, .product (newProduct L env (lookupField · fs)).1⟩,
        { w with store := { w.store with
            products := w.store.products ++ [(newProduct L env (lookupField · fs)).1] } }) ∧
    (newProduct L env (lookupField · fs)).1._id = env.newId := by
  obtain ⟨sz, hsz1⟩ := castStringArray_optStrings L _ hsz
  obtain ⟨cl, hcl1⟩ := castStringArray_optStrings L _ hcl
  have himg : castStringArray L ((jsOr (lookupField "images" fs) (some (.arr []))).getD (.arr [])) =
      .ok (imgs.map some) := by
    simp [hi, jsOr, truthy, castStringArray, castStrings_strs]
  have hnp : (newProduct L env (lookupField · fs)) =
      ({ _id := env.newId, name := some n, description := some d, originalPrice := some a,
         salePrice := some b, category := some c, sizes := sz, colors := cl,
         images := imgs.map some, isAvailable := true, createdAt := env.now,
         updatedAt := env.now, __v := 0 }, []) := by
    simp [newProduct, hn, hd, hc, ha, hb, hsz1, hcl1, himg, castString, castNumber, castValue,
      castFailure]
  have hchk : (!truthy (lookupField "images" fs) ||
      isZero ((lookupField "images" fs).bind jsLength)) = false := by
    cases imgs with
    | nil => exact absurd rfl hi0
    | cons x xs =>
      simp [hi, truthy, jsLength, isZero]
      exact_mod_cast Nat.succ_ne_zero xs.length
  have hv : productFailures (newProduct L env (lookupField · fs)).1 = [] := by
    rw [hnp]
    simp [productFailures, requiredString, hn0, hd0, hc0, imageFailures_nonempty 0 imgs hi1]
  have hce : (newProduct L env (lookupField · fs)).2 = [] := by rw [hnp]
  have hid : (newProduct L env (lookupField · fs)).1._id = env.newId := by rw [hnp]
  refine ⟨?_, hid⟩
  have hgp : getProp (.obj fs) = (lookupField · fs) := rfl
  simp only [productsCreate, destructure, hgp, hchk, saveNewProduct, hce, hv, hid, hfresh]
  simp

/-- A GET of the identifier of a stored product is answered 200 with it. -/
theorem productsHandler_get_found (L : Lib) (env : Env) (req : Request) (seg : String)
    (oid : ObjectId) (p : Product) (w : World) (hconn : Connects env w)
    (hm : req.method = "GET") (hp : pathParts "/api/products" req.url = [seg])
    (hs : seg ≠ "latest") (hid : castObjectId seg = some oid)
    (hfind : findById oid w.store.products = some p) :
    (productsHandler L env req w).1 = ⟨200, .product p⟩ := by
  have hne : req.method ≠ "OPTIONS" := by rw [hm]; decide
  have hf : findById oid (connectDB env w).2.store.products = some p := by
    rw [connectDB_store]; exact hfind
  unfold productsHandler
  rw [serve_connected _ env req w hconn hne, productsRoutes_get L env req seg _ hm hp hs]
  simp [productsGet, hid, hf, Response.json]

/-- C5: a POST of a product payload with a name, a description, numeric
prices, a category and at least one image is answered 201 with an entity
carrying the generated identifier, and a GET of that identifier issued next is
answered 200 with the same entity. -/
theorem products_create_then_get (L : Lib) (env env2 : Env) (w : World) (req req2 : Request)
    (fs : List (String × JVal)) (n d c : String) (a b : ℚ) (imgs : List String)
    (hconn : Connects env w)
    (hm : req.method = "POST") (hp : pathParts "/api/products" req.url = [])
    (hbody : req.body = some (.obj fs))
    (hn : lookupField "name" fs = some (.str n)) (hn0 : n ≠ "")
    (hd : lookupField "description" fs = some (.str d)) (hd0 : d ≠ "")
    (hc : lookupField "category" fs = some (.str c)) (hc0 : c ≠ "")
    (ha : parseFloat L (lookupField "originalPrice" fs) = .fin a)
    (hb : parseFloat L (lookupField "salePrice" fs) = .fin b)
    (hsz : OptStrings (lookupField "sizes" fs)) (hcl : OptStrings (lookupField "colors" fs))
    (hi : lookupField "images" fs = some (.arr (imgs.map .str)))
    (hi0 : imgs ≠ []) (hi1 : ∀ s ∈ imgs, s ≠ "")
    (hfresh : findById env.newId w.store.products = none)
    (hm2 : req2.method = "GET") (hu2 : req2.url = "/api/products/" ++ env.newId.toHexString) :
    ∃ e : Product,
      (productsHandler L env req w).1 = ⟨201, .product e⟩ ∧ e._id = env.newId ∧
      e.name = some n ∧ e.description = some d ∧ e.category = some c ∧
      e.originalPrice = some a ∧ e.salePrice = some b ∧ e.images = imgs.map some ∧
      (productsHandler L env2 req2 (productsHandler L env req w).2).1 = ⟨200, .product e⟩ := by
  have hne : req.method ≠ "OPTIONS" := by rw [hm]; decide
  have hne2 : req2.method ≠ "OPTIONS" := by rw [hm2]; decide
  have hf : findById env.newId (connectDB env w).2.store.products = none := by
    rw [connectDB_store]; exact hfresh
  obtain ⟨hcreate, hid⟩ := productsCreate_valid L env (connectDB env w).2 fs n d c a b imgs
    hn hn0 hd hd0 hc hc0 ha hb hsz hcl hi hi0 hi1 hf
  have hfields : (newProduct L env (lookupField · fs)).1.name = some n ∧
      (newProduct L env (lookupField · fs)).1.description = some d ∧
      (newProduct L env (lookupField · fs)).1.category = some c ∧
      (newProduct L env (lookupField · fs)).1.originalPrice = some a ∧
      (newProduct L env (lookupField · fs)).1.salePrice = some b ∧
      (newProduct L env (lookupField · fs)).1.images = imgs.map some := by
    simp [newProduct, hn, hd, hc, ha, hb, hi, castString, castNumber, castValue, jsOr, truthy,
      castStringArray, castStrings_strs]
  have h1 : productsHandler L env req w =
      (⟨201, .product (newProduct L env (lookupField · fs)).1⟩,
        { (connectDB env w).2 with store := { (connectDB env w).2.store with
            products := (connectDB env w).2.store.products ++
              [(newProduct L env (lookupField · fs)).1] } }) := by
    unfold productsHandler
    rw [serve_connected _ env req w hconn hne, productsRoutes_create L env req _ hm hp, hbody,
      hcreate]
  have hcached : (productsHandler L env req w).2.cachedConnection.isSome = true := by
    rw [h1]; exact connectDB_cached env w hconn
  have hfound : findById env.newId (productsHandler L env req w).2.store.products =
      some (newProduct L env (lookupField · fs)).1 := by
    rw [h1]
    exact findById_append_new env.newId _ hid _ hf
  have hparts : pathParts "/api/products" req2.url = [env.newId.toHexString] := by
    rw [hu2]; exact pathParts_product env.newId
  exact ⟨(newProduct L env (lookupField · fs)).1, by rw [h1], hid, hfields.1, hfields.2.1,
    hfields.2.2.1, hfields.2.2.2.1, hfields.2.2.2.2.1, hfields.2.2.2.2.2,
    productsHandler_get_found L env2 req2 _ env.newId _ _ (Or.inl hcached) hm2 hparts
      (toHexString_ne_latest env.newId) (castObjectId_toHexString env.newId) hfound⟩

theorem products_create_then_get_witness :
    ∃ e : Product,
      (productsHandler sampleLib sampleEnv ⟨"POST", "/api/products", some sampleProductBody⟩
        emptyWorld).1 = ⟨201, .product e⟩ ∧ e._id = sampleEnv.newId ∧
      e.name = some "Hoodie" ∧ e.description = some "Warm hoodie" ∧ e.category = some "hoodies" ∧
      e.originalPrice = some 350 ∧ e.salePrice = some 280 ∧
      e.images = ["/uploads/hoodie.jpg"].map some ∧
      (productsHandler sampleLib sampleEnv ⟨"GET", "/api/products/aaaaaaaaaaaaaaaaaaaaaaaa", none⟩
        (productsHandler sampleLib sampleEnv ⟨"POST", "/api/products", some sampleProductBody⟩
          emptyWorld).2).1 = ⟨200, .product e⟩ :=
  products_create_then_get sampleLib sampleEnv sampleEnv emptyWorld
    ⟨"POST", "/api/products", some sampleProductBody⟩
    ⟨"GET", "/api/products/aaaaaaaaaaaaaaaaaaaaaaaa", none⟩
    [("name", .str "Hoodie"), ("description", .str "Warm hoodie"),
      ("originalPrice", .num (.fin 350)), ("salePrice", .num (.fin 280)),
      ("category", .str "hoodies"), ("sizes", .arr [.str "M", .str "L"]),
      ("images", .arr [.str "/uploads/hoodie.jpg"])]
    "Hoodie" "Warm hoodie" "hoodies" 350 280 ["/uploads/hoodie.jpg"]
    (Or.inr rfl) rfl (by decide) rfl rfl (by decide) rfl (by decide) rfl (by decide) rfl rfl
    (Or.inr ⟨["M", "L"], rfl⟩) (Or.inl rfl) rfl (by decide) (by decide) (by decide) rfl (by decide)

/-- The latest clause answers with the newest product, or null, and keeps the world. -/
theorem productsLatest_spec (w : World) :
    ∃ r, productsLatest w = (.ok r, w) ∧ LatestOf w.store.products r := by
  by_cases he : w.store.products = []
  · refine ⟨⟨200, .null⟩, by simp [productsLatest, he, sortNewest, Response.json], fun _ => rfl,
      fun h => absurd he h⟩
  · obtain ⟨p, hp, hmem, hmax⟩ := sortNewest_head w.store.products he
    exact ⟨⟨200, .product p⟩, by simp [productsLatest, hp, Response.json], fun h => absurd h he,
      fun _ => ⟨p, hmem, rfl, hmax⟩⟩

/-- C6: GET /products/latest, in `api/products.js` and in
`api/products/latest.js`, is answered 200 with a stored product whose
`createdAt` is at least that of every stored product, and with null when no
product is stored; the store is unchanged. -/
theorem products_latest (L : Lib) (env : Env) (w : World) (req : Request)
    (hconn : Connects env w) (hm : req.method = "GET")
    (hp : (pathParts "/api/products" req.url).head? = some "latest") :
    LatestOf w.store.products (productsHandler L env req w).1 ∧
    (productsHandler L env req w).2.store = w.store ∧
    LatestOf w.store.products (latestHandler env req w).1 ∧
    (latestHandler env req w).2.store = w.store := by
  have hne : req.method ≠ "OPTIONS" := by rw [hm]; decide
  obtain ⟨r, hr, hspec⟩ := productsLatest_spec (connectDB env w).2
  rw [connectDB_store] at hspec
  have hroute : productsRoutes L env req (connectDB env w).2 = productsLatest (connectDB env w).2 := by
    unfold productsRoutes
    cases hparts : pathParts "/api/products" req.url with
    | nil => simp [hparts] at hp
    | cons x xs =>
      have hx : x = "latest" := by simpa [hparts] using hp
      simp [hm, hx]
  have h1 : productsHandler L env req w = (r, (connectDB env w).2) := by
    unfold productsHandler
    rw [serve_connected _ env req w hconn hne, hroute, hr]
  have h2 : latestHandler env req w = (r, (connectDB env w).2) := by
    obtain ⟨c, hc⟩ := connectDB_ok env w hconn
    unfold latestHandler
    rw [if_neg hne, if_neg (by simp [hm])]
    rcases hcd : connectDB env w with ⟨x, w1⟩
    rw [hcd] at hc hr
    simp only at hc hr
    subst hc
    simp only [hr]
  rw [h1, h2]
  exact ⟨hspec, connectDB_store env w, hspec, connectDB_store env w⟩

theorem products_latest_witness :
    LatestOf twoProductsWorld.store.products
      (productsHandler sampleLib sampleEnv ⟨"GET", "/api/products/latest", none⟩ twoProductsWorld).1 ∧
    (productsHandler sampleLib sampleEnv ⟨"GET", "/api/products/latest", none⟩
      twoProductsWorld).2.store = twoProductsWorld.store ∧
    LatestOf twoProductsWorld.store.products
      (latestHandler sampleEnv ⟨"GET", "/api/products/latest", none⟩ twoProductsWorld).1 ∧
    (latestHandler sampleEnv ⟨"GET", "/api/products/latest", none⟩ twoProductsWorld).2.store =
      twoProductsWorld.store :=
  products_latest sampleLib sampleEnv twoProductsWorld ⟨"GET", "/api/products/latest", none⟩
    (Or.inr rfl) rfl (by decide)

theorem ordersRoutes_create (L : Lib) (env : Env) (req : Request) (w : World)
    (hm : req.method = "POST") (hp : pathParts "/api/orders" req.url = []) :
    ordersRoutes L env req w = ordersCreate L env req.body w := by
  unfold ordersRoutes
  simp [hm, hp]

/-- C7 (as stated, refuted): the scenario body, whose single item carries only
`product`, `quantity` and `price`, is answered 500 by the orders handler, the
item schema requiring `productName`, `size` and `color`; no order is stored. -/
theorem orders_scenario_counterexample :
    ordersHandler sampleLib sampleEnv ⟨"POST", "/api/orders", some scenarioOrderBody⟩ emptyWorld =
      (⟨500, .serverError
          (.validationError ["items.0.productName", "items.0.size", "items.0.color"])⟩,
        ⟨⟨[], [], []⟩, some 1, 1⟩) := by
  decide

/-- C7 (amended): a POST /orders body with non-empty customerName,
customerPhone and customerAddress, a non-empty items list whose every item
carries product, productName, size and color strings and numeric quantity and
price, and a numeric totalAmount, is answered 201; the created order is stored
and its status is "pending". -/
theorem orders_create_pending (L : Lib) (env : Env) (w : World) (req : Request)
    (fs : List (String × JVal)) (cn cp ca : String) (vs : List JVal) (t : ℚ)
    (hconn : Connects env w)
    (hm : req.method = "POST") (hp : pathParts "/api/orders" req.url = [])
    (hbody : req.body = some (.obj fs))
    (hcn : lookupField "customerName" fs = some (.str cn)) (hcn0 : cn ≠ "")
    (hcp : lookupField "customerPhone" fs = some (.str cp)) (hcp0 : cp ≠ "")
    (hca : lookupField "customerAddress" fs = some (.str ca)) (hca0 : ca ≠ "")
    (halt : OptString (lookupField "alternatePhone" fs))
    (hit : lookupField "items" fs = some (.arr vs)) (hvs : vs ≠ [])
    (hall : ∀ v ∈ vs, CompleteItem v)
    (ht : parseFloat L (lookupField "totalAmount" fs) = .fin t)
    (hfresh : findOrderById env.newId w.store.orders = none) :
    ∃ o : Order,
      (ordersHandler L env req w).1 = ⟨201, .order o⟩ ∧ o.status = some "pending" ∧
      o._id = env.newId ∧ o.totalAmount = some t ∧ o.items.length = vs.length ∧
      (ordersHandler L env req w).2.store.orders = w.store.orders ++ [o] := by
  have hne : req.method ≠ "OPTIONS" := by rw [hm]; decide
  have hf : findOrderById env.newId (connectDB env w).2.store.orders = none := by
    rw [connectDB_store]; exact hfresh
  obtain ⟨its, hits, hfs⟩ := castItemList_complete L vs hall
  obtain ⟨alt, halt1⟩ : ∃ x, castString L (jsOr (lookupField "alternatePhone" fs) (some (.str ""))) =
      .ok x := by
    rcases halt with h | ⟨a, h⟩
    · rw [h]; exact ⟨some "", rfl⟩
    · rw [h]
      by_cases ha : a = ""
      · exact ⟨some "", by simp [jsOr, truthy, ha, castString]⟩
      · exact ⟨some a, by simp [jsOr, truthy, ha, castString]⟩
  have hlen : its.length = vs.length := by
    clear hfs hall hvs hit
    induction vs generalizing its with
    | nil => simp [castItemList] at hits; simp [hits]
    | cons v vs ih =>
      unfold castItemList at hits
      cases h1 : castItem L v with
      | error e => simp [h1] at hits
      | ok x =>
        cases h2 : castItemList L vs with
        | error e => simp [h1, h2] at hits
        | ok xs =>
          simp [h1, h2] at hits
          subst hits
          simp [ih xs h2]
  have hno : newOrder L env (lookupField · fs) =
      ({ _id := env.newId, customerName := some cn, customerPhone := some cp,
         alternatePhone := alt, customerAddress := some ca, items := its,
         totalAmount := some t, status := some "pending", createdAt := env.now,
         updatedAt := env.now, __v := 0 }, []) := by
    simp only [newOrder, hcn, hcp, hca, halt1, hit, ht, Option.getD, castItems, hits]
    simp [castString, castNumber, castValue, castFailure]
  have hchk : (!truthy (lookupField "customerName" fs) || !truthy (lookupField "customerPhone" fs) ||
      !truthy (lookupField "customerAddress" fs) || !truthy (lookupField "items" fs) ||
      isZero ((lookupField "items" fs).bind jsLength)) = false := by
    cases vs with
    | nil => exact absurd rfl hvs
    | cons x xs =>
      simp [hcn, hcp, hca, hit, truthy, hcn0, hcp0, hca0, jsLength, isZero]
      exact_mod_cast Nat.succ_ne_zero xs.length
  have hv : orderFailures (newOrder L env (lookupField · fs)).1 = [] := by
    rw [hno]
    simp [orderFailures, requiredString, hcn0, hcp0, hca0, hfs 0, orderStatuses]
  have hce : (newOrder L env (lookupField · fs)).2 = [] := by rw [hno]
  have hid : (newOrder L env (lookupField · fs)).1._id = env.newId := by rw [hno]
  have hgp : getProp (.obj fs) = (lookupField · fs) := rfl
  have hcreate : ordersCreate L env (some (.obj fs)) (connectDB env w).2 =
      (.ok ⟨201, .order (newOrder L env (lookupField · fs)).1⟩,
        { (connectDB env w).2 with store := { (connectDB env w).2.store with
            orders := (connectDB env w).2.store.orders ++ [(newOrder L env (lookupField · fs)).1] } }) := by
    simp only [ordersCreate, destructure, hgp, hchk, saveNewOrder, hce, hv, hid, hf]
    simp
  have h1 : ordersHandler L env req w =
      (⟨201, .order (newOrder L env (lookupField · fs)).1⟩,
        { (connectDB env w).2 with store := { (connectDB env w).2.store with
            orders := (connectDB env w).2.store.orders ++ [(newOrder L env (lookupField · fs)).1] } }) := by
    unfold ordersHandler
    rw [serve_connected _ env req w hconn hne, ordersRoutes_create L env req _ hm hp, hbody, hcreate]
  refine ⟨(newOrder L env (lookupField · fs)).1, by rw [h1], by rw [hno], hid, by rw [hno],
    by rw [hno]; exact hlen, ?_⟩
  rw [h1]
  simp [connectDB_store]

theorem orders_create_pending_witness :
    ∃ o : Order,
      (ordersHandler sampleLib sampleEnv ⟨"POST", "/api/orders", some (.obj completeOrderFields)⟩
        emptyWorld).1 = ⟨201, .order o⟩ ∧ o.status = some "pending" ∧
      o._id = sampleEnv.newId ∧ o.totalAmount = some 200 ∧
      o.items.length = [JVal.obj completeItemFields].length ∧
      (ordersHandler sampleLib sampleEnv ⟨"POST", "/api/orders", some (.obj completeOrderFields)⟩
        emptyWorld).2.store.orders = emptyWorld.store.orders ++ [o] :=
  orders_create_pending sampleLib sampleEnv emptyWorld
    ⟨"POST", "/api/orders", some (.obj completeOrderFields)⟩ completeOrderFields
    "A" "555" "X" [.obj completeItemFields] 200
    (Or.inr rfl) rfl (by decide) rfl rfl (by decide) rfl (by decide) rfl (by decide)
    (Or.inl rfl) rfl (by simp)
    (fun v hv => by
      rw [List.mem_singleton.1 hv]
      exact ⟨completeItemFields, "p1", "Cap", "M", "black", 2, 100, rfl, rfl, by decide, rfl,
        by decide, rfl, rfl, by decide, rfl, by decide, rfl, Or.inl rfl⟩)
    rfl (by decide)

theorem sessionResponse_token (env : Env) (status : Nat) (u : User) (t : Token) (pu : PublicUser)
    (h : (sessionResponse env status u).body = .session t pu) : jwtSign env u = some t := by
  unfold sessionResponse at h
  cases hs : jwtSign env u with
  | none => simp [hs] at h
  | some t1 =>
    simp [hs] at h
    rw [h.1]

theorem authLogin_token (L : Lib) (env : Env) (body : Option JVal) (w : World) (r : Response)
    (t : Token) (pu : PublicUser) (h : (authLogin L env body w).1 = .ok r)
    (hb : r.body = .session t pu) : ∃ u, jwtSign env u = some t := by
  unfold authLogin at h
  split at h
  · simp at h
  · split at h
    · simp at h; subst h; simp at hb
    · split at h
      · simp at h
      · simp at h; subst h; simp at hb
      · rename_i user _
        split at h
        · simp at h
        · simp at h; subst h; simp at hb
        · simp at h; subst h
          exact ⟨user, sessionResponse_token env 200 user t pu hb⟩

theorem authRegister_token (L : Lib) (env : Env) (body : Option JVal) (w : World) (r : Response)
    (t : Token) (pu : PublicUser) (h : (authRegister L env body w).1 = .ok r)
    (hb : r.body = .session t pu) : ∃ u, jwtSign env u = some t := by
  unfold authRegister at h
  split at h
  · simp at h
  · split at h
    · simp at h; subst h; simp at hb
    · split at h
      · simp at h
      · simp at h; subst h; simp at hb
      · split at h
        · split at h
          · simp at h
          · simp at h; subst h
            exact ⟨_, sessionResponse_token env 201 _ t pu hb⟩
        · simp at h

/-- Every token the auth handler hands out was signed by `jwtSign` in that request. -/
theorem authHandler_token (L : Lib) (env : Env) (req : Request) (w : World) (t : Token)
    (pu : PublicUser) (h : (authHandler L env req w).1.body = .session t pu) :
    ∃ u, jwtSign env u = some t := by
  unfold authHandler serve at h
  split at h
  · simp at h
  · split at h
    · simp at h
    · rename_i w1 _
      split at h
      · rename_i r w2 hr
        have hr1 : (authRoutes L env req w1).1 = .ok r := by rw [hr]
        unfold authRoutes at hr1
        simp only at hr1
        split at hr1
        · exact authLogin_token L env req.body w1 r t pu hr1 h
        · split at hr1
          · exact authRegister_token L env req.body w1 r t pu hr1 h
          · simp at hr1; subst hr1; simp at h
      · simp at h

/-- C8: a token issued by login or registration at time T (milliseconds) is
accepted by the token check of the protected routes at T + 23h59m and rejected
by it at T + 24h01m, the check using the secret the token was signed with. -/
theorem token_valid_for_24h (L : Lib) (env : Env) (req : Request) (w : World) (t : Token)
    (pu : PublicUser) (key : String) (hkey : env.jwtSecret = some key)
    (h : (authHandler L env req w).1.body = .session t pu) :
    authorize key (env.now + 86340000) (some t) = some (t.userId, t.isAdmin) ∧
    authorize key (env.now + 86460000) (some t) = none := by
  obtain ⟨u, hu⟩ := authHandler_token L env req w t pu h
  unfold jwtSign at hu
  rw [hkey] at hu
  simp only [Option.some.injEq] at hu
  subst hu
  unfold authorize
  constructor
  · have : (env.now + 86340000) / 1000 < env.now / 1000 + 86400 := by omega
    simp [this]
  · have : ¬ (env.now + 86460000) / 1000 < env.now / 1000 + 86400 := by omega
    simp [this]

theorem token_valid_for_24h_witness :
    (authHandler sampleLib sampleEnv ⟨"POST", "/api/auth/login", some (loginBody "ann@example.com" "pw")⟩
      userWorld).1 = ⟨200, .session sampleToken (publicUser sampleUser)⟩ ∧
    authorize "secret" (sampleEnv.now + 86340000) (some sampleToken) =
      some (sampleToken.userId, sampleToken.isAdmin) ∧
    authorize "secret" (sampleEnv.now + 86460000) (some sampleToken) = none :=
  ⟨by decide,
    token_valid_for_24h sampleLib sampleEnv
      ⟨"POST", "/api/auth/login", some (loginBody "ann@example.com" "pw")⟩ userWorld sampleToken
      (publicUser sampleUser) "secret" rfl (by decide)⟩

/-- A handler whose routes answer `r` without touching the world answers `r`
and leaves the store as it was. -/
theorem serve_const (routes : World → Except Err Response × World) (env : Env) (req : Request)
    (w : World) (r : Response) (hconn : Connects env w) (hm : req.method ≠ "OPTIONS")
    (h : routes (connectDB env w).2 = (.ok r, (connectDB env w).2)) :
    (serve routes env req w).1 = r ∧ (serve routes env req w).2.store = w.store := by
  rw [serve_connected routes env req w hconn hm, h]
  exact ⟨rfl, connectDB_store env w⟩

/-- C9: a request whose identifier segment is not a valid store identifier is
answered 400 with message "Invalid product ID" by the products handler (GET of
a segment other than "latest", PUT, PUT toggle, DELETE) and 400 with message
"Invalid order ID" by the orders handler (GET, PUT); the answer is the same
for every store and the store is left as it was. -/
theorem invalid_id_rejected (L : Lib) (env : Env) (w : World) (req : Request) (seg : String)
    (hconn : Connects env w) (hinv : ObjectId.isValid seg = false) :
    (req.method = "GET" → pathParts "/api/products" req.url = [seg] → seg ≠ "latest" →
      (productsHandler L env req w).1 = ⟨400, .message "Invalid product ID"⟩ ∧
      (productsHandler L env req w).2.store = w.store) ∧
    (req.method = "PUT" → pathParts "/api/products" req.url = [seg] →
      (productsHandler L env req w).1 = ⟨400, .message "Invalid product ID"⟩ ∧
      (productsHandler L env req w).2.store = w.store) ∧
    (req.method = "PUT" → pathParts "/api/products" req.url = [seg, "toggle"] →
      (productsHandler L env req w).1 = ⟨400, .message "Invalid product ID"⟩ ∧
      (productsHandler L env req w).2.store = w.store) ∧
    (req.method = "DELETE" → pathParts "/api/products" req.url = [seg] →
      (productsHandler L env req w).1 = ⟨400, .message "Invalid product ID"⟩ ∧
      (productsHandler L env req w).2.store = w.store) ∧
    (req.method = "GET" → pathParts "/api/orders" req.url = [seg] →
      (ordersHandler L env req w).1 = ⟨400, .message "Invalid order ID"⟩ ∧
      (ordersHandler L env req w).2.store = w.store) ∧
    (req.method = "PUT" → pathParts "/api/orders" req.url = [seg] →
      (ordersHandler L env req w).1 = ⟨400, .message "Invalid order ID"⟩ ∧
      (ordersHandler L env req w).2.store = w.store) := by
  have hcast : castObjectId seg = none := by
    unfold ObjectId.isValid at hinv
    cases h : castObjectId seg with
    | none => rfl
    | some o => simp [h] at hinv
  refine ⟨?_, ?_, ?_, ?_, ?_, ?_⟩
  · intro hm hp hs
    refine serve_const _ env req w _ hconn (by rw [hm]; decide) ?_
    rw [productsRoutes_get L env req seg _ hm hp hs]
    simp [productsGet, hcast]
  · intro hm hp
    refine serve_const _ env req w _ hconn (by rw [hm]; decide) ?_
    unfold productsRoutes
    simp [hm, hp, productsUpdate, hcast]
  · intro hm hp
    refine serve_const _ env req w _ hconn (by rw [hm]; decide) ?_
    rw [productsRoutes_toggle L env req seg _ hm hp]
    simp [productsToggle, hcast]
  · intro hm hp
    refine serve_const _ env req w _ hconn (by rw [hm]; decide) ?_
    rw [productsRoutes_delete L env req seg _ hm hp]
    simp [productsDelete, hcast]
  · intro hm hp
    refine serve_const _ env req w _ hconn (by rw [hm]; decide) ?_
    unfold ordersRoutes
    simp [hm, hp, ordersGet, hcast]
  · intro hm hp
    refine serve_const _ env req w _ hconn (by rw [hm]; decide) ?_
    unfold ordersRoutes
    simp [hm, hp, ordersUpdate, hcast]

theorem invalid_id_rejected_witness :
    ((productsHandler sampleLib sampleEnv ⟨"DELETE", "/api/products/xyz", none⟩ sampleWorld).1 =
        ⟨400, .message "Invalid product ID"⟩ ∧
      (productsHandler sampleLib sampleEnv ⟨"DELETE", "/api/products/xyz", none⟩ sampleWorld).2.store =
        sampleWorld.store) ∧
    ((productsHandler sampleLib sampleEnv ⟨"PUT", "/api/products/xyz/toggle", none⟩ sampleWorld).1 =
        ⟨400, .message "Invalid product ID"⟩ ∧
      (productsHandler sampleLib sampleEnv ⟨"PUT", "/api/products/xyz/toggle", none⟩
        sampleWorld).2.store = sampleWorld.store) ∧
    ((ordersHandler sampleLib sampleEnv ⟨"GET", "/api/orders/xyz", none⟩ sampleWorld).1 =
        ⟨400, .message "Invalid order ID"⟩ ∧
      (ordersHandler sampleLib sampleEnv ⟨"GET", "/api/orders/xyz", none⟩ sampleWorld).2.store =
        sampleWorld.store) :=
  ⟨(invalid_id_rejected sampleLib sampleEnv sampleWorld ⟨"DELETE", "/api/products/xyz", none⟩ "xyz"
      (Or.inr rfl) (by decide)).2.2.2.1 rfl (by decide),
    (invalid_id_rejected sampleLib sampleEnv sampleWorld ⟨"PUT", "/api/products/xyz/toggle", none⟩
      "xyz" (Or.inr rfl) (by decide)).2.2.1 rfl (by decide),
    (invalid_id_rejected sampleLib sampleEnv sampleWorld ⟨"GET", "/api/orders/xyz", none⟩ "xyz"
      (Or.inr rfl) (by decide)).2.2.2.2.1 rfl (by decide)⟩

/-- C10 (as stated, refuted): a provided value that is falsy is not set, and a
provided value the model rejects is not set either.  On the sample product,
the payload with name "" and originalPrice 0 is answered 200 with the name
"Cap" and the price 80 kept; the payload with category "hats", which the enum
of the model does not list, is answered 500 and nothing changes. -/
theorem express_update_counterexample :
    expressUpdate sampleLib sampleEnv "bbbbbbbbbbbbbbbbbbbbbbbb"
        (some (.obj [("name", .str ""), ("originalPrice", .num (.fin 0))])) none sampleWorld.store =
      (⟨200, .product { sampleProduct with updatedAt := 1000 }⟩,
        ⟨[{ sampleProduct with updatedAt := 1000 }], [], []⟩) ∧
    sampleProduct.name = some "Cap" ∧ sampleProduct.originalPrice = some 80 ∧
    expressUpdate sampleLib sampleEnv "bbbbbbbbbbbbbbbbbbbbbbbb"
        (some (.obj [("category", .str "hats")])) none sampleWorld.store =
      (⟨500, .message "Server error"⟩, sampleWorld.store) := by
  decide

/-- C10 (amended): on the Express route PUT /api/products/:id, when the id
identifies no product the answer is 404 and nothing changes; when it identifies
a stored product and the merged document has no cast failure and passes the
validators of the model, the answer is 200 with the updated entity, which is
stored, and in it each of name, description, originalPrice, salePrice,
category, sizes and colors provided with a truthy value holds that value as
cast (name trimmed, prices read by parseFloat), each of them omitted or falsy
holds its previous value (name trimmed), and images hold their previous value
when no file is uploaded. -/
theorem express_update_merge (L : Lib) (env : Env) (id : String) (oid : ObjectId)
    (body : Option JVal) (f : String → Option JVal) (files : Option (List String)) (s : Store)
    (hd : destructure body = .ok f) (hid : castObjectId id = some oid) :
    (findById oid s.products = none →
      expressUpdate L env id body files s = (⟨404, .message "Product not found"⟩, s)) ∧
    (∀ (p : Product) (ps pc : Option JVal), findById oid s.products = some p →
      parseIfString L (f "sizes") = some ps → parseIfString L (f "colors") = some pc →
      (expressAssign L f ps pc files p).2 ++
        expressProductFailures (expressAssign L f ps pc files p).1 = [] →
      ∃ e : Product,
        expressUpdate L env id body files s =
          (⟨200, .product e⟩, { s with products := replaceById e s.products }) ∧
        findById oid (replaceById e s.products) = some e ∧
        e._id = p._id ∧ e.updatedAt = env.now ∧
        (∀ n, f "name" = some (.str n) → n ≠ "" → e.name = some (L.trim n)) ∧
        (truthy (f "name") = false → e.name = p.name.map L.trim) ∧
        (∀ d, f "description" = some (.str d) → d ≠ "" → e.description = some d) ∧
        (truthy (f "description") = false → e.description = p.description) ∧
        (∀ a, truthy (f "originalPrice") = true → parseFloat L (f "originalPrice") = .fin a →
          e.originalPrice = some a) ∧
        (truthy (f "originalPrice") = false → e.originalPrice = p.originalPrice) ∧
        (∀ b, truthy (f "salePrice") = true → parseFloat L (f "salePrice") = .fin b →
          e.salePrice = some b) ∧
        (truthy (f "salePrice") = false → e.salePrice = p.salePrice) ∧
        (∀ c, f "category" = some (.str c) → c ≠ "" → e.category = some c) ∧
        (truthy (f "category") = false → e.category = p.category) ∧
        (∀ ss : List String, ps = some (.arr (ss.map .str)) → e.sizes = ss.map some) ∧
        (truthy ps = false → e.sizes = p.sizes) ∧
        (∀ cs : List String, pc = some (.arr (cs.map .str)) → e.colors = cs.map some) ∧
        (truthy pc = false → e.colors = p.colors) ∧
        (files = none ∨ files = some [] → e.images = p.images) ∧
        e.isAvailable = p.isAvailable ∧ e.createdAt = p.createdAt) := by
  constructor
  · intro hfind
    simp [expressUpdate, expressUpdateTry, hd, hid, hfind]
  · intro p ps pc hfind hps hpc hok
    refine ⟨{ (expressAssign L f ps pc files p).1 with updatedAt := env.now }, ?_, ?_, rfl, rfl,
      ?_, ?_, ?_, ?_, ?_, ?_, ?_, ?_, ?_, ?_, ?_, ?_, ?_, ?_, ?_, rfl, rfl⟩
    · simp [expressUpdate, expressUpdateTry, hd, hid, hfind, hps, hpc, saveExpressProduct, hok,
        Response.json]
    · have hid2 : ({ (expressAssign L f ps pc files p).1 with updatedAt := env.now } : Product)._id
          = oid := by
        show p._id = oid
        exact findById_id hfind
      exact findById_replaceById oid _ hid2 _ p hfind
    · intro n hn hn0
      simp [expressAssign, hn, truthy, hn0, castString, castValue, Except.map]
    · intro hn
      simp [expressAssign, hn, castValue]
    · intro d hdd hd0
      simp [expressAssign, hdd, truthy, hd0, castString, castValue]
    · intro hn
      simp [expressAssign, hn, castValue]
    · intro a ht ha
      simp [expressAssign, ht, ha, castNumber, castValue]
    · intro hn
      simp [expressAssign, hn, castValue]
    · intro b ht hb
      simp [expressAssign, ht, hb, castNumber, castValue]
    · intro hn
      simp [expressAssign, hn, castValue]
    · intro c hc hc0
      simp [expressAssign, hc, truthy, hc0, castString, castValue]
    · intro hn
      simp [expressAssign, hn, castValue]
    · intro ss hss
      simp [expressAssign, hss, truthy, castStringArray, castStrings_strs, castValue]
    · intro hn
      simp [expressAssign, hn, castValue]
    · intro cs hcs
      simp [expressAssign, hcs, truthy, castStringArray, castStrings_strs, castValue]
    · intro hn
      simp [expressAssign, hn, castValue]
    · intro hfiles
      rcases hfiles with h | h <;> simp [expressAssign, h]

theorem express_update_merge_witness :
    ∃ e : Product,
      expressUpdate sampleLib sampleEnv "bbbbbbbbbbbbbbbbbbbbbbbb" (some renameBody) none
          sampleWorld.store =
        (⟨200, .product e⟩, { sampleWorld.store with
          products := replaceById e sampleWorld.store.products }) ∧
      e.name = some "Hat" ∧ e.salePrice = some 55 ∧
      e.description = sampleProduct.description ∧ e.originalPrice = sampleProduct.originalPrice ∧
      e.category = sampleProduct.category ∧ e.sizes = sampleProduct.sizes ∧
      e.images = sampleProduct.images := by
  obtain ⟨e, h1, _, _, _, hname, _, _, hdesc, _, hop, hsp, _, _, hcat, _, hsz, _, _, himg, _, _⟩ :=
    (express_update_merge sampleLib sampleEnv "bbbbbbbbbbbbbbbbbbbbbbbb" (sampleId 11)
      (some renameBody) (getProp renameBody) none sampleWorld.store rfl (by decide)).2
      sampleProduct none none (by decide) rfl rfl (by decide)
  exact ⟨e, h1, hname "Hat" rfl (by decide), hsp 55 rfl rfl, hdesc rfl, hop rfl, hcat rfl,
    hsz rfl, himg (Or.inl rfl)⟩

/-- C11: when the distinct category values of the store are the strings `cats`
(each stored value once, in the order the store reports them), GET /categories
is answered 200 with one entry per value, in the same order, the name being the
value and the slug the lower-cased value with every run of whitespace replaced
by one hyphen, both in `api/categories.js` and in `api/index.js`; no slug holds
a whitespace character, and a value without whitespace has its lower-cased
form as slug. -/
theorem categories_listing (L : Lib) (env : Env) (w : World) (req : Request) (cats : List String)
    (hconn : Connects env w) (hm : req.method = "GET")
    (hcats : distinctCategories w.store.products = cats.map some) :
    (categoriesHandler L env req w).1 = ⟨200, .categories (cats.map (fun c => (c, slugOf L c)))⟩ ∧
    (categoriesHandler L env req w).2.store = w.store ∧
    (pathnameOf L req.url = some "/api/categories" →
      (indexHandler L env req w).1 = ⟨200, .categories (cats.map (fun c => (c, slugOf L c)))⟩ ∧
      (indexHandler L env req w).2.store = w.store) ∧
    cats.Nodup ∧
    (∀ c, c ∈ cats ↔ ∃ p ∈ w.store.products, p.category = some c) ∧
    (∀ c : String, ∀ ch ∈ (slugOf L c).data, isJsSpace ch = false) ∧
    (∀ c : String, (∀ ch ∈ (L.toLowerCase c).data, isJsSpace ch = false) →
      slugOf L c = L.toLowerCase c) := by
  have hne : req.method ≠ "OPTIONS" := by rw [hm]; decide
  have hc1 : distinctCategories (connectDB env w).2.store.products = cats.map some := by
    rw [connectDB_store]; exact hcats
  refine ⟨?_, ?_, ?_, ?_, ?_, ?_, ?_⟩
  · refine (serve_const _ env req w _ hconn hne ?_).1
    simp [categoriesRoutes, hm, hc1, categoryEntries_strings]
  · refine (serve_const (categoriesRoutes L req) env req w
      ⟨200, .categories (cats.map (fun c => (c, slugOf L c)))⟩ hconn hne ?_).2
    simp [categoriesRoutes, hm, hc1, categoryEntries_strings]
  · intro hpath
    refine serve_const _ env req w _ hconn hne ?_
    simp [indexRoutes, hpath, indexBlocks, firstReturn, hm, indexCategories, hc1,
      categoryEntries_strings, Response.json, matchesIdRoute, matchesToggleRoute]
  · have h := nodup_distinctValues (w.store.products.map Product.category)
    unfold distinctCategories at hcats
    rw [hcats] at h
    exact List.Nodup.of_map _ h
  · intro c
    have h := mem_distinctValues (w.store.products.map Product.category) (some c)
    unfold distinctCategories at hcats
    rw [hcats] at h
    simp only [List.mem_map, Option.some.injEq] at h
    constructor
    · intro hc
      obtain ⟨p, hp, hpc⟩ := h.1 ⟨c, hc, rfl⟩
      exact ⟨p, hp, hpc⟩
    · rintro ⟨p, hp, hpc⟩
      obtain ⟨c1, hc1m, hc1e⟩ := h.2 ⟨p, hp, hpc⟩
      rw [← hc1e]; exact hc1m
  · intro c ch hch
    exact hyphenateAux_no_space false _ ch hch
  · intro c hc
    unfold slugOf
    rw [hyphenateAux_of_no_space _ hc]

theorem categories_listing_witness :
    (categoriesHandler sampleLib sampleEnv ⟨"GET", "/api/categories", none⟩ shopWorld).1 =
      ⟨200, .categories (["cap", "t-shirt"].map (fun c => (c, slugOf sampleLib c)))⟩ ∧
    (indexHandler sampleLib sampleEnv ⟨"GET", "/api/categories", none⟩ shopWorld).1 =
      ⟨200, .categories (["cap", "t-shirt"].map (fun c => (c, slugOf sampleLib c)))⟩ ∧
    slugOf sampleLib "Polo  Shirts" = "polo-shirts" :=
  ⟨(categories_listing sampleLib sampleEnv shopWorld ⟨"GET", "/api/categories", none⟩
      ["cap", "t-shirt"] (Or.inr rfl) rfl (by decide)).1,
    ((categories_listing sampleLib sampleEnv shopWorld ⟨"GET", "/api/categories", none⟩
      ["cap", "t-shirt"] (Or.inr rfl) rfl (by decide)).2.2.1 (by decide)).1,
    by decide⟩

/-- The pathname of the products of a category selects the category clause of
the consolidated router, whose slug is the segment `t`. -/
theorem indexRoutes_category (L : Lib) (env : Env) (req : Request) (w : World) (t : String)
    (hm : req.method = "GET") (ht0 : t ≠ "") (hslash : '/' ∉ t.data)
    (hpath : pathnameOf L req.url = some ("/api/categories/" ++ t ++ "/products")) :
    indexRoutes L env req w =
      match regExp L (deslug t) with
      | none => (.error (.other "SyntaxError"), w)
      | some re => (.ok (.json (.products (findByCategory re w.store.products))), w) := by
  have hdata : ("/api/categories/" ++ t ++ "/products").data =
      '/' :: 'a' :: 'p' :: 'i' :: '/' :: 'c' :: 'a' :: 't' :: 'e' :: 'g' :: 'o' :: 'r' :: 'i' ::
        'e' :: 's' :: '/' :: (t.data ++ '/' :: "products".data) := by
    simp [String.data_append]
  have ht1 : t.data ≠ [] := by
    intro h
    apply ht0
    cases t
    simp_all
  have hprod : '/' ∉ "products".data := by decide
  have hsplit : splitOn '/' (t.data ++ '/' :: "products".data) = [t.data, "products".data] := by
    rw [splitOn_append_sep '/' _ t.data hslash, splitOn_of_not_mem '/' _ hprod]
  have h6 : ("/api/categories/" ++ t ++ "/products").data.get? 5 = some 'c' := by
    rw [hdata]; rfl
  have h1 : "/api/categories/" ++ t ++ "/products" ≠ "/api/products" :=
    string_ne_of_get _ _ 5 'c' 'p' h6 rfl (by decide)
  have h2 : "/api/categories/" ++ t ++ "/products" ≠ "/api/products/latest" :=
    string_ne_of_get _ _ 5 'c' 'p' h6 rfl (by decide)
  have h3 : matchesIdRoute "/api/products/" ("/api/categories/" ++ t ++ "/products") = false := by
    simp [matchesIdRoute, isPrefixOf_false_of_get "/api/products/".data _ 5 'p' 'c' rfl h6
      (by decide)]
  have h4 : matchesToggleRoute ("/api/categories/" ++ t ++ "/products") = false := by
    simp [matchesToggleRoute, isPrefixOf_false_of_get "/api/products/".data _ 5 'p' 'c' rfl h6
      (by decide)]
  have h5 : "/api/categories/" ++ t ++ "/products" ≠ "/api/auth/login" :=
    string_ne_of_get _ _ 5 'c' 'a' h6 rfl (by decide)
  have h7 : "/api/categories/" ++ t ++ "/products" ≠ "/api/orders" :=
    string_ne_of_get _ _ 5 'c' 'o' h6 rfl (by decide)
  have h8 : matchesIdRoute "/api/orders/" ("/api/categories/" ++ t ++ "/products") = false := by
    simp [matchesIdRoute, isPrefixOf_false_of_get "/api/orders/".data _ 5 'o' 'c' rfl h6
      (by decide)]
  have h9 : "/api/categories/" ++ t ++ "/products" ≠ "/api/categories" := by
    apply string_ne_of_length
    rw [hdata]
    simp
  have h10 : matchesCategoryRoute ("/api/categories/" ++ t ++ "/products") = true := by
    have hpre : "/api/categories/".data =
        ['/', 'a', 'p', 'i', '/', 'c', 'a', 't', 'e', 'g', 'o', 'r', 'i', 'e', 's', '/'] := rfl
    unfold matchesCategoryRoute
    rw [hdata, hpre]
    simp [List.isPrefixOf, hsplit, ht1]
  have hseg : fourthSegment ("/api/categories/" ++ t ++ "/products") = t := by
    unfold fourthSegment
    rw [hdata]
    have e1 : splitOn '/' ('/' :: 'a' :: 'p' :: 'i' :: '/' :: 'c' :: 'a' :: 't' :: 'e' :: 'g' ::
        'o' :: 'r' :: 'i' :: 'e' :: 's' :: '/' :: (t.data ++ '/' :: "products".data)) =
        [[], ['a', 'p', 'i'], ['c', 'a', 't', 'e', 'g', 'o', 'r', 'i', 'e', 's'], t.data,
          "products".data] := by
      simp [splitOn, hsplit]
    rw [e1]
    rfl
  unfold indexRoutes
  rw [hpath]
  simp only [indexBlocks, h1, h2, h3, h4, h5, h7, h8, h9, h10, hm, if_true, if_false, firstReturn,
    Bool.false_eq_true, indexCategoryProducts, hseg]

/-- C12 (as stated, refuted): the slug is used as a regular expression, not as
a literal string.  For the slug "t.shirt" the product of category "t-shirt" is
returned, although "t-shirt" does not contain "t.shirt". -/
theorem category_products_counterexample :
    (indexHandler sampleLib sampleEnv ⟨"GET", "/api/categories/t.shirt/products", none⟩
      shopWorld).1 = ⟨200, .products [shirtProduct]⟩ ∧
    shirtProduct.category = some "t-shirt" ∧
    containsFolded sampleLib (deslug "t.shirt").data "t-shirt".data = false ∧
    productsOfCategory sampleLib (deslug "t.shirt") shopWorld.store.products = [] := by
  decide

/-- C12 (amended): for a non-empty slug segment `t` without slash and without
regular-expression metacharacter, GET /api/categories/t/products in the
consolidated router is answered 200 with exactly the stored products whose
category contains, compared case-insensitively, `t` with each hyphen replaced
by a space as a literal substring, newest first; the store is unchanged. -/
theorem category_products_plain_slug (L : Lib) (env : Env) (w : World) (req : Request)
    (t : String) (hconn : Connects env w) (hm : req.method = "GET") (ht0 : t ≠ "")
    (hplain : ∀ c ∈ t.data, c ≠ '/' ∧ c ∉ regexMeta)
    (hpath : pathnameOf L req.url = some ("/api/categories/" ++ t ++ "/products")) :
    (indexHandler L env req w).1 =
      ⟨200, .products (productsOfCategory L (deslug t) w.store.products)⟩ ∧
    (indexHandler L env req w).2.store = w.store := by
  have hne : req.method ≠ "OPTIONS" := by rw [hm]; decide
  have hslash : '/' ∉ t.data := fun m => (hplain '/' m).1 rfl
  have hre := regExp_plain L (deslug t) (deslug_plain t (fun c hc => (hplain c hc).2))
  have hroute := indexRoutes_category L env req (connectDB env w).2 t hm ht0 hslash hpath
  rw [hre] at hroute
  have h := serve_const (indexRoutes L env req) env req w _ hconn hne hroute
  unfold indexHandler
  rw [h.1, h.2, connectDB_store]
  exact ⟨rfl, rfl⟩

theorem category_products_plain_slug_witness :
    (indexHandler sampleLib sampleEnv ⟨"GET", "/api/categories/SHIRT/products?page=1", none⟩
      shopWorld).1 =
      ⟨200, .products (productsOfCategory sampleLib (deslug "SHIRT") shopWorld.store.products)⟩ ∧
    (indexHandler sampleLib sampleEnv ⟨"GET", "/api/categories/SHIRT/products?page=1", none⟩
      shopWorld).2.store = shopWorld.store ∧
    productsOfCategory sampleLib (deslug "SHIRT") shopWorld.store.products = [shirtProduct] :=
  ⟨(category_products_plain_slug sampleLib sampleEnv shopWorld
      ⟨"GET", "/api/categories/SHIRT/products?page=1", none⟩ "SHIRT" (Or.inr rfl) rfl (by decide)
      (by decide) (by decide)).1,
    (category_products_plain_slug sampleLib sampleEnv shopWorld
      ⟨"GET", "/api/categories/SHIRT/products?page=1", none⟩ "SHIRT" (Or.inr rfl) rfl (by decide)
      (by decide) (by decide)).2,
    by decide⟩

/-- The create clause of the orders handler either leaves the store as it was
or answers 201 and appends one order, which has at least one item, a numeric
total and the status "pending". -/
theorem ordersCreate_cases (L : Lib) (env : Env) (body : Option JVal) (w : World) :
    (ordersCreate L env body w).2 = w ∧ (∀ r, (ordersCreate L env body w).1 = .ok r → r.status ≠ 201) ∨
    ∃ o : Order,
      ordersCreate L env body w =
        (.ok ⟨201, .order o⟩, { w with store := { w.store with orders := w.store.orders ++ [o] } }) ∧
      1 ≤ o.items.length ∧ o.totalAmount.isSome = true ∧ o.status = some "pending" := by
  unfold ordersCreate
  cases hd : destructure body with
  | error e => left; simp
  | ok f =>
    by_cases hchk : (!truthy (f "customerName") || !truthy (f "customerPhone") ||
        !truthy (f "customerAddress") || !truthy (f "items") ||
        isZero ((f "items").bind jsLength)) = true
    · left; simp [hchk]
    · simp only [hchk, Bool.false_eq_true, if_false]
      unfold saveNewOrder
      by_cases hf : (newOrder L env f).2 ++ orderFailures (newOrder L env f).1 ≠ []
      · left; simp [hf]
      · rw [if_neg hf]
        by_cases hdup : (findOrderById (newOrder L env f).1._id w.store.orders).isSome = true
        · left; simp [hdup]
        · right
          rw [if_neg hdup]
          have hf1 : (newOrder L env f).2 ++ orderFailures (newOrder L env f).1 = [] := by
            simpa using hf
          obtain ⟨hce, hvf⟩ := List.append_eq_nil.1 hf1
          simp only [Bool.or_eq_true, Bool.not_eq_true', not_or, Bool.not_eq_false] at hchk
          obtain ⟨⟨_, hitems⟩, hz⟩ := hchk
          refine ⟨(newOrder L env f).1, rfl, ?_, ?_, rfl⟩
          · cases hv : f "items" with
            | none => simp [hv, truthy] at hitems
            | some v =>
              rw [hv] at hz
              have hz1 : isZero (jsLength v) = false := by simpa using hz
              cases hc : castItems L v with
              | error e =>
                simp [newOrder, hv, hc, castFailure] at hce
              | ok xs =>
                have : (newOrder L env f).1.items = xs := by
                  simp [newOrder, hv, hc, castValue]
                rw [this]
                exact castItems_length_pos L v xs hz1 hc
          · cases ht : (newOrder L env f).1.totalAmount with
            | some t => rfl
            | none =>
              simp [orderFailures, ht] at hvf

/-- C13 (as stated, refuted): the total is not required to be positive, and
the consolidated router does not require an item.  The orders handler stores
the complete order body with total 0 (201); the consolidated router stores an
order with an empty items list and total 0 (201). -/
theorem orders_invariant_counterexample :
    (ordersHandler sampleLib sampleEnv ⟨"POST", "/api/orders", some zeroTotalBody⟩
      emptyWorld).1.status = 201 ∧
    (ordersHandler sampleLib sampleEnv ⟨"POST", "/api/orders", some zeroTotalBody⟩
      emptyWorld).2.store.orders.map Order.totalAmount = [some 0] ∧
    (indexHandler sampleLib sampleEnv ⟨"POST", "/api/orders", some emptyItemsBody⟩
      emptyWorld).1.status = 201 ∧
    (indexHandler sampleLib sampleEnv ⟨"POST", "/api/orders", some emptyItemsBody⟩
      emptyWorld).2.store.orders.map (fun o => (o.items.length, o.totalAmount)) = [(0, some 0)] := by
  decide

/-- C13 (amended): every order that a POST /orders request to the orders handler
(`api/orders.js`) persists has at least one item and a numeric total: the
request either stores nothing and is not answered 201, or is answered 201 and
appends exactly one order with at least one item, a total and the status
"pending".  A request whose items are missing or empty is answered 400 and
stores nothing, and one whose total is not numeric stores nothing. -/
theorem orders_post_persists (L : Lib) (env : Env) (w : World) (req : Request)
    (hconn : Connects env w) (hm : req.method = "POST")
    (hp : pathParts "/api/orders" req.url = []) :
    (((ordersHandler L env req w).2.store = w.store ∧ (ordersHandler L env req w).1.status ≠ 201) ∨
      ∃ o : Order, (ordersHandler L env req w).1 = ⟨201, .order o⟩ ∧
        (ordersHandler L env req w).2.store = { w.store with orders := w.store.orders ++ [o] } ∧
        1 ≤ o.items.length ∧ o.totalAmount.isSome = true ∧ o.status = some "pending") ∧
    (∀ f, destructure req.body = .ok f →
      truthy (f "items") = false ∨ isZero ((f "items").bind jsLength) = true →
      (ordersHandler L env req w).1 =
        ⟨400, .message "Customer name, phone, address and items are required"⟩ ∧
      (ordersHandler L env req w).2.store = w.store) ∧
    (∀ f, destructure req.body = .ok f → parseFloat L (f "totalAmount") = .nan →
      (ordersHandler L env req w).1.status ≠ 201 ∧
      (ordersHandler L env req w).2.store = w.store) := by
  have hne : req.method ≠ "OPTIONS" := by rw [hm]; decide
  have hh : ordersHandler L env req w =
      match ordersCreate L env req.body (connectDB env w).2 with
      | (.ok r, w2) => (r, w2)
      | (.error e, w2) => (⟨500, .serverError e⟩, w2) := by
    unfold ordersHandler
    rw [serve_connected _ env req w hconn hne, ordersRoutes_create L env req _ hm hp]
  refine ⟨?_, ?_, ?_⟩
  · rcases ordersCreate_cases L env req.body (connectDB env w).2 with ⟨h1, h2⟩ | ⟨o, h1, h2, h3, h4⟩
    · left
      rw [hh]
      rcases hc : ordersCreate L env req.body (connectDB env w).2 with ⟨r, w2⟩
      rw [hc] at h1 h2
      simp only at h1 h2
      subst h1
      cases r with
      | ok r => exact ⟨connectDB_store env w, h2 r rfl⟩
      | error e => exact ⟨connectDB_store env w, by simp⟩
    · right
      refine ⟨o, by rw [hh, h1], ?_, h2, h3, h4⟩
      rw [hh, h1]
      simp [connectDB_store]
  · intro f hd hitems
    have hchk : (!truthy (f "customerName") || !truthy (f "customerPhone") ||
        !truthy (f "customerAddress") || !truthy (f "items") ||
        isZero ((f "items").bind jsLength)) = true := by
      rcases hitems with h | h <;> simp [h]
    rw [hh]
    simp [ordersCreate, hd, hchk, connectDB_store]
  · intro f hd hnan
    rw [hh]
    unfold ordersCreate
    rw [hd]
    by_cases hchk : (!truthy (f "customerName") || !truthy (f "customerPhone") ||
        !truthy (f "customerAddress") || !truthy (f "items") ||
        isZero ((f "items").bind jsLength)) = true
    · simp [hchk, connectDB_store]
    · have hce : (newOrder L env f).2 ++ orderFailures (newOrder L env f).1 ≠ [] := by
        simp [newOrder, hnan, castNumber, castFailure]
      simp [hchk, saveNewOrder, hce, connectDB_store]

theorem orders_post_persists_witness :
    (∃ o : Order,
      (ordersHandler sampleLib sampleEnv ⟨"POST", "/api/orders", some zeroTotalBody⟩ emptyWorld).1 =
        ⟨201, .order o⟩ ∧ 1 ≤ o.items.length ∧ o.totalAmount.isSome = true) ∧
    (ordersHandler sampleLib sampleEnv
        ⟨"POST", "/api/orders", some (.obj [("customerName", .str "A"), ("items", .arr [])])⟩
        emptyWorld).1 = ⟨400, .message "Customer name, phone, address and items are required"⟩ := by
  have h := orders_post_persists sampleLib sampleEnv emptyWorld
    ⟨"POST", "/api/orders", some zeroTotalBody⟩ (Or.inr rfl) rfl (by decide)
  have k := orders_post_persists sampleLib sampleEnv emptyWorld
    ⟨"POST", "/api/orders", some (.obj [("customerName", .str "A"), ("items", .arr [])])⟩
    (Or.inr rfl) rfl (by decide)
  refine ⟨?_, (k.2.1 _ rfl (Or.inr rfl)).1⟩
  rcases h.1 with ⟨_, h2⟩ | ⟨o, h1, _, h3, h4, _⟩
  · exact absurd (by decide) h2
  · exact ⟨o, h1, h3, h4⟩

/-- The routes of the orders handler, for a method other than PUT, keep the
stored orders and at most append one. -/
theorem ordersRoutes_keeps (L : Lib) (env : Env) (req : Request) (w : World)
    (hm : req.method ≠ "PUT") :
    ∃ extra, (ordersRoutes L env req w).2.store.orders = w.store.orders ++ extra := by
  unfold ordersRoutes
  simp only [hm, false_and, if_false]
  split
  · exact ⟨[], by simp [ordersList]⟩
  · split
    · refine ⟨[], ?_⟩
      unfold ordersGet
      split
      · simp
      · split
        · simp
        · split <;> simp
    · split
      · rcases ordersCreate_cases L env req.body w with ⟨h1, _⟩ | ⟨o, h1, _⟩
        · exact ⟨[], by rw [h1]; simp⟩
        · exact ⟨[o], by rw [h1]⟩
      · exact ⟨[], by simp⟩

/-- C14 (as stated, refuted): PUT /orders/:id sets the status without any check.
A delivered order is set back to "pending", and is set to "banana", a value
outside the enumeration; both requests are answered 200. -/
theorem orders_status_counterexample :
    findOrderById (sampleId 13) orderWorld.store.orders = some deliveredOrder ∧
    deliveredOrder.status = some "delivered" ∧
    (ordersHandler sampleLib sampleEnv ⟨"PUT", orderPath, some (statusBody "pending")⟩
      orderWorld).1 = ⟨200, .order (withStatus 1000 "pending" deliveredOrder)⟩ ∧
    findOrderById (sampleId 13) (ordersHandler sampleLib sampleEnv
      ⟨"PUT", orderPath, some (statusBody "pending")⟩ orderWorld).2.store.orders =
      some (withStatus 1000 "pending" deliveredOrder) ∧
    findOrderById (sampleId 13) (ordersHandler sampleLib sampleEnv
      ⟨"PUT", orderPath, some (statusBody "banana")⟩ orderWorld).2.store.orders =
      some (withStatus 1000 "banana" deliveredOrder) := by
  decide

/-- C14 (amended): on the orders handler, a request whose method is not PUT
leaves every stored order as it was, status included; a PUT /orders/:id request
whose body is `{ status: st }` on a stored order is answered 200 and sets the
status to `st`, for every string `st` and every previous status. -/
theorem orders_status_changes (L : Lib) (env : Env) (w : World) (req : Request) :
    (req.method ≠ "PUT" → ∀ (oid : ObjectId) (o : Order),
      findOrderById oid w.store.orders = some o →
      findOrderById oid (ordersHandler L env req w).2.store.orders = some o) ∧
    (∀ (seg st : String) (oid : ObjectId) (o : Order), Connects env w → req.method = "PUT" →
      pathParts "/api/orders" req.url = [seg] → castObjectId seg = some oid →
      findOrderById oid w.store.orders = some o → req.body = some (statusBody st) →
      (ordersHandler L env req w).1 = ⟨200, .order (withStatus env.now st o)⟩ ∧
      findOrderById oid (ordersHandler L env req w).2.store.orders =
        some (withStatus env.now st o)) := by
  constructor
  · intro hm oid o hfind
    unfold ordersHandler serve
    split
    · exact hfind
    · split
      · rename_i w1 hc
        have : w1.store = w.store := by
          have := connectDB_store env w
          rw [hc] at this
          exact this
        rw [this]; exact hfind
      · rename_i c w1 hc
        have hs : w1.store = w.store := by
          have := connectDB_store env w
          rw [hc] at this
          exact this
        obtain ⟨extra, he⟩ := ordersRoutes_keeps L env req w1 hm
        have hf1 : findOrderById oid (ordersRoutes L env req w1).2.store.orders = some o := by
          rw [he, hs]
          exact findOrderById_append oid o extra _ hfind
        split
        · rename_i r w2 hr
          rw [hr] at hf1
          exact hf1
        · rename_i e w2 hr
          rw [hr] at hf1
          exact hf1
  · intro seg st oid o hconn hm hp hid hfind hbody
    have hne : req.method ≠ "OPTIONS" := by rw [hm]; decide
    have hf : findOrderById oid (connectDB env w).2.store.orders = some o := by
      rw [connectDB_store]; exact hfind
    have hcast : castOrderUpdate L (some (statusBody st)) =
        .ok (id ∘ fun o => { o with status := some st }) := by
      simp [castOrderUpdate, statusBody, plainOrderPath, castOrderSets, orderSetter, castString,
        Except.map]
    have hroute : ordersRoutes L env req (connectDB env w).2 =
        (.ok ⟨200, .order (withStatus env.now st o)⟩,
          { (connectDB env w).2 with store := { (connectDB env w).2.store with
              orders := replaceOrderById (withStatus env.now st o)
                (connectDB env w).2.store.orders } }) := by
      unfold ordersRoutes
      simp [hm, hp, ordersUpdate, hid, hbody, hcast, hf, Response.json, withStatus]
    unfold ordersHandler
    rw [serve_connected _ env req w hconn hne, hroute]
    refine ⟨rfl, ?_⟩
    have hid2 : (withStatus env.now st o)._id = oid := by
      show o._id = oid
      exact findOrderById_id hfind
    exact findOrderById_replace oid _ hid2 _ o hf

theorem orders_status_changes_witness :
    findOrderById (sampleId 13) (ordersHandler sampleLib sampleEnv ⟨"GET", orderPath, none⟩
      orderWorld).2.store.orders = some deliveredOrder ∧
    (ordersHandler sampleLib sampleEnv ⟨"PUT", orderPath, some (statusBody "shipped")⟩
      orderWorld).1 = ⟨200, .order (withStatus sampleEnv.now "shipped" deliveredOrder)⟩ :=
  ⟨(orders_status_changes sampleLib sampleEnv orderWorld ⟨"GET", orderPath, none⟩).1 (by decide)
      (sampleId 13) deliveredOrder (by decide),
    ((orders_status_changes sampleLib sampleEnv orderWorld
      ⟨"PUT", orderPath, some (statusBody "shipped")⟩).2 "dddddddddddddddddddddddd" "shipped"
      (sampleId 13) deliveredOrder (Or.inr rfl) rfl (by decide) (by decide) (by decide) rfl).1⟩

/-- A request no block of the consolidated router returns for is answered 404
with the pathname in the message, the world being kept. -/
theorem indexRoutes_unmatched (L : Lib) (env : Env) (req : Request) (w : World) (pathname : String)
    (hpath : pathnameOf L req.url = some pathname)
    (hno : indexRouteMatches req.method pathname = false) :
    indexRoutes L env req w = (.ok ⟨404, .message ("Route not found: " ++ pathname)⟩, w) := by
  unfold indexRoutes
  rw [hpath]
  have hnone : firstReturn (indexBlocks L env req pathname w) = none := by
    simp only [indexRouteMatches, Bool.or_eq_false_iff, Bool.and_eq_false_iff, decide_eq_false_iff_not,
      Bool.or_eq_false_iff] at hno
    obtain ⟨⟨⟨⟨⟨⟨⟨⟨⟨h1, h2⟩, h3⟩, h4⟩, h5⟩, h6⟩, h7⟩, h8⟩, h9⟩, h10⟩ := hno
    unfold indexBlocks
    have b1 : (if pathname = "/api/products" then
        (if req.method = "GET" then some (productsList w)
         else if req.method = "POST" then some (indexProductsCreate L env req.body w)
         else none)
        else none) = none := by
      rcases h1 with h | ⟨ha, hb⟩
      · simp [h]
      · simp [ha, hb]
    have b2 : (if pathname = "/api/products/latest" then
        (if req.method = "GET" then some (productsLatest w) else none)
        else none) = none := by
      rcases h2 with h | h <;> simp [h]
    have b3 : (if matchesIdRoute "/api/products/" pathname = true then
        (if req.method = "GET" then
           some (withObjectId (lastSegment pathname) w (indexProductGet · w))
         else if req.method = "PUT" then
           some (withObjectId (lastSegment pathname) w (indexProductUpdate L env req.body · w))
         else if req.method = "DELETE" then
           some (withObjectId (lastSegment pathname) w (indexProductDelete · w))
         else none)
        else none) = none := by
      rcases h3 with h | ⟨⟨ha, hb⟩, hc⟩
      · simp [h]
      · simp [ha, hb, hc]
    have b4 : (if matchesToggleRoute pathname = true then
        (if req.method = "PUT" then
           some (withObjectId (fourthSegment pathname) w (indexProductToggle env · w))
         else none)
        else none) = none := by
      rcases h4 with h | h <;> simp [h]
    have b5 : (if pathname = "/api/auth/login" then
        (if req.method = "POST" then some (indexLogin L env req.body w) else none)
        else none) = none := by
      rcases h5 with h | h <;> simp [h]
    have b6 : (if pathname = "/api/orders" then
        (if req.method = "GET" then some (ordersList w)
         else if req.method = "POST" then some (indexOrdersCreate L env req.body w)
         else none)
        else none) = none := by
      rcases h6 with h | ⟨ha, hb⟩
      · simp [h]
      · simp [ha, hb]
    have b7 : (if matchesIdRoute "/api/orders/" pathname = true then
        (if req.method = "GET" then some (withObjectId (lastSegment pathname) w (indexOrderGet · w))
         else if req.method = "PUT" then
           some (withObjectId (lastSegment pathname) w (indexOrderUpdate L env req.body · w))
         else none)
        else none) = none := by
      rcases h7 with h | ⟨ha, hb⟩
      · simp [h]
      · simp [ha, hb]
    have b8 : (if pathname = "/api/categories" then
        (if req.method = "GET" then some (indexCategories L w) else none)
        else none) = none := by
      rcases h8 with h | h <;> simp [h]
    have b9 : (if matchesCategoryRoute pathname = true then
        (if req.method = "GET" then some (indexCategoryProducts L pathname w) else none)
        else none) = none := by
      rcases h9 with h | h <;> simp [h]
    have b10 : (if pathname = "/api/health" then some (indexHealth env w) else none) = none := by
      simp [h10]
    rw [b1, b2, b3, b4, b5, b6, b7, b8, b9, b10]
    rfl
  simp only [hnone]

/-- C15 (defect): the consolidated router creates a product without images.  The
payload without an `images` field is answered 201 and the product is stored with
an empty images list; the products handler answers the same request 400. -/
theorem index_post_without_images :
    (indexHandler sampleLib sampleEnv ⟨"POST", "/api/products", some noImagesBody⟩
      emptyWorld).1.status = 201 ∧
    (indexHandler sampleLib sampleEnv ⟨"POST", "/api/products", some noImagesBody⟩
      emptyWorld).2.store.products.map Product.images = [[]] ∧
    (productsHandler sampleLib sampleEnv ⟨"POST", "/api/products", some noImagesBody⟩
      emptyWorld).1 = ⟨400, .message "At least one image is required"⟩ := by
  decide

/-- C16 (as stated, refuted): the consolidated router answers a GET of
/api/products/abc with 404, not 400. -/
theorem index_get_bad_id_counterexample :
    (indexHandler sampleLib sampleEnv ⟨"GET", "/api/products/abc", none⟩ sampleWorld).1 =
      ⟨404, .message "Route not found: /api/products/abc"⟩ := by
  decide

/-- C16 (amended): in the consolidated router, a GET request whose pathname is
/api/products/t, where t is neither "latest" nor 24 hexadecimal characters, is
answered 404 with message "Route not found: /api/products/t"; the store is
unchanged. -/
theorem index_get_unknown_segment (L : Lib) (env : Env) (w : World) (req : Request) (t : String)
    (hconn : Connects env w) (hm : req.method = "GET") (ht : t ≠ "latest")
    (hbad : ¬ (t.data.length = 24 ∧ t.data.all isHexChar = true))
    (hpath : pathnameOf L req.url = some ("/api/products/" ++ t)) :
    (indexHandler L env req w).1 = ⟨404, .message ("Route not found: /api/products/" ++ t)⟩ ∧
    (indexHandler L env req w).2.store = w.store := by
  have hne : req.method ≠ "OPTIONS" := by rw [hm]; decide
  have hdata : ("/api/products/" ++ t).data =
      '/' :: 'a' :: 'p' :: 'i' :: '/' :: 'p' :: 'r' :: 'o' :: 'd' :: 'u' :: 'c' :: 't' :: 's' ::
        '/' :: t.data := by
    simp [String.data_append]
  have h6 : ("/api/products/" ++ t).data.get? 5 = some 'p' := by rw [hdata]; rfl
  have h14 : ("/api/products/" ++ t).data.get? 13 = some '/' := by rw [hdata]; rfl
  have hpre : "/api/products/".data =
      ['/', 'a', 'p', 'i', '/', 'p', 'r', 'o', 'd', 'u', 'c', 't', 's', '/'] := rfl
  have hno : indexRouteMatches req.method ("/api/products/" ++ t) = false := by
    have e1 : "/api/products/" ++ t ≠ "/api/products" := by
      apply string_ne_of_length
      rw [hdata]
      simp
    have e2 : "/api/products/" ++ t ≠ "/api/products/latest" := by
      intro h
      apply ht
      have := congrArg String.data h
      rw [hdata] at this
      have hl : "/api/products/latest".data =
          '/' :: 'a' :: 'p' :: 'i' :: '/' :: 'p' :: 'r' :: 'o' :: 'd' :: 'u' :: 'c' :: 't' ::
            's' :: '/' :: "latest".data := rfl
      rw [hl] at this
      simp only [List.cons.injEq, true_and] at this
      exact String.ext this
    have e3 : matchesIdRoute "/api/products/" ("/api/products/" ++ t) = false := by
      unfold matchesIdRoute
      rw [hdata, hpre]
      simp only [List.isPrefixOf, List.length_cons, List.length_nil, List.drop_succ_cons,
        List.drop_zero, beq_self_eq_true, Bool.true_and]
      by_cases hl : t.data.length = 24
      · have : t.data.all isHexChar = false := by
          cases hh : t.data.all isHexChar with
          | false => rfl
          | true => exact absurd ⟨hl, hh⟩ hbad
        simp [this]
      · have hl1 : ¬ t.length = 24 := hl
        simp [hl1]
    have e5 : "/api/products/" ++ t ≠ "/api/auth/login" :=
      string_ne_of_get _ _ 5 'p' 'a' h6 rfl (by decide)
    have e6 : "/api/products/" ++ t ≠ "/api/orders" :=
      string_ne_of_get _ _ 5 'p' 'o' h6 rfl (by decide)
    have e7 : matchesIdRoute "/api/orders/" ("/api/products/" ++ t) = false := by
      simp [matchesIdRoute, isPrefixOf_false_of_get "/api/orders/".data _ 5 'o' 'p' rfl h6
        (by decide)]
    have e8 : "/api/products/" ++ t ≠ "/api/categories" :=
      string_ne_of_get _ _ 5 'p' 'c' h6 rfl (by decide)
    have e9 : matchesCategoryRoute ("/api/products/" ++ t) = false := by
      simp [matchesCategoryRoute, isPrefixOf_false_of_get "/api/categories/".data _ 5 'c' 'p' rfl h6
        (by decide)]
    have e10 : "/api/products/" ++ t ≠ "/api/health" :=
      string_ne_of_get _ _ 5 'p' 'h' h6 rfl (by decide)
    simp [indexRouteMatches, hm, e1, e2, e3, e5, e6, e7, e8, e9, e10]
  exact serve_const _ env req w _ hconn hne
    (indexRoutes_unmatched L env req _ _ hpath hno)

theorem index_get_unknown_segment_witness :
    (indexHandler sampleLib sampleEnv ⟨"GET", "/api/products/abc?x=1", none⟩ sampleWorld).1 =
      ⟨404, .message ("Route not found: /api/products/" ++ "abc")⟩ ∧
    (indexHandler sampleLib sampleEnv ⟨"GET", "/api/products/abc?x=1", none⟩ sampleWorld).2.store =
      sampleWorld.store :=
  index_get_unknown_segment sampleLib sampleEnv sampleWorld ⟨"GET", "/api/products/abc?x=1", none⟩
    "abc" (Or.inr rfl) rfl (by decide) (by decide) (by decide)

/-- C20: a request to the consolidated router, other than a preflight, whose
method and pathname no route of the router matches (a known path with a method
it does not support included) is answered 404 with message "Route not found: "
followed by the pathname; the store is unchanged. -/
theorem index_unmatched_route (L : Lib) (env : Env) (w : World) (req : Request) (pathname : String)
    (hconn : Connects env w) (hm : req.method ≠ "OPTIONS")
    (hpath : pathnameOf L req.url = some pathname)
    (hno : indexRouteMatches req.method pathname = false) :
    (indexHandler L env req w).1 = ⟨404, .message ("Route not found: " ++ pathname)⟩ ∧
    (indexHandler L env req w).2.store = w.store :=
  serve_const _ env req w _ hconn hm (indexRoutes_unmatched L env req _ _ hpath hno)

theorem index_unmatched_route_witness :
    ((indexHandler sampleLib sampleEnv ⟨"DELETE", "/api/orders", none⟩ orderWorld).1 =
        ⟨404, .message ("Route not found: " ++ "/api/orders")⟩ ∧
      (indexHandler sampleLib sampleEnv ⟨"DELETE", "/api/orders", none⟩ orderWorld).2.store =
        orderWorld.store) ∧
    ((indexHandler sampleLib sampleEnv ⟨"GET", "/api/nothing?x=1", none⟩ orderWorld).1 =
        ⟨404, .message ("Route not found: " ++ "/api/nothing")⟩ ∧
      (indexHandler sampleLib sampleEnv ⟨"GET", "/api/nothing?x=1", none⟩ orderWorld).2.store =
        orderWorld.store) :=
  ⟨index_unmatched_route sampleLib sampleEnv orderWorld ⟨"DELETE", "/api/orders", none⟩
      "/api/orders" (Or.inr rfl) (by decide) (by decide) (by decide),
    index_unmatched_route sampleLib sampleEnv orderWorld ⟨"GET", "/api/nothing?x=1", none⟩
      "/api/nothing" (Or.inr rfl) (by decide) (by decide) (by decide)⟩

theorem authRoutes_register (L : Lib) (env : Env) (req : Request) (w : World)
    (hm : req.method = "POST") (hp : (authPathParts req.url).head? = some "register") :
    authRoutes L env req w = authRegister L env req.body w := by
  unfold authRoutes
  simp [hm, hp]

/-- C17: when the store holds a user with email `e`, a registration with a
non-empty name, a non-empty password and the email `e` is answered 400 with
message "User already exists", without token, and the store is unchanged. -/
theorem register_existing_email (L : Lib) (env : Env) (w : World) (req : Request)
    (fs : List (String × JVal)) (nm e pw : String) (u : User) (hconn : Connects env w)
    (hm : req.method = "POST") (hr : (authPathParts req.url).head? = some "register")
    (hb : req.body = some (.obj fs))
    (hn : lookupField "name" fs = some (.str nm)) (hn0 : nm ≠ "")
    (he : lookupField "email" fs = some (.str e)) (he0 : e ≠ "")
    (hp : lookupField "password" fs = some (.str pw)) (hp0 : pw ≠ "")
    (hknown : w.store.users.find? (fun v => v.email = e) = some u) :
    (authHandler L env req w).1 = ⟨400, .message "User already exists"⟩ ∧
    (authHandler L env req w).2.store = w.store := by
  have hne : req.method ≠ "OPTIONS" := by rw [hm]; decide
  have hu : (connectDB env w).2.store.users.find? (fun v => v.email = e) = some u := by
    rw [connectDB_store]; exact hknown
  refine serve_const _ env req w _ hconn hne ?_
  rw [authRoutes_register L env req _ hm hr, hb]
  simp [authRegister, destructure, getProp, hn, he, hp, truthy, hn0, he0, hp0, findUserByEmail, hu]

theorem register_existing_email_witness :
    (authHandler sampleLib sampleEnv
      ⟨"POST", "/api/auth/register", some (registerBody "Bob" "ann@example.com" "secret1")⟩
      userWorld).1 = ⟨400, .message "User already exists"⟩ ∧
    (authHandler sampleLib sampleEnv
      ⟨"POST", "/api/auth/register", some (registerBody "Bob" "ann@example.com" "secret1")⟩
      userWorld).2.store = userWorld.store :=
  register_existing_email sampleLib sampleEnv userWorld
    ⟨"POST", "/api/auth/register", some (registerBody "Bob" "ann@example.com" "secret1")⟩
    [("name", .str "Bob"), ("email", .str "ann@example.com"), ("password", .str "secret1")]
    "Bob" "ann@example.com" "secret1" sampleUser (Or.inr rfl) rfl (by decide) rfl rfl (by decide)
    rfl (by decide) rfl (by decide) (by decide)

/-- C19: a POST /orders body in which customerName, customerPhone or
customerAddress is missing or empty, or items is missing or an empty list, is
answered 400 with message "Customer name, phone, address and items are
required"; the store is unchanged. -/
theorem orders_post_missing_fields (L : Lib) (env : Env) (w : World) (req : Request)
    (fs : List (String × JVal)) (hconn : Connects env w)
    (hm : req.method = "POST") (hp : pathParts "/api/orders" req.url = [])
    (hb : req.body = some (.obj fs))
    (hmiss : Blank (lookupField "customerName" fs) ∨ Blank (lookupField "customerPhone" fs) ∨
      Blank (lookupField "customerAddress" fs) ∨ lookupField "items" fs = none ∨
      lookupField "items" fs = some (.arr [])) :
    (ordersHandler L env req w).1 =
      ⟨400, .message "Customer name, phone, address and items are required"⟩ ∧
    (ordersHandler L env req w).2.store = w.store := by
  have hne : req.method ≠ "OPTIONS" := by rw [hm]; decide
  have hblank : ∀ v, Blank v → truthy v = false := by
    intro v hv
    rcases hv with h | h <;> simp [h, truthy]
  have hchk : (!truthy (lookupField "customerName" fs) || !truthy (lookupField "customerPhone" fs) ||
      !truthy (lookupField "customerAddress" fs) || !truthy (lookupField "items" fs) ||
      isZero ((lookupField "items" fs).bind jsLength)) = true := by
    rcases hmiss with h | h | h | h | h
    · simp [hblank _ h]
    · simp [hblank _ h]
    · simp [hblank _ h]
    · simp [h, truthy]
    · simp [h, truthy, jsLength, isZero]
  refine serve_const _ env req w _ hconn hne ?_
  rw [ordersRoutes_create L env req _ hm hp, hb]
  have hgp : getProp (.obj fs) = (lookupField · fs) := rfl
  simp only [ordersCreate, destructure, hgp, hchk, if_true]

theorem orders_post_missing_fields_witness :
    (ordersHandler sampleLib sampleEnv
      ⟨"POST", "/api/orders", some (.obj [("customerName", .str ""), ("customerPhone", .str "555")])⟩
      orderWorld).1 = ⟨400, .message "Customer name, phone, address and items are required"⟩ ∧
    (ordersHandler sampleLib sampleEnv
      ⟨"POST", "/api/orders", some (.obj [("customerName", .str ""), ("customerPhone", .str "555")])⟩
      orderWorld).2.store = orderWorld.store :=
  orders_post_missing_fields sampleLib sampleEnv orderWorld
    ⟨"POST", "/api/orders", some (.obj [("customerName", .str ""), ("customerPhone", .str "555")])⟩
    [("customerName", .str ""), ("customerPhone", .str "555")] (Or.inr rfl) rfl (by decide) rfl
    (Or.inl (Or.inr rfl))

theorem findUserByEmail_mem (L : Lib) (hq : QueriesStored L) (v : JVal) (us : List User) (u : User)
    (h : findUserByEmail L v us = .ok (some u)) : u ∈ us := by
  cases v with
  | str e =>
    simp only [findUserByEmail, Except.ok.injEq] at h
    exact List.mem_of_find?_eq_some h
  | null => exact hq.1 _ us u h
  | bool b => exact hq.1 _ us u h
  | num n => exact hq.1 _ us u h
  | arr xs => exact hq.1 _ us u h
  | obj fs => exact hq.1 _ us u h

theorem sessionResponse_success (env : Env) (st : Nat) (u : User) (hst : st ≠ 500)
    (hs : (sessionResponse env st u).status = st) :
    ∃ key, env.jwtSecret = some key ∧ (sessionResponse env st u).body = sessionBody env.now key u := by
  unfold sessionResponse jwtSign at *
  cases hk : env.jwtSecret with
  | none =>
    simp [hk] at hs
    exact absurd hs.symm hst
  | some key => exact ⟨key, rfl, by simp [sessionBody, publicUser]⟩

/-- A handler that answers a request other than a preflight with a status other
than 500 answers with what its routes return after `connectDB`. -/
theorem serve_answer (routes : World → Except Err Response × World) (env : Env) (req : Request)
    (w : World) (hm : req.method ≠ "OPTIONS") (hst : (serve routes env req w).1.status ≠ 500) :
    routes (connectDB env w).2 = (.ok (serve routes env req w).1, (serve routes env req w).2) := by
  unfold serve at hst ⊢
  rw [if_neg hm] at hst ⊢
  rcases hc : connectDB env w with ⟨c, w1⟩
  rw [hc] at hst
  cases c with
  | error e => simp at hst
  | ok n =>
    simp only at hst ⊢
    rcases hr : routes w1 with ⟨x, w2⟩
    rw [hr] at hst
    cases x with
    | error e => simp at hst
    | ok r => rfl

theorem connectDB_of_cached (env : Env) (w : World) (c : Nat) (h : w.cachedConnection = some c) :
    connectDB env w = (.ok c, w) := by
  simp [connectDB, h]

theorem connectAll_cached (c : Nat) : ∀ (envs : List Env) (w : World),
    w.cachedConnection = some c → connectAll envs w = w := by
  intro envs
  induction envs with
  | nil => intro w _; rfl
  | cons e es ih =>
    intro w hw
    have h1 : (connectDB e w).2 = w := by rw [connectDB_of_cached e w c hw]
    show connectAll es (connectDB e w).2 = w
    rw [h1]
    exact ih w hw

theorem connectDB_ok_cached (env : Env) (w : World) (c : Nat) (h : (connectDB env w).1 = .ok c) :
    (connectDB env w).2.cachedConnection = some c := by
  unfold connectDB at h ⊢
  cases hc : w.cachedConnection with
  | some d =>
    simp only [hc] at h ⊢
    simp only [Except.ok.injEq] at h
    rw [h]
  | none =>
    simp only [hc] at h ⊢
    by_cases hu : env.mongoUp = true
    · simp only [hu, if_true, Except.ok.injEq] at h ⊢
      rw [h]
    · simp [hu] at h

theorem matchesIdRoute_length (route pathname : String)
    (h : matchesIdRoute route pathname = true) :
    pathname.data.length = route.data.length + 24 := by
  unfold matchesIdRoute at h
  simp only [Bool.and_eq_true, decide_eq_true_eq] at h
  have h2 := h.1.2
  rw [List.length_drop] at h2
  omega

theorem apiBody_parsed (L : Lib) (req : Request) (raw : String)
    (hm : req.method = "POST" ∨ req.method = "PUT") :
    apiBody L req raw = some (parsedBody L raw) := by
  unfold apiBody parsedBody
  rw [if_pos hm]
  cases L.jsonParse raw <;> rfl

theorem apiRoutes_products_create (L : Lib) (env : Env) (req : Request) (raw : String)
    (hm : req.method = "POST") (hu : req.url = "/api/products") :
    apiRoutes L env req raw = indexProductsCreate L env (some (parsedBody L raw)) := by
  funext w1
  unfold apiRoutes
  rw [apiBody_parsed L req raw (Or.inl hm), hu, hm]
  simp [apiBlocks, firstReturn]

theorem apiRoutes_login (L : Lib) (env : Env) (req : Request) (raw : String)
    (hm : req.method = "POST") (hu : req.url = "/api/auth/login") :
    apiRoutes L env req raw = indexLogin L env (some (parsedBody L raw)) := by
  funext w1
  unfold apiRoutes
  rw [apiBody_parsed L req raw (Or.inl hm), hu, hm]
  simp [apiBlocks, firstReturn, matchesIdRoute]

theorem apiRoutes_orders_create (L : Lib) (env : Env) (req : Request) (raw : String)
    (hm : req.method = "POST") (hu : req.url = "/api/orders") :
    apiRoutes L env req raw = indexOrdersCreate L env (some (parsedBody L raw)) := by
  funext w1
  unfold apiRoutes
  rw [apiBody_parsed L req raw (Or.inl hm), hu, hm]
  simp [apiBlocks, firstReturn, matchesIdRoute]

theorem apiRoutes_product_update (L : Lib) (env : Env) (req : Request) (raw : String)
    (hm : req.method = "PUT") (hu : matchesIdRoute "/api/products/" req.url = true) :
    apiRoutes L env req raw = fun w1 =>
      withObjectId (lastSegment req.url) w1
        (indexProductUpdate L env (some (parsedBody L raw)) · w1) := by
  funext w1
  have hl := matchesIdRoute_length _ _ hu
  have n1 : req.url ≠ "/api" := string_ne_of_length _ _ (by rw [hl]; decide)
  have n2 : req.url ≠ "/api/" := string_ne_of_length _ _ (by rw [hl]; decide)
  have n3 : req.url ≠ "/" := string_ne_of_length _ _ (by rw [hl]; decide)
  have n4 : req.url ≠ "/api/products" := string_ne_of_length _ _ (by rw [hl]; decide)
  have n5 : req.url ≠ "/api/products/latest" := string_ne_of_length _ _ (by rw [hl]; decide)
  unfold apiRoutes
  rw [apiBody_parsed L req raw (Or.inr hm), hm]
  simp [apiBlocks, firstReturn, n1, n2, n3, n4, n5, hu]

/-- C21: for a POST or PUT request to the router of `api/api/index.js`, the body
the routes see is the value `JSON.parse` gives for the text of the request when
it parses, and the empty object when it does not.  The answer and the final
world depend on the text only through that value and not on any body the
request carried before; on each route that reads the body (POST /api/products,
PUT /api/products/:id, POST /api/auth/login, POST /api/orders) the handler is
the clause of the route run on that value.  So, `JSON.parse` reading the text
of the empty object as the empty object, a request with a malformed body gets
the answer of the same request with that text as its body, whatever the URL. -/
theorem api_body_parsing (L : Lib) (env : Env) (req : Request) (raw : String) (w : World)
    (hm : req.method = "POST" ∨ req.method = "PUT") :
    (∀ v, L.jsonParse raw = some v → apiBody L req raw = some v) ∧
    (L.jsonParse raw = none → apiBody L req raw = some (.obj [])) ∧
    (L.jsonParse raw = none → L.jsonParse "\x7b\x7d" = some (.obj []) →
      apiHandler L env req raw w = apiHandler L env req "\x7b\x7d" w) ∧
    (∀ (req2 : Request) (raw2 : String), req2.method = req.method → req2.url = req.url →
      parsedBody L raw2 = parsedBody L raw →
      apiHandler L env req2 raw2 w = apiHandler L env req raw w) ∧
    (req.method = "POST" → req.url = "/api/products" →
      apiHandler L env req raw w =
        serve (indexProductsCreate L env (some (parsedBody L raw))) env req w) ∧
    (req.method = "PUT" → matchesIdRoute "/api/products/" req.url = true →
      apiHandler L env req raw w =
        serve (fun w1 => withObjectId (lastSegment req.url) w1
          (indexProductUpdate L env (some (parsedBody L raw)) · w1)) env req w) ∧
    (req.method = "POST" → req.url = "/api/auth/login" →
      apiHandler L env req raw w = serve (indexLogin L env (some (parsedBody L raw))) env req w) ∧
    (req.method = "POST" → req.url = "/api/orders" →
      apiHandler L env req raw w =
        serve (indexOrdersCreate L env (some (parsedBody L raw))) env req w) := by
  have hb := apiBody_parsed L req raw hm
  have hdep : ∀ (req2 : Request) (raw2 : String), req2.method = req.method → req2.url = req.url →
      parsedBody L raw2 = parsedBody L raw →
      apiHandler L env req2 raw2 w = apiHandler L env req raw w := by
    intro req2 raw2 h1 h2 h3
    have hm2 : req2.method = "POST" ∨ req2.method = "PUT" := by rw [h1]; exact hm
    have hr : apiRoutes L env req2 raw2 = apiRoutes L env req raw := by
      funext w1
      unfold apiRoutes
      rw [apiBody_parsed L req2 raw2 hm2, hb, h1, h2, h3]
    unfold apiHandler serve
    rw [hr, h1]
  refine ⟨?_, ?_, ?_, hdep, ?_, ?_, ?_, ?_⟩
  · intro v hv
    rw [hb]
    simp [parsedBody, hv]
  · intro hv
    rw [hb]
    simp [parsedBody, hv]
  · intro hbad hempty
    exact (hdep req "\x7b\x7d" rfl rfl (by simp [parsedBody, hbad, hempty])).symm
  · intro h1 h2
    unfold apiHandler
    rw [apiRoutes_products_create L env req raw h1 h2]
  · intro h1 h2
    unfold apiHandler
    rw [apiRoutes_product_update L env req raw h1 h2]
  · intro h1 h2
    unfold apiHandler
    rw [apiRoutes_login L env req raw h1 h2]
  · intro h1 h2
    unfold apiHandler
    rw [apiRoutes_orders_create L env req raw h1 h2]

set_option maxRecDepth 8000 in
theorem api_body_parsing_witness :
    apiHandler parsingLib sampleEnv ⟨"POST", "/api/products", none⟩ "\x7bname:" emptyWorld =
      apiHandler parsingLib sampleEnv ⟨"POST", "/api/products", none⟩ "\x7b\x7d" emptyWorld ∧
    apiHandler parsingLib sampleEnv ⟨"POST", "/api/products", none⟩ productText emptyWorld =
      serve (indexProductsCreate parsingLib sampleEnv (some (parsedBody parsingLib productText)))
        sampleEnv ⟨"POST", "/api/products", none⟩ emptyWorld ∧
    (apiHandler parsingLib sampleEnv ⟨"POST", "/api/products", none⟩ productText emptyWorld).1.status =
      201 ∧
    (apiHandler parsingLib sampleEnv ⟨"POST", "/api/products", none⟩ productText
      emptyWorld).2.store.products.map Product.name = [some "Hoodie"] ∧
    (apiHandler parsingLib sampleEnv ⟨"POST", "/api/products", none⟩ "\x7bname:" emptyWorld).1.status =
      500 :=
  ⟨(api_body_parsing parsingLib sampleEnv ⟨"POST", "/api/products", none⟩ "\x7bname:" emptyWorld
      (Or.inl rfl)).2.2.1 rfl rfl,
   (api_body_parsing parsingLib sampleEnv ⟨"POST", "/api/products", none⟩ productText emptyWorld
      (Or.inl rfl)).2.2.2.2.1 rfl rfl,
   by decide, by decide, by decide⟩

/-- C22 (defect): the auth handler does not remove the query string before it
splits the path.  A login with the credentials of the stored user is answered
200 on `/api/auth/login` and 404 "Route not found" on `/api/auth/login?next=1`;
a registration is answered 201 on `/api/auth/register` and 404 on
`/api/auth/register?next=1`.  The products handler, which removes the query
string, answers `/api/products?next=1` as it answers `/api/products`. -/
theorem auth_query_string_kept :
    (authHandler sampleLib sampleEnv
      ⟨"POST", "/api/auth/login", some (loginBody "ann@example.com" "pw")⟩ userWorld).1.status = 200 ∧
    (authHandler sampleLib sampleEnv
      ⟨"POST", "/api/auth/login?next=1", some (loginBody "ann@example.com" "pw")⟩ userWorld).1 =
      ⟨404, .message "Route not found"⟩ ∧
    (authHandler sampleLib sampleEnv
      ⟨"POST", "/api/auth/register", some (registerBody "Bob" "bob@example.com" "secret1")⟩
      userWorld).1.status = 201 ∧
    (authHandler sampleLib sampleEnv
      ⟨"POST", "/api/auth/register?next=1", some (registerBody "Bob" "bob@example.com" "secret1")⟩
      userWorld).1 = ⟨404, .message "Route not found"⟩ ∧
    (productsHandler sampleLib sampleEnv ⟨"GET", "/api/products?next=1", none⟩ sampleWorld).1 =
      (productsHandler sampleLib sampleEnv ⟨"GET", "/api/products", none⟩ sampleWorld).1 := by
  decide

/-- C23: once a call of `connectDB` has returned the connection `c`, every
later call, after any number of further calls and whether or not the store can
still be reached, returns `c` and leaves the connection cache and the count of
`mongoose.connect` invocations as the first successful call left them. -/
theorem connectDB_idempotent (env : Env) (w : World) (c : Nat)
    (h : (connectDB env w).1 = .ok c) (later : List Env) (env2 : Env) :
    connectDB env2 (connectAll later (connectDB env w).2) = (.ok c, (connectDB env w).2) := by
  have hc := connectDB_ok_cached env w c h
  rw [connectAll_cached c later _ hc]
  exact connectDB_of_cached env2 _ c hc

theorem connectDB_idempotent_witness :
    connectDB downEnv (connectAll [downEnv, sampleEnv, downEnv] (connectDB sampleEnv emptyWorld).2) =
      (.ok 1, (connectDB sampleEnv emptyWorld).2) ∧
    (connectDB sampleEnv emptyWorld).2.connectCalls = 1 :=
  ⟨connectDB_idempotent sampleEnv emptyWorld 1 rfl [downEnv, sampleEnv, downEnv] downEnv,
    by decide⟩

/-- C24 (as stated, refuted): the health check has a failure response.  With no
cached connection and a store that cannot be reached, `api/health.js` answers
500 with status "ERROR", and `/api/health` of `api/index.js` answers 500. -/
theorem health_unreachable_counterexample :
    (healthHandler none downEnv ⟨"GET", "/api/health", none⟩ emptyWorld).1 =
      ⟨500, .healthError "ERROR" "Server error" .connection 1000⟩ ∧
    (indexHandler sampleLib downEnv ⟨"GET", "/api/health", none⟩ emptyWorld).1 =
      ⟨500, .serverError .connection⟩ := by
  decide

/-- C24 (amended): for a request other than a preflight, when `connectDB`
succeeds (a connection is cached or the store can be reached) the health check
of `api/health.js`, and that of `api/index.js` on the pathname `/api/health`,
answers 200 with status "OK" and with mongodb "Connected" when `readyState` is
1 and "Disconnected" otherwise; when `connectDB` fails, `api/health.js` answers
500 with status "ERROR" and `api/index.js` answers 500.  The store is left as
it was. -/
theorem health_report (L : Lib) (nodeEnv : Option String) (env : Env) (req : Request) (w : World)
    (hm : req.method ≠ "OPTIONS") :
    (Connects env w →
      (healthHandler nodeEnv env req w).1 =
        ⟨200, .healthReport "OK" "API is running"
          (if env.readyState = 1 then "Connected" else "Disconnected") env.now
          (environmentName nodeEnv)⟩ ∧
      (pathnameOf L req.url = some "/api/health" →
        (indexHandler L env req w).1 =
          ⟨200, .health "API is running"
            (if env.readyState = 1 then "Connected" else "Disconnected") env.now⟩)) ∧
    (¬ Connects env w →
      (healthHandler nodeEnv env req w).1 =
        ⟨500, .healthError "ERROR" "Server error" .connection env.now⟩ ∧
      (indexHandler L env req w).1 = ⟨500, .serverError .connection⟩) ∧
    (healthHandler nodeEnv env req w).2.store = w.store := by
  refine ⟨?_, ?_, ?_⟩
  · intro hconn
    obtain ⟨c, hc⟩ := connectDB_ok env w hconn
    constructor
    · unfold healthHandler
      rw [if_neg hm]
      rcases hcd : connectDB env w with ⟨r, w1⟩
      rw [hcd] at hc
      simp only at hc
      subst hc
      rfl
    · intro hp
      unfold indexHandler
      rw [serve_connected _ env req w hconn hm]
      unfold indexRoutes
      rw [hp]
      simp [indexBlocks, firstReturn, matchesIdRoute, matchesToggleRoute, matchesCategoryRoute,
        indexHealth, Response.json]
  · intro hconn
    have hcd : connectDB env w = (.error .connection, { w with connectCalls := w.connectCalls + 1 }) := by
      unfold Connects at hconn
      unfold connectDB
      cases hc : w.cachedConnection with
      | some c => simp [hc] at hconn
      | none =>
        have hu : ¬ env.mongoUp = true := fun h => hconn (Or.inr h)
        simp [hu]
    constructor
    · unfold healthHandler
      rw [if_neg hm, hcd]
    · unfold indexHandler serve
      rw [if_neg hm, hcd]
  · unfold healthHandler
    rw [if_neg hm]
    have hst := connectDB_store env w
    rcases hcd : connectDB env w with ⟨r, w1⟩
    rw [hcd] at hst
    cases r with
    | error e => exact hst
    | ok c => exact hst

theorem health_report_witness :
    (healthHandler none sampleEnv ⟨"GET", "/api/health", none⟩ emptyWorld).1 =
      ⟨200, .healthReport "OK" "API is running" "Connected" 1000 "development"⟩ ∧
    (healthHandler none downEnv ⟨"GET", "/api/health", none⟩ (connectDB sampleEnv emptyWorld).2).1 =
      ⟨200, .healthReport "OK" "API is running" "Disconnected" 1000 "development"⟩ :=
  ⟨((health_report sampleLib none sampleEnv ⟨"GET", "/api/health", none⟩ emptyWorld (by decide)).1
      (Or.inr rfl)).1,
   ((health_report sampleLib none downEnv ⟨"GET", "/api/health", none⟩
      (connectDB sampleEnv emptyWorld).2 (by decide)).1 (Or.inl rfl)).1⟩

/-- C25 (defect): the products handler of `api/products.js` verifies no token;
it reads the method, the URL and the body of a request and nothing else.  A
DELETE that carries no credentials removes the sample product, a PUT toggle and
a PUT change it, and a POST adds a product. -/
theorem products_write_without_token :
    (productsHandler sampleLib sampleEnv ⟨"DELETE", samplePath, none⟩ sampleWorld).1 =
      .json (.message "Product deleted successfully") ∧
    (productsHandler sampleLib sampleEnv ⟨"DELETE", samplePath, none⟩ sampleWorld).2.store.products = [] ∧
    (productsHandler sampleLib sampleEnv ⟨"PUT", samplePath ++ "/toggle", none⟩
      sampleWorld).2.store.products ≠ sampleWorld.store.products ∧
    (productsHandler sampleLib sampleEnv ⟨"PUT", samplePath, some renameBody⟩
      sampleWorld).2.store.products ≠ sampleWorld.store.products ∧
    (productsHandler sampleLib sampleEnv ⟨"POST", "/api/products", some sampleProductBody⟩
      sampleWorld).2.store.products.length = 2 := by
  decide

/-- C26 (defect): the model of `backend/models/Product.js` restricts `category`
to seven values, none of which is a category of the sample products of
`backend/test-local.js`.  Whatever the library, the clock and the store, the
first `save` of the script fails validation, the `catch` block runs, no count
is logged and the collection is left empty.  With the categories replaced by
values of the enum the same run logs three products. -/
theorem test_local_rejects_samples (L : Lib) (gen : Nat → Env) (s : Store) :
    testLocal L gen testLocalProducts s = (none, { s with products := [] }) ∧
    (testLocal sampleLib sampleGen enumProducts sampleWorld.store).1 = some 3 := by
  constructor
  · simp [testLocal, testLocalProducts, saveEach, saveNewExpressProduct, newExpressProduct,
      expressProductFailures, productCategories]
  · decide

/-- The list after `replaceById` on the identifier of a stored document: the
same list with that document, the first of its identifier, replaced. -/
theorem replaceById_split (oid : ObjectId) (q : Product) (hq : q._id = oid) :
    ∀ (ps : List Product) (p : Product), findById oid ps = some p →
      ∃ pre post, ps = pre ++ p :: post ∧ (∀ x ∈ pre, x._id ≠ oid) ∧
        replaceById q ps = pre ++ q :: post
  | [], p, h => by simp [findById] at h
  | r :: rs, p, h => by
    by_cases hr : r._id = oid
    · have hp : r = p := by simpa [findById, List.find?_cons, hr] using h
      subst hp
      exact ⟨[], rs, rfl, by simp, by simp [replaceById, hr, hq]⟩
    · have h1 : findById oid rs = some p := by
        simpa [findById, List.find?_cons, hr] using h
      obtain ⟨pre, post, h2, h3, h4⟩ := replaceById_split oid q hq rs p h1
      refine ⟨r :: pre, post, by simp [h2], ?_, ?_⟩
      · intro x hx
        rcases List.mem_cons.mp hx with hx | hx
        · rw [hx]; exact hr
        · exact h3 x hx
      · simp only [replaceById, hq, hr, if_false, h4, List.cons_append]

theorem productsToggle_ok (env : Env) (seg : String) (oid : ObjectId) (p : Product) (w w2 : World)
    (r : Response) (hid : castObjectId seg = some oid)
    (hfind : findById oid w.store.products = some p)
    (h : productsToggle env seg w = (.ok r, w2)) :
    w2.store = { w.store with products := replaceById (toggled env.now p) w.store.products } := by
  unfold productsToggle at h
  simp only [hid, hfind] at h
  unfold saveProduct at h
  by_cases hv : productFailures ({ p with isAvailable := !p.isAvailable } : Product) ≠ []
  · rw [if_pos hv] at h
    simp at h
  · rw [if_neg hv] at h
    simp only [Prod.mk.injEq] at h
    rw [← h.2]
    rfl

/-- C27: when `p` is the stored product of the identifier in the path, a toggle
answered 200, by the products handler of `api/products.js` and by the Express
route, leaves a store that differs from the one before only at the place of
`p`, where `p` stands with `isAvailable` negated and `updatedAt` set to the
clock (the product `toggled env.now p`): the products before and after `p` are
the same, in the same order, and so are the users and the orders. -/
theorem toggle_frame (L : Lib) (env : Env) (req : Request) (seg : String) (oid : ObjectId)
    (p : Product) (w : World)
    (hid : castObjectId seg = some oid) (hfind : findById oid w.store.products = some p) :
    (req.method = "PUT" → pathParts "/api/products" req.url = [seg, "toggle"] →
      (productsHandler L env req w).1.status = 200 →
      ∃ pre post, w.store.products = pre ++ p :: post ∧ (∀ x ∈ pre, x._id ≠ oid) ∧
        (productsHandler L env req w).2.store =
          { w.store with products := pre ++ toggled env.now p :: post }) ∧
    ((expressToggle env seg w.store).1.status = 200 →
      ∃ pre post, w.store.products = pre ++ p :: post ∧ (∀ x ∈ pre, x._id ≠ oid) ∧
        (expressToggle env seg w.store).2 =
          { w.store with products := pre ++ toggled env.now p :: post }) := by
  have hq : (toggled env.now p)._id = oid := by
    show p._id = oid
    exact findById_id hfind
  obtain ⟨pre, post, h1, h2, h3⟩ := replaceById_split oid (toggled env.now p) hq _ p hfind
  constructor
  · intro hm hp hs
    have hne : req.method ≠ "OPTIONS" := by rw [hm]; decide
    have ha := serve_answer (productsRoutes L env req) env req w hne
      (by show (productsHandler L env req w).1.status ≠ 500; rw [hs]; decide)
    rw [productsRoutes_toggle L env req seg _ hm hp] at ha
    have hf : findById oid (connectDB env w).2.store.products = some p := by
      rw [connectDB_store]; exact hfind
    have := productsToggle_ok env seg oid p _ _ _ hid hf ha
    rw [connectDB_store] at this
    refine ⟨pre, post, h1, h2, ?_⟩
    show (serve (productsRoutes L env req) env req w).2.store = _
    rw [this, h3]
  · intro hs
    refine ⟨pre, post, h1, h2, ?_⟩
    unfold expressToggle at hs ⊢
    simp only [hid, hfind] at hs ⊢
    unfold saveExpressProduct at hs ⊢
    by_cases hv : [] ++ expressProductFailures ({ p with isAvailable := !p.isAvailable } : Product) ≠ []
    · rw [if_pos hv] at hs
      simp at hs
    · rw [if_neg hv]
      simp only
      rw [← h3]
      rfl

theorem toggle_frame_witness :
    ∃ pre post, sampleWorld.store.products = pre ++ sampleProduct :: post ∧
      (∀ x ∈ pre, x._id ≠ sampleId 11) ∧
      (productsHandler sampleLib sampleEnv ⟨"PUT", samplePath ++ "/toggle", none⟩ sampleWorld).2.store =
        { sampleWorld.store with products := pre ++ toggled sampleEnv.now sampleProduct :: post } :=
  (toggle_frame sampleLib sampleEnv ⟨"PUT", samplePath ++ "/toggle", none⟩ "bbbbbbbbbbbbbbbbbbbbbbbb"
    (sampleId 11) sampleProduct sampleWorld (by decide) (by decide)).1 rfl (by decide) (by decide)

/-- C28 (defect): the slug of a category does not lead back to its products
when the category name holds a hyphen.  For the stored product of category
"t-shirt" the listing of `api/index.js` reports the slug "t-shirt"; the
products route turns that slug into the pattern "t shirt", which the category
"t-shirt" does not match, and returns the empty list. -/
theorem category_slug_round_trip_fails :
    (indexHandler sampleLib sampleEnv ⟨"GET", "/api/categories", none⟩ shopWorld).1 =
      .json (.categories [("cap", "cap"), ("t-shirt", "t-shirt")]) ∧
    (indexHandler sampleLib sampleEnv ⟨"GET", "/api/categories/t-shirt/products", none⟩ shopWorld).1 =
      .json (.products []) ∧
    shirtProduct ∈ shopWorld.store.products ∧ shirtProduct.category = some "t-shirt" := by
  decide

theorem destructure_field (body : Option JVal) (f : String → Option JVal)
    (h : destructure body = .ok f) (k : String) : f k = bodyField body k := by
  cases body with
  | none => simp [destructure] at h
  | some v =>
    cases v <;> simp [destructure] at h <;> subst h <;> rfl

/-- The Boolean cast of `isAdmin || false`, when it succeeds, gives true exactly
on the values that convert to true. -/
theorem castBoolean_admin (v : Option JVal) (ob : Option Bool)
    (h : castBoolean ((jsOr v (some (.bool false))).getD (.bool false)) = .ok ob) :
    ob.getD false = true ↔ ConvertsToTrue v := by
  unfold ConvertsToTrue
  cases v with
  | none =>
    simp [jsOr, truthy, castBoolean] at h
    subst h
    simp
  | some x =>
    cases x with
    | null =>
      simp [jsOr, truthy, castBoolean] at h
      subst h
      simp
    | bool b =>
      cases b <;> simp [jsOr, truthy, castBoolean] at h <;> subst h <;> simp
    | num n =>
      cases n with
      | nan =>
        simp [jsOr, truthy, castBoolean] at h
        subst h
        simp
      | fin q =>
        by_cases h0 : q = 0
        · subst h0
          simp [jsOr, truthy, castBoolean] at h
          subst h
          simp
        · by_cases h1 : q = 1
          · subst h1
            simp [jsOr, truthy, castBoolean] at h
            subst h
            simp
          · simp [jsOr, truthy, castBoolean, h0, h1] at h
    | str s =>
      by_cases he : s = ""
      · subst he
        simp [jsOr, truthy, castBoolean] at h
        subst h
        simp
      · by_cases ht : s = "true" ∨ s = "1" ∨ s = "yes"
        · simp [jsOr, truthy, castBoolean, he, ht] at h
          subst h
          rcases ht with ht | ht | ht <;> simp [ht]
        · by_cases hf : s = "false" ∨ s = "0" ∨ s = "no"
          · simp [jsOr, truthy, castBoolean, he, ht, hf] at h
            subst h
            rcases hf with hf | hf | hf <;> subst hf <;> simp
          · simp [jsOr, truthy, castBoolean, he, ht, hf] at h
    | arr xs => simp [jsOr, truthy, castBoolean] at h
    | obj fs => simp [jsOr, truthy, castBoolean] at h

/-- The outcomes of the registration clause: the world is left as it was and an
answer, if any, is 400; or the new user has passed validation and has been
stored, and the answer is that of the token step. -/
theorem authRegister_cases (L : Lib) (env : Env) (body : Option JVal) (w : World) :
    ((authRegister L env body w).2 = w ∧
      ∀ r, (authRegister L env body w).1 = .ok r → r.status = 400) ∨
    ∃ f pw, destructure body = .ok f ∧
      (newUser L env f (L.bcryptHash pw env.salt)).2 = [] ∧
      authRegister L env body w =
        (.ok (sessionResponse env 201 (newUser L env f (L.bcryptHash pw env.salt)).1),
          { w with store := { w.store with users :=
              w.store.users ++ [(newUser L env f (L.bcryptHash pw env.salt)).1] } }) := by
  unfold authRegister
  cases hd : destructure body with
  | error e => left; exact ⟨rfl, by simp⟩
  | ok f =>
    simp only
    by_cases hchk : (!truthy (f "name") || !truthy (f "email") || !truthy (f "password")) = true
    · rw [if_pos hchk]; left; exact ⟨rfl, by simp⟩
    · rw [if_neg hchk]
      cases hfu : findUserByEmail L ((f "email").getD .null) w.store.users with
      | error e => left; exact ⟨rfl, by simp⟩
      | ok ou =>
        cases ou with
        | some user => left; exact ⟨rfl, by simp⟩
        | none =>
          simp only
          cases hpw : (f "password").getD .null with
          | str pw =>
            simp only
            unfold saveNewUser
            by_cases hfail : (newUser L env f (L.bcryptHash pw env.salt)).2 ≠ []
            · rw [if_pos hfail]; left; exact ⟨rfl, by simp⟩
            · rw [if_neg hfail]
              by_cases hdup : (w.store.users.find? (fun v =>
                  v._id = (newUser L env f (L.bcryptHash pw env.salt)).1._id ∨
                  v.email = (newUser L env f (L.bcryptHash pw env.salt)).1.email)).isSome = true
              · rw [if_pos hdup]; left; exact ⟨rfl, by simp⟩
              · rw [if_neg hdup]
                right
                exact ⟨f, pw, rfl, not_not.mp hfail, rfl⟩
          | null => left; exact ⟨rfl, by simp⟩
          | bool b => left; exact ⟨rfl, by simp⟩
          | num n => left; exact ⟨rfl, by simp⟩
          | arr xs => left; exact ⟨rfl, by simp⟩
          | obj gs => left; exact ⟨rfl, by simp⟩

theorem newUser_isAdmin (L : Lib) (env : Env) (f : String → Option JVal) (hashed : String)
    (h : (newUser L env f hashed).2 = []) :
    ((newUser L env f hashed).1.isAdmin = true ↔ ConvertsToTrue (f "isAdmin")) := by
  unfold newUser at h ⊢
  simp only at h ⊢
  cases hc : castBoolean ((jsOr (f "isAdmin") (some (.bool false))).getD (.bool false)) with
  | error e =>
    rw [hc] at h
    simp [castFailure] at h
  | ok ob =>
    simp only [castValue]
    exact castBoolean_admin (f "isAdmin") ob hc

/-- The outcomes of a registration request: the store is left as it was and the
answer is 400 or 500, or the new user has been stored and the answer is that of
the token step. -/
theorem authHandler_register_cases (L : Lib) (env : Env) (req : Request) (w : World)
    (hm : req.method = "POST") (hr : (authPathParts req.url).head? = some "register") :
    ((authHandler L env req w).2.store = w.store ∧
      ((authHandler L env req w).1.status = 400 ∨ (authHandler L env req w).1.status = 500)) ∨
    ∃ f pw, destructure req.body = .ok f ∧
      (newUser L env f (L.bcryptHash pw env.salt)).2 = [] ∧
      (authHandler L env req w).1 =
        sessionResponse env 201 (newUser L env f (L.bcryptHash pw env.salt)).1 ∧
      (authHandler L env req w).2.store = { w.store with users :=
        w.store.users ++ [(newUser L env f (L.bcryptHash pw env.salt)).1] } := by
  have hne : req.method ≠ "OPTIONS" := by rw [hm]; decide
  unfold authHandler serve
  rw [if_neg hne]
  have hst := connectDB_store env w
  rcases hc : connectDB env w with ⟨c, w1⟩
  rw [hc] at hst
  simp only at hst
  cases c with
  | error e => left; exact ⟨hst, Or.inr rfl⟩
  | ok n =>
    simp only
    rw [authRoutes_register L env req _ hm hr]
    rcases authRegister_cases L env req.body w1 with ⟨h1, h2⟩ | ⟨f, pw, hd, hv, h⟩
    · left
      rcases hreg : authRegister L env req.body w1 with ⟨x, w2⟩
      rw [hreg] at h1 h2
      simp only at h1 h2
      subst h1
      cases x with
      | error e => exact ⟨hst, Or.inr rfl⟩
      | ok r => exact ⟨hst, Or.inl (h2 r rfl)⟩
    · right
      refine ⟨f, pw, hd, hv, ?_⟩
      rw [h, hst]
      exact ⟨rfl, rfl⟩

/-- C29 (as stated, refuted): a truthy `isAdmin` need not store an admin.  The
string "false" is truthy, the registration carrying it is answered 201, and the
user is stored with `isAdmin = false`, the Boolean cast of the schema
converting that string to false. -/
theorem register_truthy_flag_counterexample :
    truthy (some (.str "false")) = true ∧
    (authHandler sampleLib sampleEnv
      ⟨"POST", "/api/auth/register", some (registerAdminBody (.str "false"))⟩ emptyWorld).1.status = 201 ∧
    (authHandler sampleLib sampleEnv
      ⟨"POST", "/api/auth/register", some (registerAdminBody (.str "false"))⟩
      emptyWorld).2.store.users.map User.isAdmin = [false] := by
  decide

theorem destructure_of_field (body : Option JVal) (k : String) (x : JVal)
    (h : bodyField body k = some x) :
    ∃ f, destructure body = .ok f ∧ ∀ j, f j = bodyField body j := by
  cases body with
  | none => simp [bodyField] at h
  | some v =>
    cases v with
    | null => simp [bodyField, getProp] at h
    | bool b => exact ⟨_, rfl, fun _ => rfl⟩
    | num n => exact ⟨_, rfl, fun _ => rfl⟩
    | str s => exact ⟨_, rfl, fun _ => rfl⟩
    | arr xs => exact ⟨_, rfl, fun _ => rfl⟩
    | obj fs => exact ⟨_, rfl, fun _ => rfl⟩

theorem castBoolean_rejected (v : Option JVal) (h : RejectedFlag v) :
    ∃ e, castBoolean ((jsOr v (some (.bool false))).getD (.bool false)) = .error e := by
  obtain ⟨ht, hnt, hf1, hf2, hf3⟩ := h
  unfold ConvertsToTrue at hnt
  cases v with
  | none => simp [truthy] at ht
  | some x =>
    cases x with
    | null => simp [truthy] at ht
    | bool b =>
      cases b
      · simp [truthy] at ht
      · simp at hnt
    | num n =>
      cases n with
      | nan => simp [truthy] at ht
      | fin q =>
        have h0 : q ≠ 0 := by simpa [truthy] using ht
        have h1 : q ≠ 1 := by
          intro h1
          subst h1
          simp at hnt
        exact ⟨.castError "Boolean", by simp [jsOr, truthy, castBoolean, h0, h1]⟩
    | str s =>
      have he : s ≠ "" := by simpa [truthy] using ht
      have h1 : ¬ (s = "true" ∨ s = "1" ∨ s = "yes") := by
        rintro (h | h | h) <;> subst h <;> simp at hnt
      have h2 : ¬ (s = "false" ∨ s = "0" ∨ s = "no") := by
        rintro (h | h | h) <;> subst h
        · exact hf1 rfl
        · exact hf2 rfl
        · exact hf3 rfl
      exact ⟨.castError "Boolean", by simp [jsOr, truthy, castBoolean, he, h1, h2]⟩
    | arr xs => exact ⟨.castError "Boolean", by simp [jsOr, truthy, castBoolean]⟩
    | obj fs => exact ⟨.castError "Boolean", by simp [jsOr, truthy, castBoolean]⟩

theorem newUser_rejected (L : Lib) (env : Env) (f : String → Option JVal) (hashed : String)
    (h : RejectedFlag (f "isAdmin")) : "isAdmin" ∈ (newUser L env f hashed).2 := by
  obtain ⟨e, he⟩ := castBoolean_rejected _ h
  unfold newUser
  simp only [he, castFailure]
  simp

/-- C29 (amended): a registration answered 201 has stored one new user `u` and
answers with a token `t` and the public projection of `u`; the flag in the
token is the stored flag, and the stored flag is true exactly when the
`isAdmin` field of the body is one of `true`, `'true'`, `1`, `'1'`, `'yes'`.
A truthy `isAdmin` outside the two conversion sets of the Boolean cast creates
no user: the store is left as it was and the answer is 400 or 500; it is 500,
a validation error naming `isAdmin`, when the store can be reached, name, email
and password are non-empty strings and the email is not in use. -/
theorem register_admin_flag (L : Lib) (env : Env) (w : World) (req : Request)
    (hm : req.method = "POST") (hr : (authPathParts req.url).head? = some "register") :
    ((authHandler L env req w).1.status = 201 →
      ∃ u t, (authHandler L env req w).2.store.users = w.store.users ++ [u] ∧
        (authHandler L env req w).1.body = .session t (publicUser u) ∧
        t.isAdmin = u.isAdmin ∧
        (u.isAdmin = true ↔ ConvertsToTrue (bodyField req.body "isAdmin"))) ∧
    (RejectedFlag (bodyField req.body "isAdmin") →
      (authHandler L env req w).2.store = w.store ∧
      ((authHandler L env req w).1.status = 400 ∨ (authHandler L env req w).1.status = 500)) ∧
    (RejectedFlag (bodyField req.body "isAdmin") → Connects env w →
      ∀ nm e pw : String, bodyField req.body "name" = some (.str nm) → nm ≠ "" →
        bodyField req.body "email" = some (.str e) → e ≠ "" →
        bodyField req.body "password" = some (.str pw) → pw ≠ "" →
        w.store.users.find? (fun v => v.email = e) = none →
        ∃ paths, "isAdmin" ∈ paths ∧
          (authHandler L env req w).1 = ⟨500, .serverError (.validationError paths)⟩) := by
  have hne : req.method ≠ "OPTIONS" := by rw [hm]; decide
  refine ⟨?_, ?_, ?_⟩
  · intro hs
    rcases authHandler_register_cases L env req w hm hr with ⟨_, h | h⟩ | ⟨f, pw, hd, hv, h1, h2⟩
    · rw [h] at hs; exact absurd hs (by decide)
    · rw [h] at hs; exact absurd hs (by decide)
    · rw [h1] at hs ⊢
      unfold sessionResponse jwtSign at hs ⊢
      cases hk : env.jwtSecret with
      | none => simp [hk] at hs
      | some key =>
        refine ⟨(newUser L env f (L.bcryptHash pw env.salt)).1, _, by rw [h2], rfl, rfl, ?_⟩
        rw [← destructure_field req.body f hd "isAdmin"]
        exact newUser_isAdmin L env f _ hv
  · intro hrej
    rcases authHandler_register_cases L env req w hm hr with h | ⟨f, pw, hd, hv, _, _⟩
    · exact h
    · rw [← destructure_field req.body f hd "isAdmin"] at hrej
      have := newUser_rejected L env f (L.bcryptHash pw env.salt) hrej
      rw [hv] at this
      simp at this
  · intro hrej hconn nm e pw hn hn0 he he0 hp hp0 hu
    obtain ⟨f, hd, hf⟩ := destructure_of_field req.body "name" _ hn
    have hu1 : (connectDB env w).2.store.users.find? (fun v => v.email = e) = none := by
      rw [connectDB_store]; exact hu
    rw [← hf] at hrej hn he hp
    refine ⟨(newUser L env f (L.bcryptHash pw env.salt)).2, newUser_rejected L env f _ hrej, ?_⟩
    have hfail : (newUser L env f (L.bcryptHash pw env.salt)).2 ≠ [] :=
      List.ne_nil_of_mem (newUser_rejected L env f _ hrej)
    unfold authHandler
    rw [serve_connected _ env req w hconn hne, authRoutes_register L env req _ hm hr]
    unfold authRegister
    simp only [hd, hn, he, hp, truthy, Option.getD, findUserByEmail, hu1, saveNewUser]
    simp [hn0, he0, hp0, hfail]

theorem register_admin_flag_witness :
    (∃ u t, (authHandler sampleLib sampleEnv
        ⟨"POST", "/api/auth/register", some (registerAdminBody (.str "yes"))⟩ emptyWorld).2.store.users =
        emptyWorld.store.users ++ [u] ∧
      (authHandler sampleLib sampleEnv
        ⟨"POST", "/api/auth/register", some (registerAdminBody (.str "yes"))⟩ emptyWorld).1.body =
        .session t (publicUser u) ∧
      t.isAdmin = u.isAdmin ∧
      (u.isAdmin = true ↔ ConvertsToTrue (bodyField (some (registerAdminBody (.str "yes"))) "isAdmin"))) ∧
    ((authHandler sampleLib sampleEnv
        ⟨"POST", "/api/auth/register", some (registerAdminBody (.str "banana"))⟩ emptyWorld).2.store =
        emptyWorld.store ∧
      ((authHandler sampleLib sampleEnv
          ⟨"POST", "/api/auth/register", some (registerAdminBody (.str "banana"))⟩
          emptyWorld).1.status = 400 ∨
        (authHandler sampleLib sampleEnv
          ⟨"POST", "/api/auth/register", some (registerAdminBody (.str "banana"))⟩
          emptyWorld).1.status = 500)) ∧
    (∃ paths, "isAdmin" ∈ paths ∧
      (authHandler sampleLib sampleEnv
        ⟨"POST", "/api/auth/register", some (registerAdminBody (.str "banana"))⟩ emptyWorld).1 =
        ⟨500, .serverError (.validationError paths)⟩) :=
  ⟨(register_admin_flag sampleLib sampleEnv emptyWorld
      ⟨"POST", "/api/auth/register", some (registerAdminBody (.str "yes"))⟩ rfl (by decide)).1
      (by decide),
   (register_admin_flag sampleLib sampleEnv emptyWorld
      ⟨"POST", "/api/auth/register", some (registerAdminBody (.str "banana"))⟩ rfl (by decide)).2.1
      ⟨rfl, by simp [ConvertsToTrue, bodyField, registerAdminBody, getProp, lookupField],
        by simp [bodyField, registerAdminBody, getProp, lookupField],
        by simp [bodyField, registerAdminBody, getProp, lookupField],
        by simp [bodyField, registerAdminBody, getProp, lookupField]⟩,
   (register_admin_flag sampleLib sampleEnv emptyWorld
      ⟨"POST", "/api/auth/register", some (registerAdminBody (.str "banana"))⟩ rfl (by decide)).2.2
      ⟨rfl, by simp [ConvertsToTrue, bodyField, registerAdminBody, getProp, lookupField],
        by simp [bodyField, registerAdminBody, getProp, lookupField],
        by simp [bodyField, registerAdminBody, getProp, lookupField],
        by simp [bodyField, registerAdminBody, getProp, lookupField]⟩
      (Or.inr rfl) "Bob" "bob@example.com" "secret1" rfl (by decide) rfl (by decide) rfl
      (by decide) (by decide)⟩

/-- C30 (as stated, refuted): without a signing secret a registration is
answered 500 "Token generation failed" after the user has been stored. -/
theorem register_unsigned_counterexample :
    (authHandler sampleLib noSecretEnv
      ⟨"POST", "/api/auth/register", some (registerBody "Bob" "bob@example.com" "secret1")⟩
      emptyWorld).1 = ⟨500, .message "Token generation failed"⟩ ∧
    (authHandler sampleLib noSecretEnv
      ⟨"POST", "/api/auth/register", some (registerBody "Bob" "bob@example.com" "secret1")⟩
      emptyWorld).2.store.users.map User.email = ["bob@example.com"] := by
  decide

/-- C30 (amended): a registration request answered with a status other than 201
leaves the store as it was, except when the signing secret is absent and the
answer is 500 "Token generation failed": then the new user has been stored. -/
theorem register_failure_store (L : Lib) (env : Env) (w : World) (req : Request)
    (hm : req.method = "POST") (hr : (authPathParts req.url).head? = some "register")
    (hs : (authHandler L env req w).1.status ≠ 201) :
    (authHandler L env req w).2.store = w.store ∨
    (env.jwtSecret = none ∧
      (authHandler L env req w).1 = ⟨500, .message "Token generation failed"⟩ ∧
      ∃ u, (authHandler L env req w).2.store = { w.store with users := w.store.users ++ [u] }) := by
  rcases authHandler_register_cases L env req w hm hr with ⟨h, _⟩ | ⟨f, pw, _, _, h1, h2⟩
  · exact Or.inl h
  · right
    rw [h1] at hs ⊢
    unfold sessionResponse jwtSign at hs ⊢
    cases hk : env.jwtSecret with
    | none => exact ⟨rfl, rfl, _, h2⟩
    | some key => simp [hk] at hs

theorem register_failure_store_witness :
    (authHandler sampleLib sampleEnv
      ⟨"POST", "/api/auth/register", some (registerBody "Bob" "ann@example.com" "secret1")⟩
      userWorld).2.store = userWorld.store ∨
    (sampleEnv.jwtSecret = none ∧
      (authHandler sampleLib sampleEnv
        ⟨"POST", "/api/auth/register", some (registerBody "Bob" "ann@example.com" "secret1")⟩
        userWorld).1 = ⟨500, .message "Token generation failed"⟩ ∧
      ∃ u, (authHandler sampleLib sampleEnv
        ⟨"POST", "/api/auth/register", some (registerBody "Bob" "ann@example.com" "secret1")⟩
        userWorld).2.store = { userWorld.store with users := userWorld.store.users ++ [u] }) :=
  register_failure_store sampleLib sampleEnv userWorld
    ⟨"POST", "/api/auth/register", some (registerBody "Bob" "ann@example.com" "secret1")⟩
    rfl (by decide) (by decide)

theorem truthy_some (v : Option JVal) (h : truthy v = true) : ∃ x, v = some x := by
  cases v with
  | none => simp [truthy] at h
  | some x => exact ⟨x, rfl⟩

theorem authLogin_found (L : Lib) (env : Env) (body : Option JVal)
    (w : World) (r : Response) (h : (authLogin L env body w).1 = .ok r) (hs : r.status = 200) :
    ∃ v u key, bodyField body "email" = some v ∧
      findUserByEmail L v w.store.users = .ok (some u) ∧
      env.jwtSecret = some key ∧ r.body = sessionBody env.now key u := by
  unfold authLogin at h
  cases hd : destructure body with
  | error e => simp [hd] at h
  | ok f =>
    simp only [hd] at h
    by_cases hchk : (!truthy (f "email") || !truthy (f "password")) = true
    · rw [if_pos hchk] at h
      simp at h; subst h; simp at hs
    · rw [if_neg hchk] at h
      have hte : truthy (f "email") = true := by
        cases ht : truthy (f "email") with
        | true => rfl
        | false => simp [ht] at hchk
      obtain ⟨v, hv⟩ := truthy_some _ hte
      rw [hv] at h
      simp only [Option.getD_some] at h
      cases hfu : findUserByEmail L v w.store.users with
      | error e => simp [hfu] at h
      | ok ou =>
        simp only [hfu] at h
        cases ou with
        | none => simp at h; subst h; simp at hs
        | some user =>
          simp only at h
          cases hbc : bcryptCompare L ((f "password").getD .null) user.password with
          | error e => simp [hbc] at h
          | ok b =>
            simp only [hbc] at h
            cases b with
            | false => simp at h; subst h; simp at hs
            | true =>
              simp only [Except.ok.injEq] at h
              subst h
              obtain ⟨key, hk, hbody⟩ := sessionResponse_success env 200 user (by decide) hs
              refine ⟨v, user, key, ?_, hfu, hk, hbody⟩
              rw [← destructure_field body f hd "email", hv]

theorem indexLogin_found (L : Lib) (env : Env) (body : Option JVal)
    (w : World) (r : Response) (h : (indexLogin L env body w).1 = .ok r) (hs : r.status = 200) :
    ∃ u key, indexUserQuery L (bodyField body "email") w.store.users = .ok (some u) ∧
      env.jwtSecret = some key ∧ r.body = sessionBody env.now key u := by
  unfold indexLogin at h
  cases hd : destructure body with
  | error e => simp [hd] at h
  | ok f =>
    simp only [hd] at h
    cases hem : f "email" with
    | none =>
      simp only [hem] at h
      cases hfu : L.findUserNoEmail w.store.users with
      | error e => simp [hfu] at h
      | ok ou =>
        simp only [hfu] at h
        cases ou with
        | none => simp at h; subst h; simp at hs
        | some user =>
          simp only at h
          have hqu : indexUserQuery L (bodyField body "email") w.store.users = .ok (some user) := by
            rw [← destructure_field body f hd "email", hem]
            exact hfu
          cases hbc : bcryptCompare L ((f "password").getD .null) user.password with
          | error e => simp [hbc] at h
          | ok b =>
            simp only [hbc] at h
            cases b with
            | false => simp at h; subst h; simp at hs
            | true =>
              simp only at h
              unfold jwtSign at h
              cases hk : env.jwtSecret with
              | none => simp [hk] at h
              | some key =>
                simp only [hk, Except.ok.injEq] at h
                subst h
                exact ⟨user, key, hqu, rfl, by simp [Response.json, sessionBody, publicUser]⟩
    | some x =>
      simp only [hem] at h
      cases hfu : findUserByEmail L x w.store.users with
      | error e => simp [hfu] at h
      | ok ou =>
        simp only [hfu] at h
        cases ou with
        | none => simp at h; subst h; simp at hs
        | some user =>
          simp only at h
          have hqu : indexUserQuery L (bodyField body "email") w.store.users = .ok (some user) := by
            rw [← destructure_field body f hd "email", hem]
            exact hfu
          cases hbc : bcryptCompare L ((f "password").getD .null) user.password with
          | error e => simp [hbc] at h
          | ok b =>
            simp only [hbc] at h
            cases b with
            | false => simp at h; subst h; simp at hs
            | true =>
              simp only at h
              unfold jwtSign at h
              cases hk : env.jwtSecret with
              | none => simp [hk] at h
              | some key =>
                simp only [hk, Except.ok.injEq] at h
                subst h
                exact ⟨user, key, hqu, rfl, by simp [Response.json, sessionBody, publicUser]⟩

theorem indexUserQuery_mem (L : Lib) (hq : QueriesStored L) (v : Option JVal) (us : List User)
    (u : User) (h : indexUserQuery L v us = .ok (some u)) : u ∈ us := by
  cases v with
  | none => exact hq.2 _ u h
  | some x => exact findUserByEmail_mem L hq x _ u h

/-- C18: the body of a successful login (200) or registration (201) is a token
and a user object with the fields id, name, email and isAdmin of the stored
user: for a login, the user that the query by the submitted email found (for
an email string, the stored user with that email); for a registration, the
user the request appended to the store.  The body is built from these four
fields, the clock and the signing secret alone, so neither the submitted
password nor the stored hash is part of it.  This holds for `api/auth.js` and
for the login of `api/index.js`. -/
theorem auth_success_body (L : Lib) (env : Env) (w : World) (req : Request)
    (hq : QueriesStored L) (hm : req.method = "POST") :
    ((authPathParts req.url).head? = some "login" → (authHandler L env req w).1.status = 200 →
      ∃ u ∈ w.store.users, ∃ v key, bodyField req.body "email" = some v ∧
        findUserByEmail L v w.store.users = .ok (some u) ∧
        (∀ e, v = .str e → w.store.users.find? (fun x => x.email = e) = some u) ∧
        env.jwtSecret = some key ∧
        (authHandler L env req w).1.body = sessionBody env.now key u) ∧
    ((authPathParts req.url).head? = some "register" → (authHandler L env req w).1.status = 201 →
      ∃ u key, (authHandler L env req w).2.store.users = w.store.users ++ [u] ∧
        env.jwtSecret = some key ∧
        (authHandler L env req w).1.body = sessionBody env.now key u) ∧
    (pathnameOf L req.url = some "/api/auth/login" → (indexHandler L env req w).1.status = 200 →
      ∃ u ∈ w.store.users, ∃ key,
        indexUserQuery L (bodyField req.body "email") w.store.users = .ok (some u) ∧
        env.jwtSecret = some key ∧
        (indexHandler L env req w).1.body = sessionBody env.now key u) := by
  have hne : req.method ≠ "OPTIONS" := by rw [hm]; decide
  refine ⟨?_, ?_, ?_⟩
  · intro hp hs
    have ha := serve_answer (authRoutes L env req) env req w hne
      (by show (authHandler L env req w).1.status ≠ 500; rw [hs]; decide)
    rw [authRoutes_login L env req _ hm hp] at ha
    have h1 : (authLogin L env req.body (connectDB env w).2).1 = .ok (authHandler L env req w).1 := by
      rw [ha]; rfl
    obtain ⟨v, u, key, hv, hfu, hk, hb⟩ :=
      authLogin_found L env req.body (connectDB env w).2 _ h1 hs
    rw [connectDB_store] at hfu
    refine ⟨u, findUserByEmail_mem L hq v _ u hfu, v, key, hv, hfu, ?_, hk, hb⟩
    intro e hve
    subst hve
    simpa [findUserByEmail] using hfu
  · intro hp hs
    rcases authHandler_register_cases L env req w hm hp with ⟨_, h | h⟩ | ⟨f, pw, _, _, h1, h2⟩
    · rw [h] at hs; exact absurd hs (by decide)
    · rw [h] at hs; exact absurd hs (by decide)
    · have hs2 : (sessionResponse env 201 (newUser L env f (L.bcryptHash pw env.salt)).1).status =
          201 := by rw [← h1]; exact hs
      obtain ⟨key, hk, hb⟩ := sessionResponse_success env 201 _ (by decide) hs2
      exact ⟨_, key, by rw [h2], hk, by rw [h1]; exact hb⟩
  · intro hp hs
    have ha := serve_answer (indexRoutes L env req) env req w hne
      (by show (indexHandler L env req w).1.status ≠ 500; rw [hs]; decide)
    have hroute : indexRoutes L env req (connectDB env w).2 =
        indexLogin L env req.body (connectDB env w).2 := by
      unfold indexRoutes
      rw [hp]
      simp [indexBlocks, firstReturn, hm, matchesIdRoute, matchesToggleRoute]
    rw [hroute] at ha
    have h1 : (indexLogin L env req.body (connectDB env w).2).1 = .ok (indexHandler L env req w).1 := by
      rw [ha]; rfl
    obtain ⟨u, key, hfu, hk, hb⟩ := indexLogin_found L env req.body (connectDB env w).2 _ h1 hs
    rw [connectDB_store] at hfu
    exact ⟨u, indexUserQuery_mem L hq _ _ u hfu, key, hfu, hk, hb⟩

theorem auth_success_body_witness :
    (authHandler sampleLib sampleEnv ⟨"POST", "/api/auth/login", some (loginBody "ann@example.com" "pw")⟩
      userWorld).1.status = 200 ∧
    (∃ u ∈ userWorld.store.users, ∃ v key,
      bodyField (some (loginBody "ann@example.com" "pw")) "email" = some v ∧
      findUserByEmail sampleLib v userWorld.store.users = .ok (some u) ∧
      (∀ e, v = .str e → userWorld.store.users.find? (fun x => x.email = e) = some u) ∧
      sampleEnv.jwtSecret = some key ∧
      (authHandler sampleLib sampleEnv
        ⟨"POST", "/api/auth/login", some (loginBody "ann@example.com" "pw")⟩ userWorld).1.body =
        sessionBody sampleEnv.now key u) ∧
    (∃ u key, (authHandler sampleLib sampleEnv
        ⟨"POST", "/api/auth/register", some (registerBody "Bob" "bob@example.com" "secret1")⟩
        userWorld).2.store.users = userWorld.store.users ++ [u] ∧
      sampleEnv.jwtSecret = some key ∧
      (authHandler sampleLib sampleEnv
        ⟨"POST", "/api/auth/register", some (registerBody "Bob" "bob@example.com" "secret1")⟩
        userWorld).1.body = sessionBody sampleEnv.now key u) ∧
    (indexHandler sampleLib sampleEnv ⟨"POST", "/api/auth/login", some (loginBody "ann@example.com" "pw")⟩
      userWorld).1.status = 200 ∧
    (∃ u ∈ userWorld.store.users, ∃ key,
      indexUserQuery sampleLib (bodyField (some (loginBody "ann@example.com" "pw")) "email")
        userWorld.store.users = .ok (some u) ∧
      sampleEnv.jwtSecret = some key ∧
      (indexHandler sampleLib sampleEnv
        ⟨"POST", "/api/auth/login", some (loginBody "ann@example.com" "pw")⟩ userWorld).1.body =
        sessionBody sampleEnv.now key u) :=
  ⟨by decide,
    (auth_success_body sampleLib sampleEnv userWorld
      ⟨"POST", "/api/auth/login", some (loginBody "ann@example.com" "pw")⟩
      ⟨fun _ _ _ h => by simp [sampleLib] at h, fun _ _ h => by simp [sampleLib] at h⟩ rfl).1
      (by decide) (by decide),
    (auth_success_body sampleLib sampleEnv userWorld
      ⟨"POST", "/api/auth/register", some (registerBody "Bob" "bob@example.com" "secret1")⟩
      ⟨fun _ _ _ h => by simp [sampleLib] at h, fun _ _ h => by simp [sampleLib] at h⟩ rfl).2.1
      (by decide) (by decide),
    by decide,
    (auth_success_body sampleLib sampleEnv userWorld
      ⟨"POST", "/api/auth/login", some (loginBody "ann@example.com" "pw")⟩
      ⟨fun _ _ _ h => by simp [sampleLib] at h, fun _ _ h => by simp [sampleLib] at h⟩ rfl).2.2
      (by decide) (by decide)⟩

end Givento
